import Mathlib

/-!
# PlaneGCS wrapper: handle registry and lifecycle layer

A shallow embedding of `SketchSolver` (src/src/wrapper.h).

* `double` values are an arbitrary type `R`; the floating-point operations used
  by the arc constructors are the fields of `FloatOps R`.
* A `double*` into `params_` (a `std::deque<double>`, whose elements never move)
  is the index of the slot it designates.
* `std::map<int, V>` is an association list kept in ascending key order.
* A member function is a state transformer that returns the state it leaves
  behind together with either its result or the exception it raised, so a
  call that throws half-way keeps the mutations made before the throw.
* `GCS::System` is outside the repository sources; it is represented by the
  calls made at its boundary, with its numerical behaviour a parameter.
* `int` counters are unbounded integers: signed overflow is undefined in the
  source and is outside this model.
-/

namespace PlaneGCS

/-! ## Basic types -/

/-- Exceptions: `notFound` is `std::out_of_range` thrown by `std::map::at`;
`undefined` marks an access the C++ standard leaves undefined (a storage index
beyond the end of `params_`). -/
inductive Err where
  | notFound
  | undefined
deriving DecidableEq, Repr

/-- Address of a `double` inside `params_`: the index of its slot. -/
abbrev Addr := Nat

/-- Ordered map `std::map<int, V>`, as its entries in ascending key order. -/
abbrev Map (V : Type) := List (Int × V)

/-- Lookup `std::map::find`: the value stored under key `k`, if any. -/
def Map.find? {V : Type} : Map V → Int → Option V
  | [], _ => none
  | (k', v) :: rest, k => if k' = k then some v else Map.find? rest k

/-- Assignment `m[k] = v` of `std::map`: replaces the value under `k` or inserts
the entry at its place in key order. -/
def Map.assign {V : Type} : Map V → Int → V → Map V
  | [], k, v => [(k, v)]
  | (k', v') :: rest, k, v =>
    if k < k' then (k, v) :: (k', v') :: rest
    else if k = k' then (k, v) :: rest
    else (k', v') :: Map.assign rest k v

/-- Checked lookup `std::map::at`: throws `std::out_of_range` on a missing key. -/
def Map.at {V : Type} (m : Map V) (k : Int) : Except Err V :=
  match Map.find? m k with
  | some v => .ok v
  | none => .error .notFound

/-- Floating-point operations on `double` used by the wrapper (`<cmath>` and the
built-in arithmetic), taken as given. -/
structure FloatOps (R : Type) where
  add : R → R → R
  sub : R → R → R
  mul : R → R → R
  div : R → R → R
  neg : R → R
  lt : R → R → Bool
  sqrt : R → R
  abs : R → R
  cos : R → R
  sin : R → R
  atan2 : R → R → R
  two : R

/-! ## Geometry records (planegcs/Geo.h)

A `double*` member is the index of the slot of `params_` it points to. -/

structure Point where
  x : Nat
  y : Nat
deriving DecidableEq, Repr

structure Line where
  p1 : Point
  p2 : Point
deriving DecidableEq, Repr

structure Circle where
  center : Point
  rad : Nat
deriving DecidableEq, Repr

structure Arc where
  center : Point
  rad : Nat
  startAngle : Nat
  endAngle : Nat
  start : Point
  «end» : Point
deriving DecidableEq, Repr

structure Ellipse where
  center : Point
  focus1 : Point
  radmin : Nat
deriving DecidableEq, Repr

structure ArcOfEllipse where
  center : Point
  focus1 : Point
  radmin : Nat
  startAngle : Nat
  endAngle : Nat
  start : Point
  «end» : Point
deriving DecidableEq, Repr

structure Hyperbola where
  center : Point
  focus1 : Point
  radmin : Nat
deriving DecidableEq, Repr

structure ArcOfHyperbola where
  center : Point
  focus1 : Point
  radmin : Nat
  startAngle : Nat
  endAngle : Nat
  start : Point
  «end» : Point
deriving DecidableEq, Repr

structure Parabola where
  vertex : Point
  focus1 : Point
deriving DecidableEq, Repr

structure ArcOfParabola where
  vertex : Point
  focus1 : Point
  startAngle : Nat
  endAngle : Nat
  start : Point
  «end» : Point
deriving DecidableEq, Repr

/-! ## The external engine `GCS::System`, seen at its boundary -/

inductive Algorithm where
  | BFGS
  | LevenbergMarquardt
  | DogLeg
deriving DecidableEq, Repr

inductive SolveStatus where
  | Success
  | Converged
  | Failed
  | SuccessfulSolutionInvalid
deriving DecidableEq, Repr

/-- The `addConstraintXxx` member of `GCS::System` a registration forwards to. -/
inductive CKind where
  | P2PCoincident | Equal | Proportional | Difference | P2PDistance | P2PAngle
  | P2LDistance | PointOnLine | PointOnPerpBisector | Parallel | Perpendicular
  | L2LAngle | MidpointOnLine | Horizontal | Vertical | CoordinateX | CoordinateY
  | PointOnCircle | PointOnEllipse | PointOnArc | ArcRules | ArcOfEllipseRules
  | ArcOfHyperbolaRules | ArcOfParabolaRules | Tangent | CircleRadius | ArcRadius
  | CircleDiameter | ArcDiameter | EqualLength | EqualRadius | P2PSymmetric
  | P2CDistance | C2CDistance | C2LDistance | ArcLength
  | InternalAlignmentPoint2Ellipse | InternalAlignmentEllipseMajorDiameter
  | InternalAlignmentEllipseMinorDiameter | InternalAlignmentEllipseFocus1
  | InternalAlignmentEllipseFocus2 | TangentCircumf
deriving DecidableEq, Repr

/-- An argument of a registration call as the caller writes it: a handle of
some map, or a plain value passed through. -/
inductive HArg (R : Type) where
  | point (id : Int)
  | line (id : Int)
  | circle (id : Int)
  | arc (id : Int)
  | ellipse (id : Int)
  | arcOfEllipse (id : Int)
  | arcOfHyperbola (id : Int)
  | arcOfParabola (id : Int)
  | param (id : Int)
  | value (v : R)
  | flag (b : Bool)
  | alignment (ty : Nat)

/-- An argument as the engine receives it: the primitive or address the handle
resolved to. -/
inductive EArg (R : Type) where
  | point (p : Point)
  | line (l : Line)
  | circle (c : Circle)
  | arc (a : Arc)
  | ellipse (e : Ellipse)
  | arcOfEllipse (a : ArcOfEllipse)
  | arcOfHyperbola (a : ArcOfHyperbola)
  | arcOfParabola (a : ArcOfParabola)
  | param (p : Addr)
  | value (v : R)
  | flag (b : Bool)
  | alignment (ty : Nat)

/-- One constraint as forwarded to the engine. -/
structure Constraint (R : Type) where
  kind : CKind
  args : List (EArg R)
  tag : Int
  driving : Bool

/-- A call made on `system_`. -/
inductive Call (R : Type) where
  | addConstraint (c : Constraint R)
  | declareUnknowns (params : List Addr)
  | initSolution (alg : Algorithm)
  | solve (recalculate : Bool) (alg : Algorithm)
  | applySolution
  | diagnose (alg : Algorithm)
  | dofsNumber
  | getConflicting
  | getRedundant
  | getPartiallyRedundant
  | calculateConstraintErrorByTag (tag : Int)
  | clearByTag (tag : Int)
  | clear

/-- Modelled from the spec: the state of `GCS::System` (planegcs/GCS.h, absent
from the sources) as far as its interface shows it: the constraints in its
working set, the unknown list last declared, and the calls received so far. -/
structure System (R : Type) where
  constraints : List (Constraint R) := []
  unknowns : List Addr := []
  calls : List (Call R) := []

/-- Modelled from the spec: what the engine computes, left open. Writes are
pairs of an address and the value stored through it. -/
structure Engine (R : Type) where
  solve : System R → List R → Algorithm → SolveStatus × List (Addr × R)
  applySolution : System R → List R → List (Addr × R)
  dofsNumber : System R → List R → Int
  getConflicting : System R → List R → List Int
  getRedundant : System R → List R → List Int
  getPartiallyRedundant : System R → List R → List Int
  calculateConstraintErrorByTag : System R → List R → Int → R

/-- Stores performed by the engine through addresses it holds. -/
def applyWrites {R : Type} (params : List R) (ws : List (Addr × R)) : List R :=
  ws.foldl (fun ps w => ps.set w.1 w.2) params

/-! ## Registry state: the private members of `SketchSolver` -/

structure State (R : Type) where
  system_ : System R := {}
  params_ : List R := []
  param_index_ : Map Nat := []
  param_fixed_ : Map Bool := []
  points_ : Map Point := []
  point_param_ids_ : Map (Int × Int) := []
  lines_ : Map Line := []
  circles_ : Map Circle := []
  circle_rad_param_ : Map Int := []
  arcs_ : Map Arc := []
  ellipses_ : Map Ellipse := []
  arcs_of_ellipse_ : Map ArcOfEllipse := []
  hyperbolas_ : Map Hyperbola := []
  arcs_of_hyperbola_ : Map ArcOfHyperbola := []
  parabolas_ : Map Parabola := []
  arcs_of_parabola_ : Map ArcOfParabola := []
  next_param_id_ : Int := 0
  next_geo_id_ : Int := 0
  next_constraint_tag_ : Int := 1

/-- A freshly constructed `SketchSolver` (the member initialisers). -/
def State.init (R : Type) : State R := {}

/-- A member function: from the state before the call to the state after it and
the value returned or exception thrown. -/
def M (R : Type) (α : Type) : Type := State R → State R × Except Err α

instance (R : Type) : Monad (M R) where
  pure a := fun s => (s, .ok a)
  bind m f := fun s =>
    match m s with
    | (s1, .ok a) => f a s1
    | (s1, .error e) => (s1, .error e)

/-- Read the current state. -/
def getS {R : Type} : M R (State R) := fun s => (s, .ok s)

/-- Update the current state. -/
def modifyS {R : Type} (f : State R → State R) : M R Unit := fun s => (f s, .ok ())

/-- Raise an exception, or continue with the value. -/
def liftE {R α : Type} (x : Except Err α) : M R α := fun s => (s, x)

/-- Read through an address: `*p`. -/
def deref {R : Type} (p : Addr) : M R R := fun s =>
  match s.params_[p]? with
  | some v => (s, .ok v)
  | none => (s, .error .undefined)

/-- Post-increment of a counter field: `next_geo_id_++`. -/
def nextGeoId {R : Type} : M R Int := fun s =>
  ({ s with next_geo_id_ := s.next_geo_id_ + 1 }, .ok s.next_geo_id_)

/-! ## Parameter allocation -/

/-- Source `add_param`: takes the next parameter id, appends the value to
`params_`, records its index and fixed flag. -/
def add_param {R : Type} (value : R) (fixed : Bool := false) : M R Int := do
  let s ← getS
  let id := s.next_param_id_
  modifyS fun s => { s with next_param_id_ := s.next_param_id_ + 1 }
  modifyS fun s => { s with params_ := s.params_ ++ [value] }
  let s ← getS
  let idx := s.params_.length - 1
  modifyS fun s => { s with param_index_ := Map.assign s.param_index_ id idx }
  modifyS fun s => { s with param_fixed_ := Map.assign s.param_fixed_ id fixed }
  pure id

/-- Source `param_ptr`: `&params_[param_index_.at(id)]`. -/
def param_ptr {R : Type} (id : Int) : M R Addr := do
  let s ← getS
  liftE (Map.at s.param_index_ id)

/-- Source `get_param`: `params_[param_index_.at(id)]`. -/
def get_param {R : Type} (id : Int) : M R R := do
  let s ← getS
  let idx ← liftE (Map.at s.param_index_ id)
  deref idx

/-- Source `set_param`: `params_[param_index_.at(id)] = value`. -/
def set_param {R : Type} (id : Int) (value : R) : M R Unit := do
  let s ← getS
  let idx ← liftE (Map.at s.param_index_ id)
  if idx < s.params_.length then
    modifyS fun s => { s with params_ := s.params_.set idx value }
  else
    liftE (.error .undefined)

/-- Source `is_param_fixed`: a `find` that yields false for an unknown id. -/
def is_param_fixed {R : Type} (s : State R) (id : Int) : Bool :=
  match Map.find? s.param_fixed_ id with
  | some b => b
  | none => false

/-- Source `set_param_fixed`: `param_fixed_[id] = fixed`. -/
def set_param_fixed {R : Type} (id : Int) (fixed : Bool) : M R Unit :=
  modifyS fun s => { s with param_fixed_ := Map.assign s.param_fixed_ id fixed }

/-! ## Geometry -/

/-- Source `add_point`. -/
def add_point {R : Type} (x y : R) : M R Int := do
  let px ← add_param x
  let py ← add_param y
  let id ← nextGeoId
  let ax ← param_ptr px
  let ay ← param_ptr py
  let p : Point := { x := ax, y := ay }
  modifyS fun s => { s with points_ := Map.assign s.points_ id p }
  modifyS fun s => { s with point_param_ids_ := Map.assign s.point_param_ids_ id (px, py) }
  pure id

/-- Source `get_point`. -/
def get_point {R : Type} (id : Int) : M R (R × R) := do
  let s ← getS
  let p ← liftE (Map.at s.points_ id)
  let x ← deref p.x
  let y ← deref p.y
  pure (x, y)

/-- Source `add_line(int, int)`. -/
def add_line {R : Type} (p1_id p2_id : Int) : M R Int := do
  let id ← nextGeoId
  let s ← getS
  let p1 ← liftE (Map.at s.points_ p1_id)
  let p2 ← liftE (Map.at s.points_ p2_id)
  let l : Line := { p1 := p1, p2 := p2 }
  modifyS fun s => { s with lines_ := Map.assign s.lines_ id l }
  pure id

/-- Source `add_line(double, double, double, double)`. -/
def add_line_coords {R : Type} (x1 y1 x2 y2 : R) : M R Int := do
  let p1 ← add_point x1 y1
  let p2 ← add_point x2 y2
  add_line p1 p2

/-- Source `add_circle`. -/
def add_circle {R : Type} (center_id : Int) (radius : R) : M R Int := do
  let rad_id ← add_param radius
  let id ← nextGeoId
  let s ← getS
  let center ← liftE (Map.at s.points_ center_id)
  let rad ← param_ptr rad_id
  let c : Circle := { center := center, rad := rad }
  modifyS fun s => { s with circles_ := Map.assign s.circles_ id c }
  modifyS fun s => { s with circle_rad_param_ := Map.assign s.circle_rad_param_ id rad_id }
  pure id

/-- Source `add_arc_from_center`. -/
def add_arc_from_center {R : Type} (F : FloatOps R) (center_id : Int)
    (radius start_angle end_angle : R) : M R Int := do
  let rad_id ← add_param radius
  let sa_id ← add_param start_angle
  let ea_id ← add_param end_angle
  let s ← getS
  let c ← liftE (Map.at s.points_ center_id)
  let cx ← deref c.x
  let s ← getS
  let c ← liftE (Map.at s.points_ center_id)
  let cy ← deref c.y
  let sp ← add_point (F.add cx (F.mul radius (F.cos start_angle)))
    (F.add cy (F.mul radius (F.sin start_angle)))
  let ep ← add_point (F.add cx (F.mul radius (F.cos end_angle)))
    (F.add cy (F.mul radius (F.sin end_angle)))
  let id ← nextGeoId
  let s ← getS
  let center ← liftE (Map.at s.points_ center_id)
  let rad ← param_ptr rad_id
  let startAngle ← param_ptr sa_id
  let endAngle ← param_ptr ea_id
  let s ← getS
  let start ← liftE (Map.at s.points_ sp)
  let stop ← liftE (Map.at s.points_ ep)
  let a : Arc := { center := center, rad := rad, startAngle := startAngle,
                   endAngle := endAngle, start := start, «end» := stop }
  modifyS fun s => { s with arcs_ := Map.assign s.arcs_ id a }
  pure id

/-- The values `add_arc_from_start_end` derives from the end points
`(sx, sy)`, `(ex, ey)` and the radius value read through `radius_id`: the
center `(cx, cy)` and the start and end angles, in the order and with the
intermediate names of the source. -/
def arc_from_start_end_values {R : Type} (F : FloatOps R) (sx sy ex ey radius : R) :
    (R × R) × (R × R) :=
  let dx := F.sub ex sx
  let dy := F.sub ey sy
  let half_chord := F.div (F.sqrt (F.add (F.mul dx dx) (F.mul dy dy))) F.two
  let r := F.abs radius
  let r := if F.lt r half_chord then half_chord else r
  let h := F.sqrt (F.sub (F.mul r r) (F.mul half_chord half_chord))
  let mx := F.div (F.add sx ex) F.two
  let my := F.div (F.add sy ey) F.two
  let perp_x := F.div (F.neg dy) (F.mul F.two half_chord)
  let perp_y := F.div dx (F.mul F.two half_chord)
  let cx := F.add mx (F.mul h perp_x)
  let cy := F.add my (F.mul h perp_y)
  let start_angle := F.atan2 (F.sub sy cy) (F.sub sx cx)
  let end_angle := F.atan2 (F.sub ey cy) (F.sub ex cx)
  ((cx, cy), (start_angle, end_angle))

/-- Post-increment `next_constraint_tag_++`. -/
def nextTag {R : Type} : M R Int := fun s =>
  ({ s with next_constraint_tag_ := s.next_constraint_tag_ + 1 }, .ok s.next_constraint_tag_)

/-- The engine receives a call (kept in the trace). -/
def System.record {R : Type} (sys : System R) (c : Call R) : System R :=
  { sys with calls := sys.calls ++ [c] }

/-- Engine side of `system_.addConstraintXxx(..., tag, driving)`: the constraint
joins the working set. -/
def System.addConstraint {R : Type} (sys : System R) (c : Constraint R) : System R :=
  { sys with constraints := sys.constraints ++ [c], calls := sys.calls ++ [.addConstraint c] }

/-- Engine side of `declareUnknowns`. -/
def System.declareUnknowns {R : Type} (sys : System R) (params : List Addr) : System R :=
  { sys with unknowns := params, calls := sys.calls ++ [.declareUnknowns params] }

/-- Modelled from the spec: whether a tag is currently registered with the
engine, that is, carried by a constraint of its working set. -/
def System.hasTag {R : Type} (sys : System R) (tag : Int) : Bool :=
  sys.constraints.any (fun c => decide (c.tag = tag))

/-- Modelled from the spec: engine side of `clearByTag` (planegcs/GCS.cpp, absent
from the sources), which removes the constraints carrying the tag from the
working set and fails with NotFound for a tag not currently registered. -/
def System.clearByTag {R : Type} (sys : System R) (tag : Int) : Except Err (System R) :=
  if sys.hasTag tag then
    .ok { sys with constraints := sys.constraints.filter (fun c => decide (c.tag ≠ tag)),
                   calls := sys.calls ++ [.clearByTag tag] }
  else .error .notFound

/-- Modelled from the spec: engine side of `calculateConstraintErrorByTag`
(planegcs/GCS.cpp, absent from the sources), which yields the current residual
of the constraints carrying the tag and fails with NotFound for a tag not
currently registered. -/
def System.calculateConstraintErrorByTag {R : Type} (E : Engine R) (sys : System R)
    (params : List R) (tag : Int) : Except Err R :=
  if sys.hasTag tag then .ok (E.calculateConstraintErrorByTag sys params tag)
  else .error .notFound

/-- Modelled from the spec: engine side of `clear`, which resets the engine's
internal model. -/
def System.clear {R : Type} (sys : System R) : System R :=
  { constraints := [], unknowns := [], calls := sys.calls ++ [.clear] }

/-- How an argument expression of a registration resolves its handle:
`points_.at(id)`, `lines_.at(id)`, ..., `param_ptr(id)`; plain values pass. -/
def resolve {R : Type} (s : State R) : HArg R → Except Err (EArg R)
  | .point id => (Map.at s.points_ id).map .point
  | .line id => (Map.at s.lines_ id).map .line
  | .circle id => (Map.at s.circles_ id).map .circle
  | .arc id => (Map.at s.arcs_ id).map .arc
  | .ellipse id => (Map.at s.ellipses_ id).map .ellipse
  | .arcOfEllipse id => (Map.at s.arcs_of_ellipse_ id).map .arcOfEllipse
  | .arcOfHyperbola id => (Map.at s.arcs_of_hyperbola_ id).map .arcOfHyperbola
  | .arcOfParabola id => (Map.at s.arcs_of_parabola_ id).map .arcOfParabola
  | .param id => (Map.at s.param_index_ id).map .param
  | .value v => .ok (.value v)
  | .flag b => .ok (.flag b)
  | .alignment ty => .ok (.alignment ty)

/-- The argument expressions of one call, resolved in order; the first failing
lookup throws. -/
def resolveAll {R : Type} (s : State R) : List (HArg R) → Except Err (List (EArg R))
  | [] => .ok []
  | a :: rest =>
    match resolve s a with
    | .error e => .error e
    | .ok x =>
      match resolveAll s rest with
      | .error e => .error e
      | .ok xs => .ok (x :: xs)

/-- The body shared by every constraint member function:
`int tag = next_constraint_tag_++; system_.addConstraintK(args..., tag, driving);
return tag;`. The argument expressions are evaluated (left to right here; each
only reads the registry) before the engine is called, so a failing lookup
throws with the tag already taken and nothing forwarded. -/
def register {R : Type} (kind : CKind) (args : List (HArg R)) (driving : Bool) : M R Int := do
  let tag ← nextTag
  let s ← getS
  let eargs ← liftE (resolveAll s args)
  let c : Constraint R := { kind := kind, args := eargs, tag := tag, driving := driving }
  modifyS fun s => { s with system_ := System.addConstraint s.system_ c }
  pure tag

/-- Source `coincident`. -/
def coincident {R : Type} (pt1_id pt2_id : Int) (driving : Bool := true) : M R Int :=
  register .P2PCoincident [.point pt1_id, .point pt2_id] driving

/-- Source `arc_rules`. -/
def arc_rules {R : Type} (arc_id : Int) (driving : Bool := true) : M R Int :=
  register .ArcRules [.arc arc_id] driving

/-- Source `add_arc_from_start_end`. -/
def add_arc_from_start_end {R : Type} (F : FloatOps R) (start_id end_id radius_id : Int) :
    M R Int := do
  let s ← getS
  let ps ← liftE (Map.at s.points_ start_id)
  let sx ← deref ps.x
  let ps ← liftE (Map.at s.points_ start_id)
  let sy ← deref ps.y
  let pe ← liftE (Map.at s.points_ end_id)
  let ex ← deref pe.x
  let pe ← liftE (Map.at s.points_ end_id)
  let ey ← deref pe.y
  let pr ← param_ptr radius_id
  let radius ← deref pr
  let v := arc_from_start_end_values F sx sy ex ey radius
  let center ← add_point v.1.1 v.1.2
  let rad_id := radius_id
  let sa_id ← add_param v.2.1
  let ea_id ← add_param v.2.2
  let sp ← add_point sx sy
  let ep ← add_point ex ey
  let id ← nextGeoId
  let s ← getS
  let c ← liftE (Map.at s.points_ center)
  let rad ← param_ptr rad_id
  let startAngle ← param_ptr sa_id
  let endAngle ← param_ptr ea_id
  let start ← liftE (Map.at s.points_ sp)
  let stop ← liftE (Map.at s.points_ ep)
  let a : Arc := { center := c, rad := rad, startAngle := startAngle,
                   endAngle := endAngle, start := start, «end» := stop }
  modifyS fun s => { s with arcs_ := Map.assign s.arcs_ id a }
  let _ ← arc_rules id
  let _ ← coincident sp start_id
  let _ ← coincident ep end_id
  pure id

/-- Source `get_arc_center`. -/
def get_arc_center {R : Type} (arc_id : Int) : M R (R × R) := do
  let s ← getS
  let a ← liftE (Map.at s.arcs_ arc_id)
  let x ← deref a.center.x
  let y ← deref a.center.y
  pure (x, y)

/-- Source `get_arc_radius`. -/
def get_arc_radius {R : Type} (arc_id : Int) : M R R := do
  let s ← getS
  let a ← liftE (Map.at s.arcs_ arc_id)
  deref a.rad

/-- Source `get_arc_start_angle`. -/
def get_arc_start_angle {R : Type} (arc_id : Int) : M R R := do
  let s ← getS
  let a ← liftE (Map.at s.arcs_ arc_id)
  deref a.startAngle

/-- Source `get_arc_end_angle`. -/
def get_arc_end_angle {R : Type} (arc_id : Int) : M R R := do
  let s ← getS
  let a ← liftE (Map.at s.arcs_ arc_id)
  deref a.endAngle

/-- Source `get_arc_start_point`. -/
def get_arc_start_point {R : Type} (arc_id : Int) : M R (R × R) := do
  let s ← getS
  let a ← liftE (Map.at s.arcs_ arc_id)
  let x ← deref a.start.x
  let y ← deref a.start.y
  pure (x, y)

/-- Source `get_arc_end_point`. -/
def get_arc_end_point {R : Type} (arc_id : Int) : M R (R × R) := do
  let s ← getS
  let a ← liftE (Map.at s.arcs_ arc_id)
  let x ← deref a.«end».x
  let y ← deref a.«end».y
  pure (x, y)

/-- Source `add_ellipse`. -/
def add_ellipse {R : Type} (center_id focus1_id : Int) (radmin : R) : M R Int := do
  let rm_id ← add_param radmin
  let id ← nextGeoId
  let s ← getS
  let center ← liftE (Map.at s.points_ center_id)
  let focus1 ← liftE (Map.at s.points_ focus1_id)
  let rm ← param_ptr rm_id
  let e : Ellipse := { center := center, focus1 := focus1, radmin := rm }
  modifyS fun s => { s with ellipses_ := Map.assign s.ellipses_ id e }
  pure id

/-- Source `add_arc_of_ellipse`. -/
def add_arc_of_ellipse {R : Type} (center_id focus1_id : Int) (radmin start_angle end_angle : R)
    (start_id end_id : Int) : M R Int := do
  let rm_id ← add_param radmin
  let sa_id ← add_param start_angle
  let ea_id ← add_param end_angle
  let id ← nextGeoId
  let s ← getS
  let center ← liftE (Map.at s.points_ center_id)
  let focus1 ← liftE (Map.at s.points_ focus1_id)
  let rm ← param_ptr rm_id
  let sa ← param_ptr sa_id
  let ea ← param_ptr ea_id
  let start ← liftE (Map.at s.points_ start_id)
  let stop ← liftE (Map.at s.points_ end_id)
  let ae : ArcOfEllipse := { center := center, focus1 := focus1, radmin := rm,
                              startAngle := sa, endAngle := ea, start := start, «end» := stop }
  modifyS fun s => { s with arcs_of_ellipse_ := Map.assign s.arcs_of_ellipse_ id ae }
  pure id

/-- Source `add_hyperbola`. -/
def add_hyperbola {R : Type} (center_id focus1_id : Int) (radmin : R) : M R Int := do
  let rm_id ← add_param radmin
  let id ← nextGeoId
  let s ← getS
  let center ← liftE (Map.at s.points_ center_id)
  let focus1 ← liftE (Map.at s.points_ focus1_id)
  let rm ← param_ptr rm_id
  let h : Hyperbola := { center := center, focus1 := focus1, radmin := rm }
  modifyS fun s => { s with hyperbolas_ := Map.assign s.hyperbolas_ id h }
  pure id

/-- Source `add_arc_of_hyperbola`. -/
def add_arc_of_hyperbola {R : Type} (center_id focus1_id : Int)
    (radmin start_angle end_angle : R) (start_id end_id : Int) : M R Int := do
  let rm_id ← add_param radmin
  let sa_id ← add_param start_angle
  let ea_id ← add_param end_angle
  let id ← nextGeoId
  let s ← getS
  let center ← liftE (Map.at s.points_ center_id)
  let focus1 ← liftE (Map.at s.points_ focus1_id)
  let rm ← param_ptr rm_id
  let sa ← param_ptr sa_id
  let ea ← param_ptr ea_id
  let start ← liftE (Map.at s.points_ start_id)
  let stop ← liftE (Map.at s.points_ end_id)
  let ah : ArcOfHyperbola := { center := center, focus1 := focus1, radmin := rm,
                               startAngle := sa, endAngle := ea, start := start, «end» := stop }
  modifyS fun s => { s with arcs_of_hyperbola_ := Map.assign s.arcs_of_hyperbola_ id ah }
  pure id

/-- Source `add_parabola`. -/
def add_parabola {R : Type} (vertex_id focus1_id : Int) : M R Int := do
  let id ← nextGeoId
  let s ← getS
  let vertex ← liftE (Map.at s.points_ vertex_id)
  let focus1 ← liftE (Map.at s.points_ focus1_id)
  let p : Parabola := { vertex := vertex, focus1 := focus1 }
  modifyS fun s => { s with parabolas_ := Map.assign s.parabolas_ id p }
  pure id

/-- Source `add_arc_of_parabola`. -/
def add_arc_of_parabola {R : Type} (vertex_id focus1_id : Int) (start_angle end_angle : R)
    (start_id end_id : Int) : M R Int := do
  let sa_id ← add_param start_angle
  let ea_id ← add_param end_angle
  let id ← nextGeoId
  let s ← getS
  let vertex ← liftE (Map.at s.points_ vertex_id)
  let focus1 ← liftE (Map.at s.points_ focus1_id)
  let sa ← param_ptr sa_id
  let ea ← param_ptr ea_id
  let start ← liftE (Map.at s.points_ start_id)
  let stop ← liftE (Map.at s.points_ end_id)
  let ap : ArcOfParabola := { vertex := vertex, focus1 := focus1,
                              startAngle := sa, endAngle := ea, start := start, «end» := stop }
  modifyS fun s => { s with arcs_of_parabola_ := Map.assign s.arcs_of_parabola_ id ap }
  pure id

/-! ## Solving -/

/-- Source `declare_unknowns`: walks `param_index_` in key order and collects
the address of every parameter that is not fixed. -/
def declare_unknowns {R : Type} : M R Unit := do
  let s ← getS
  let params : List Addr :=
    (s.param_index_.filter (fun e => !is_param_fixed s e.1)).map (fun e => e.2)
  modifyS fun s => { s with system_ := System.declareUnknowns s.system_ params }

/-- Source `init_solution`. -/
def init_solution {R : Type} (alg : Algorithm := .DogLeg) : M R Unit :=
  modifyS fun s => { s with system_ := System.record s.system_ (.initSolution alg) }

/-- Source `apply_solution`: the engine stores its solution through the
addresses it holds. -/
def apply_solution {R : Type} (E : Engine R) : M R Unit :=
  modifyS fun s => { s with
    params_ := applyWrites s.params_ (E.applySolution s.system_ s.params_)
    system_ := System.record s.system_ .applySolution }

/-- Source `solve`. -/
def solve {R : Type} (E : Engine R) (alg : Algorithm := .DogLeg) : M R SolveStatus := do
  declare_unknowns
  init_solution alg
  let s ← getS
  let r := E.solve s.system_ s.params_ alg
  modifyS fun s => { s with
    params_ := applyWrites s.params_ r.2
    system_ := System.record s.system_ (.solve true alg) }
  let status := r.1
  if status = .Success ∨ status = .Converged then
    apply_solution E
  pure status

/-- Source `DiagnosisResult`. -/
structure DiagnosisResult where
  dof : Int
  conflicting : List Int
  redundant : List Int
  partially_redundant : List Int
deriving DecidableEq, Repr

/-- Source `dof`; the engine's `diagnose()` is called without an argument and
takes its default algorithm, DogLeg. -/
def dof {R : Type} (E : Engine R) : M R Int := do
  declare_unknowns
  init_solution
  modifyS fun s => { s with system_ := System.record s.system_ (.diagnose .DogLeg) }
  let s ← getS
  let n := E.dofsNumber s.system_ s.params_
  modifyS fun s => { s with system_ := System.record s.system_ .dofsNumber }
  pure n

/-- Source `diagnose`. -/
def diagnose {R : Type} (E : Engine R) (alg : Algorithm := .DogLeg) : M R DiagnosisResult := do
  declare_unknowns
  init_solution alg
  modifyS fun s => { s with system_ := System.record s.system_ (.diagnose alg) }
  let s ← getS
  let n := E.dofsNumber s.system_ s.params_
  modifyS fun s => { s with system_ := System.record s.system_ .dofsNumber }
  let s ← getS
  let conflicting := E.getConflicting s.system_ s.params_
  modifyS fun s => { s with system_ := System.record s.system_ .getConflicting }
  let s ← getS
  let redundant := E.getRedundant s.system_ s.params_
  modifyS fun s => { s with system_ := System.record s.system_ .getRedundant }
  let s ← getS
  let partially := E.getPartiallyRedundant s.system_ s.params_
  modifyS fun s => { s with system_ := System.record s.system_ .getPartiallyRedundant }
  pure { dof := n, conflicting := conflicting, redundant := redundant,
         partially_redundant := partially }

/-- Source `clear`. -/
def clear {R : Type} : M R Unit :=
  modifyS fun s =>
    { system_ := System.clear s.system_
      params_ := []
      param_index_ := []
      param_fixed_ := []
      points_ := []
      point_param_ids_ := []
      lines_ := []
      circles_ := []
      circle_rad_param_ := []
      arcs_ := []
      ellipses_ := []
      arcs_of_ellipse_ := []
      hyperbolas_ := []
      arcs_of_hyperbola_ := []
      parabolas_ := []
      arcs_of_parabola_ := []
      next_param_id_ := 0
      next_geo_id_ := 0
      next_constraint_tag_ := 1 }

/-- Source `clear_by_tag`: forwards to the engine, whose exception passes
through. -/
def clear_by_tag {R : Type} (tag : Int) : M R Unit := do
  let s ← getS
  let sys ← liftE (System.clearByTag s.system_ tag)
  modifyS fun s => { s with system_ := sys }

/-- Source `constraint_error`: forwards to the engine, whose exception passes
through. -/
def constraint_error {R : Type} (E : Engine R) (tag : Int) : M R R := do
  let s ← getS
  let v ← liftE (System.calculateConstraintErrorByTag E s.system_ s.params_ tag)
  modifyS fun s => { s with
    system_ := System.record s.system_ (.calculateConstraintErrorByTag tag) }
  pure v

/-! ## Constraints: one definition per member function -/

/-- Source `equal`. -/
def equal {R : Type} (param1_id : Int) (param2_id : Int) (driving : Bool := true) : M R Int :=
  register .Equal [.param param1_id, .param param2_id] driving

/-- Source `proportional`. -/
def proportional {R : Type} (param1_id : Int) (param2_id : Int) (ratio : R) (driving : Bool := true) : M R Int :=
  register .Proportional [.param param1_id, .param param2_id, .value ratio] driving

/-- Source `difference`. -/
def difference {R : Type} (param1_id : Int) (param2_id : Int) (diff_id : Int) (driving : Bool := true) : M R Int :=
  register .Difference [.param param1_id, .param param2_id, .param diff_id] driving

/-- Source `p2p_distance`. -/
def p2p_distance {R : Type} (pt1_id : Int) (pt2_id : Int) (distance_id : Int) (driving : Bool := true) : M R Int :=
  register .P2PDistance [.point pt1_id, .point pt2_id, .param distance_id] driving

/-- Source `p2p_angle`. -/
def p2p_angle {R : Type} (pt1_id : Int) (pt2_id : Int) (angle_id : Int) (driving : Bool := true) : M R Int :=
  register .P2PAngle [.point pt1_id, .point pt2_id, .param angle_id] driving

/-- Source `p2p_angle_incr`. -/
def p2p_angle_incr {R : Type} (pt1_id : Int) (pt2_id : Int) (angle_id : Int) (incr_angle : R) (driving : Bool := true) : M R Int :=
  register .P2PAngle [.point pt1_id, .point pt2_id, .param angle_id, .value incr_angle] driving

/-- Source `p2l_distance`. -/
def p2l_distance {R : Type} (pt_id : Int) (line_id : Int) (distance_id : Int) (driving : Bool := true) : M R Int :=
  register .P2LDistance [.point pt_id, .line line_id, .param distance_id] driving

/-- Source `point_on_line`. -/
def point_on_line {R : Type} (pt_id : Int) (line_id : Int) (driving : Bool := true) : M R Int :=
  register .PointOnLine [.point pt_id, .line line_id] driving

/-- Source `point_on_line_2pts`. -/
def point_on_line_2pts {R : Type} (pt_id : Int) (lp1_id : Int) (lp2_id : Int) (driving : Bool := true) : M R Int :=
  register .PointOnLine [.point pt_id, .point lp1_id, .point lp2_id] driving

/-- Source `point_on_perp_bisector`. -/
def point_on_perp_bisector {R : Type} (pt_id : Int) (line_id : Int) (driving : Bool := true) : M R Int :=
  register .PointOnPerpBisector [.point pt_id, .line line_id] driving

/-- Source `parallel`. -/
def parallel {R : Type} (l1_id : Int) (l2_id : Int) (driving : Bool := true) : M R Int :=
  register .Parallel [.line l1_id, .line l2_id] driving

/-- Source `perpendicular`. -/
def perpendicular {R : Type} (l1_id : Int) (l2_id : Int) (driving : Bool := true) : M R Int :=
  register .Perpendicular [.line l1_id, .line l2_id] driving

/-- Source `l2l_angle`. -/
def l2l_angle {R : Type} (l1_id : Int) (l2_id : Int) (angle_id : Int) (driving : Bool := true) : M R Int :=
  register .L2LAngle [.line l1_id, .line l2_id, .param angle_id] driving

/-- Source `midpoint_on_line`. -/
def midpoint_on_line {R : Type} (l1_id : Int) (l2_id : Int) (driving : Bool := true) : M R Int :=
  register .MidpointOnLine [.line l1_id, .line l2_id] driving

/-- Source `horizontal_line`. -/
def horizontal_line {R : Type} (line_id : Int) (driving : Bool := true) : M R Int :=
  register .Horizontal [.line line_id] driving

/-- Source `horizontal_points`. -/
def horizontal_points {R : Type} (p1_id : Int) (p2_id : Int) (driving : Bool := true) : M R Int :=
  register .Horizontal [.point p1_id, .point p2_id] driving

/-- Source `vertical_line`. -/
def vertical_line {R : Type} (line_id : Int) (driving : Bool := true) : M R Int :=
  register .Vertical [.line line_id] driving

/-- Source `vertical_points`. -/
def vertical_points {R : Type} (p1_id : Int) (p2_id : Int) (driving : Bool := true) : M R Int :=
  register .Vertical [.point p1_id, .point p2_id] driving

/-- Source `coordinate_x`. -/
def coordinate_x {R : Type} (pt_id : Int) (x_id : Int) (driving : Bool := true) : M R Int :=
  register .CoordinateX [.point pt_id, .param x_id] driving

/-- Source `coordinate_y`. -/
def coordinate_y {R : Type} (pt_id : Int) (y_id : Int) (driving : Bool := true) : M R Int :=
  register .CoordinateY [.point pt_id, .param y_id] driving

/-- Source `point_on_circle`. -/
def point_on_circle {R : Type} (pt_id : Int) (circle_id : Int) (driving : Bool := true) : M R Int :=
  register .PointOnCircle [.point pt_id, .circle circle_id] driving

/-- Source `point_on_ellipse`. -/
def point_on_ellipse {R : Type} (pt_id : Int) (ellipse_id : Int) (driving : Bool := true) : M R Int :=
  register .PointOnEllipse [.point pt_id, .ellipse ellipse_id] driving

/-- Source `point_on_arc`. -/
def point_on_arc {R : Type} (pt_id : Int) (arc_id : Int) (driving : Bool := true) : M R Int :=
  register .PointOnArc [.point pt_id, .arc arc_id] driving

/-- Source `arc_of_ellipse_rules`. -/
def arc_of_ellipse_rules {R : Type} (aoe_id : Int) (driving : Bool := true) : M R Int :=
  register .ArcOfEllipseRules [.arcOfEllipse aoe_id] driving

/-- Source `arc_of_hyperbola_rules`. -/
def arc_of_hyperbola_rules {R : Type} (aoh_id : Int) (driving : Bool := true) : M R Int :=
  register .ArcOfHyperbolaRules [.arcOfHyperbola aoh_id] driving

/-- Source `arc_of_parabola_rules`. -/
def arc_of_parabola_rules {R : Type} (aop_id : Int) (driving : Bool := true) : M R Int :=
  register .ArcOfParabolaRules [.arcOfParabola aop_id] driving

/-- Source `tangent_line_circle`. -/
def tangent_line_circle {R : Type} (line_id : Int) (circle_id : Int) (driving : Bool := true) : M R Int :=
  register .Tangent [.line line_id, .circle circle_id] driving

/-- Source `tangent_line_ellipse`. -/
def tangent_line_ellipse {R : Type} (line_id : Int) (ellipse_id : Int) (driving : Bool := true) : M R Int :=
  register .Tangent [.line line_id, .ellipse ellipse_id] driving

/-- Source `tangent_line_arc`. -/
def tangent_line_arc {R : Type} (line_id : Int) (arc_id : Int) (driving : Bool := true) : M R Int :=
  register .Tangent [.line line_id, .arc arc_id] driving

/-- Source `tangent_circle_circle`. -/
def tangent_circle_circle {R : Type} (c1_id : Int) (c2_id : Int) (driving : Bool := true) : M R Int :=
  register .Tangent [.circle c1_id, .circle c2_id] driving

/-- Source `tangent_arc_arc`. -/
def tangent_arc_arc {R : Type} (a1_id : Int) (a2_id : Int) (driving : Bool := true) : M R Int :=
  register .Tangent [.arc a1_id, .arc a2_id] driving

/-- Source `tangent_circle_arc`. -/
def tangent_circle_arc {R : Type} (circle_id : Int) (arc_id : Int) (driving : Bool := true) : M R Int :=
  register .Tangent [.circle circle_id, .arc arc_id] driving

/-- Source `circle_radius`. -/
def circle_radius {R : Type} (circle_id : Int) (radius_id : Int) (driving : Bool := true) : M R Int :=
  register .CircleRadius [.circle circle_id, .param radius_id] driving

/-- Source `arc_radius`. -/
def arc_radius {R : Type} (arc_id : Int) (radius_id : Int) (driving : Bool := true) : M R Int :=
  register .ArcRadius [.arc arc_id, .param radius_id] driving

/-- Source `circle_diameter`. -/
def circle_diameter {R : Type} (circle_id : Int) (diameter_id : Int) (driving : Bool := true) : M R Int :=
  register .CircleDiameter [.circle circle_id, .param diameter_id] driving

/-- Source `arc_diameter`. -/
def arc_diameter {R : Type} (arc_id : Int) (diameter_id : Int) (driving : Bool := true) : M R Int :=
  register .ArcDiameter [.arc arc_id, .param diameter_id] driving

/-- Source `equal_length`. -/
def equal_length {R : Type} (l1_id : Int) (l2_id : Int) (driving : Bool := true) : M R Int :=
  register .EqualLength [.line l1_id, .line l2_id] driving

/-- Source `equal_radius_cc`. -/
def equal_radius_cc {R : Type} (c1_id : Int) (c2_id : Int) (driving : Bool := true) : M R Int :=
  register .EqualRadius [.circle c1_id, .circle c2_id] driving

/-- Source `equal_radius_ca`. -/
def equal_radius_ca {R : Type} (circle_id : Int) (arc_id : Int) (driving : Bool := true) : M R Int :=
  register .EqualRadius [.circle circle_id, .arc arc_id] driving

/-- Source `equal_radius_aa`. -/
def equal_radius_aa {R : Type} (a1_id : Int) (a2_id : Int) (driving : Bool := true) : M R Int :=
  register .EqualRadius [.arc a1_id, .arc a2_id] driving

/-- Source `symmetric_points_line`. -/
def symmetric_points_line {R : Type} (p1_id : Int) (p2_id : Int) (line_id : Int) (driving : Bool := true) : M R Int :=
  register .P2PSymmetric [.point p1_id, .point p2_id, .line line_id] driving

/-- Source `symmetric_points_point`. -/
def symmetric_points_point {R : Type} (p1_id : Int) (p2_id : Int) (center_id : Int) (driving : Bool := true) : M R Int :=
  register .P2PSymmetric [.point p1_id, .point p2_id, .point center_id] driving

/-- Source `p2c_distance`. -/
def p2c_distance {R : Type} (pt_id : Int) (circle_id : Int) (distance_id : Int) (driving : Bool := true) : M R Int :=
  register .P2CDistance [.point pt_id, .circle circle_id, .param distance_id] driving

/-- Source `c2c_distance`. -/
def c2c_distance {R : Type} (c1_id : Int) (c2_id : Int) (dist_id : Int) (driving : Bool := true) : M R Int :=
  register .C2CDistance [.circle c1_id, .circle c2_id, .param dist_id] driving

/-- Source `c2l_distance`. -/
def c2l_distance {R : Type} (circle_id : Int) (line_id : Int) (dist_id : Int) (driving : Bool := true) : M R Int :=
  register .C2LDistance [.circle circle_id, .line line_id, .param dist_id] driving

/-- Source `arc_length`. -/
def arc_length {R : Type} (arc_id : Int) (dist_id : Int) (driving : Bool := true) : M R Int :=
  register .ArcLength [.arc arc_id, .param dist_id] driving

/-- Source `internal_alignment_point2ellipse`. -/
def internal_alignment_point2ellipse {R : Type} (ellipse_id : Int) (pt_id : Int) (alignmentType : Nat) (driving : Bool := true) : M R Int :=
  register .InternalAlignmentPoint2Ellipse [.ellipse ellipse_id, .point pt_id, .alignment alignmentType] driving

/-- Source `internal_alignment_ellipse_major_diameter`. -/
def internal_alignment_ellipse_major_diameter {R : Type} (ellipse_id : Int) (p1_id : Int) (p2_id : Int) (driving : Bool := true) : M R Int :=
  register .InternalAlignmentEllipseMajorDiameter [.ellipse ellipse_id, .point p1_id, .point p2_id] driving

/-- Source `internal_alignment_ellipse_minor_diameter`. -/
def internal_alignment_ellipse_minor_diameter {R : Type} (ellipse_id : Int) (p1_id : Int) (p2_id : Int) (driving : Bool := true) : M R Int :=
  register .InternalAlignmentEllipseMinorDiameter [.ellipse ellipse_id, .point p1_id, .point p2_id] driving

/-- Source `internal_alignment_ellipse_focus1`. -/
def internal_alignment_ellipse_focus1 {R : Type} (ellipse_id : Int) (pt_id : Int) (driving : Bool := true) : M R Int :=
  register .InternalAlignmentEllipseFocus1 [.ellipse ellipse_id, .point pt_id] driving

/-- Source `internal_alignment_ellipse_focus2`. -/
def internal_alignment_ellipse_focus2 {R : Type} (ellipse_id : Int) (pt_id : Int) (driving : Bool := true) : M R Int :=
  register .InternalAlignmentEllipseFocus2 [.ellipse ellipse_id, .point pt_id] driving

/-- Source `p2p_coincident`. -/
def p2p_coincident {R : Type} (p1_id p2_id : Int) (driving : Bool := true) : M R Int :=
  coincident p1_id p2_id driving

/-- Source `tangent_circumf`. -/
def tangent_circumf {R : Type} (p1_id p2_id rd1_id rd2_id : Int) (internal : Bool := false)
    (driving : Bool := true) : M R Int :=
  register .TangentCircumf
    [.point p1_id, .point p2_id, .param rd1_id, .param rd2_id, .flag internal] driving

/-- A call of one of the constraint member functions, with its arguments; a
`driving` of `none` is a call that omits the argument. -/
inductive CCall (R : Type) where
  | coincident (pt1_id : Int) (pt2_id : Int) (driving : Option Bool)
  | arc_rules (arc_id : Int) (driving : Option Bool)
  | equal (param1_id : Int) (param2_id : Int) (driving : Option Bool)
  | proportional (param1_id : Int) (param2_id : Int) (ratio : R) (driving : Option Bool)
  | difference (param1_id : Int) (param2_id : Int) (diff_id : Int) (driving : Option Bool)
  | p2p_distance (pt1_id : Int) (pt2_id : Int) (distance_id : Int) (driving : Option Bool)
  | p2p_angle (pt1_id : Int) (pt2_id : Int) (angle_id : Int) (driving : Option Bool)
  | p2p_angle_incr (pt1_id : Int) (pt2_id : Int) (angle_id : Int) (incr_angle : R) (driving : Option Bool)
  | p2l_distance (pt_id : Int) (line_id : Int) (distance_id : Int) (driving : Option Bool)
  | point_on_line (pt_id : Int) (line_id : Int) (driving : Option Bool)
  | point_on_line_2pts (pt_id : Int) (lp1_id : Int) (lp2_id : Int) (driving : Option Bool)
  | point_on_perp_bisector (pt_id : Int) (line_id : Int) (driving : Option Bool)
  | parallel (l1_id : Int) (l2_id : Int) (driving : Option Bool)
  | perpendicular (l1_id : Int) (l2_id : Int) (driving : Option Bool)
  | l2l_angle (l1_id : Int) (l2_id : Int) (angle_id : Int) (driving : Option Bool)
  | midpoint_on_line (l1_id : Int) (l2_id : Int) (driving : Option Bool)
  | horizontal_line (line_id : Int) (driving : Option Bool)
  | horizontal_points (p1_id : Int) (p2_id : Int) (driving : Option Bool)
  | vertical_line (line_id : Int) (driving : Option Bool)
  | vertical_points (p1_id : Int) (p2_id : Int) (driving : Option Bool)
  | coordinate_x (pt_id : Int) (x_id : Int) (driving : Option Bool)
  | coordinate_y (pt_id : Int) (y_id : Int) (driving : Option Bool)
  | point_on_circle (pt_id : Int) (circle_id : Int) (driving : Option Bool)
  | point_on_ellipse (pt_id : Int) (ellipse_id : Int) (driving : Option Bool)
  | point_on_arc (pt_id : Int) (arc_id : Int) (driving : Option Bool)
  | arc_of_ellipse_rules (aoe_id : Int) (driving : Option Bool)
  | arc_of_hyperbola_rules (aoh_id : Int) (driving : Option Bool)
  | arc_of_parabola_rules (aop_id : Int) (driving : Option Bool)
  | tangent_line_circle (line_id : Int) (circle_id : Int) (driving : Option Bool)
  | tangent_line_ellipse (line_id : Int) (ellipse_id : Int) (driving : Option Bool)
  | tangent_line_arc (line_id : Int) (arc_id : Int) (driving : Option Bool)
  | tangent_circle_circle (c1_id : Int) (c2_id : Int) (driving : Option Bool)
  | tangent_arc_arc (a1_id : Int) (a2_id : Int) (driving : Option Bool)
  | tangent_circle_arc (circle_id : Int) (arc_id : Int) (driving : Option Bool)
  | circle_radius (circle_id : Int) (radius_id : Int) (driving : Option Bool)
  | arc_radius (arc_id : Int) (radius_id : Int) (driving : Option Bool)
  | circle_diameter (circle_id : Int) (diameter_id : Int) (driving : Option Bool)
  | arc_diameter (arc_id : Int) (diameter_id : Int) (driving : Option Bool)
  | equal_length (l1_id : Int) (l2_id : Int) (driving : Option Bool)
  | equal_radius_cc (c1_id : Int) (c2_id : Int) (driving : Option Bool)
  | equal_radius_ca (circle_id : Int) (arc_id : Int) (driving : Option Bool)
  | equal_radius_aa (a1_id : Int) (a2_id : Int) (driving : Option Bool)
  | symmetric_points_line (p1_id : Int) (p2_id : Int) (line_id : Int) (driving : Option Bool)
  | symmetric_points_point (p1_id : Int) (p2_id : Int) (center_id : Int) (driving : Option Bool)
  | p2c_distance (pt_id : Int) (circle_id : Int) (distance_id : Int) (driving : Option Bool)
  | c2c_distance (c1_id : Int) (c2_id : Int) (dist_id : Int) (driving : Option Bool)
  | c2l_distance (circle_id : Int) (line_id : Int) (dist_id : Int) (driving : Option Bool)
  | arc_length (arc_id : Int) (dist_id : Int) (driving : Option Bool)
  | internal_alignment_point2ellipse (ellipse_id : Int) (pt_id : Int) (alignmentType : Nat) (driving : Option Bool)
  | internal_alignment_ellipse_major_diameter (ellipse_id : Int) (p1_id : Int) (p2_id : Int) (driving : Option Bool)
  | internal_alignment_ellipse_minor_diameter (ellipse_id : Int) (p1_id : Int) (p2_id : Int) (driving : Option Bool)
  | internal_alignment_ellipse_focus1 (ellipse_id : Int) (pt_id : Int) (driving : Option Bool)
  | internal_alignment_ellipse_focus2 (ellipse_id : Int) (pt_id : Int) (driving : Option Bool)
  | p2p_coincident (p1_id : Int) (p2_id : Int) (driving : Option Bool)
  | tangent_circumf (p1_id p2_id rd1_id rd2_id : Int) (internal : Option Bool) (driving : Option Bool)

/-- Run a constraint call: dispatch to the member function. -/
def CCall.run {R : Type} : CCall R → M R Int
  | .coincident pt1_id pt2_id (some d) => PlaneGCS.coincident pt1_id pt2_id d
  | .coincident pt1_id pt2_id none => PlaneGCS.coincident pt1_id pt2_id
  | .arc_rules arc_id (some d) => PlaneGCS.arc_rules arc_id d
  | .arc_rules arc_id none => PlaneGCS.arc_rules arc_id
  | .equal param1_id param2_id (some d) => PlaneGCS.equal param1_id param2_id d
  | .equal param1_id param2_id none => PlaneGCS.equal param1_id param2_id
  | .proportional param1_id param2_id ratio (some d) => PlaneGCS.proportional param1_id param2_id ratio d
  | .proportional param1_id param2_id ratio none => PlaneGCS.proportional param1_id param2_id ratio
  | .difference param1_id param2_id diff_id (some d) => PlaneGCS.difference param1_id param2_id diff_id d
  | .difference param1_id param2_id diff_id none => PlaneGCS.difference param1_id param2_id diff_id
  | .p2p_distance pt1_id pt2_id distance_id (some d) => PlaneGCS.p2p_distance pt1_id pt2_id distance_id d
  | .p2p_distance pt1_id pt2_id distance_id none => PlaneGCS.p2p_distance pt1_id pt2_id distance_id
  | .p2p_angle pt1_id pt2_id angle_id (some d) => PlaneGCS.p2p_angle pt1_id pt2_id angle_id d
  | .p2p_angle pt1_id pt2_id angle_id none => PlaneGCS.p2p_angle pt1_id pt2_id angle_id
  | .p2p_angle_incr pt1_id pt2_id angle_id incr_angle (some d) => PlaneGCS.p2p_angle_incr pt1_id pt2_id angle_id incr_angle d
  | .p2p_angle_incr pt1_id pt2_id angle_id incr_angle none => PlaneGCS.p2p_angle_incr pt1_id pt2_id angle_id incr_angle
  | .p2l_distance pt_id line_id distance_id (some d) => PlaneGCS.p2l_distance pt_id line_id distance_id d
  | .p2l_distance pt_id line_id distance_id none => PlaneGCS.p2l_distance pt_id line_id distance_id
  | .point_on_line pt_id line_id (some d) => PlaneGCS.point_on_line pt_id line_id d
  | .point_on_line pt_id line_id none => PlaneGCS.point_on_line pt_id line_id
  | .point_on_line_2pts pt_id lp1_id lp2_id (some d) => PlaneGCS.point_on_line_2pts pt_id lp1_id lp2_id d
  | .point_on_line_2pts pt_id lp1_id lp2_id none => PlaneGCS.point_on_line_2pts pt_id lp1_id lp2_id
  | .point_on_perp_bisector pt_id line_id (some d) => PlaneGCS.point_on_perp_bisector pt_id line_id d
  | .point_on_perp_bisector pt_id line_id none => PlaneGCS.point_on_perp_bisector pt_id line_id
  | .parallel l1_id l2_id (some d) => PlaneGCS.parallel l1_id l2_id d
  | .parallel l1_id l2_id none => PlaneGCS.parallel l1_id l2_id
  | .perpendicular l1_id l2_id (some d) => PlaneGCS.perpendicular l1_id l2_id d
  | .perpendicular l1_id l2_id none => PlaneGCS.perpendicular l1_id l2_id
  | .l2l_angle l1_id l2_id angle_id (some d) => PlaneGCS.l2l_angle l1_id l2_id angle_id d
  | .l2l_angle l1_id l2_id angle_id none => PlaneGCS.l2l_angle l1_id l2_id angle_id
  | .midpoint_on_line l1_id l2_id (some d) => PlaneGCS.midpoint_on_line l1_id l2_id d
  | .midpoint_on_line l1_id l2_id none => PlaneGCS.midpoint_on_line l1_id l2_id
  | .horizontal_line line_id (some d) => PlaneGCS.horizontal_line line_id d
  | .horizontal_line line_id none => PlaneGCS.horizontal_line line_id
  | .horizontal_points p1_id p2_id (some d) => PlaneGCS.horizontal_points p1_id p2_id d
  | .horizontal_points p1_id p2_id none => PlaneGCS.horizontal_points p1_id p2_id
  | .vertical_line line_id (some d) => PlaneGCS.vertical_line line_id d
  | .vertical_line line_id none => PlaneGCS.vertical_line line_id
  | .vertical_points p1_id p2_id (some d) => PlaneGCS.vertical_points p1_id p2_id d
  | .vertical_points p1_id p2_id none => PlaneGCS.vertical_points p1_id p2_id
  | .coordinate_x pt_id x_id (some d) => PlaneGCS.coordinate_x pt_id x_id d
  | .coordinate_x pt_id x_id none => PlaneGCS.coordinate_x pt_id x_id
  | .coordinate_y pt_id y_id (some d) => PlaneGCS.coordinate_y pt_id y_id d
  | .coordinate_y pt_id y_id none => PlaneGCS.coordinate_y pt_id y_id
  | .point_on_circle pt_id circle_id (some d) => PlaneGCS.point_on_circle pt_id circle_id d
  | .point_on_circle pt_id circle_id none => PlaneGCS.point_on_circle pt_id circle_id
  | .point_on_ellipse pt_id ellipse_id (some d) => PlaneGCS.point_on_ellipse pt_id ellipse_id d
  | .point_on_ellipse pt_id ellipse_id none => PlaneGCS.point_on_ellipse pt_id ellipse_id
  | .point_on_arc pt_id arc_id (some d) => PlaneGCS.point_on_arc pt_id arc_id d
  | .point_on_arc pt_id arc_id none => PlaneGCS.point_on_arc pt_id arc_id
  | .arc_of_ellipse_rules aoe_id (some d) => PlaneGCS.arc_of_ellipse_rules aoe_id d
  | .arc_of_ellipse_rules aoe_id none => PlaneGCS.arc_of_ellipse_rules aoe_id
  | .arc_of_hyperbola_rules aoh_id (some d) => PlaneGCS.arc_of_hyperbola_rules aoh_id d
  | .arc_of_hyperbola_rules aoh_id none => PlaneGCS.arc_of_hyperbola_rules aoh_id
  | .arc_of_parabola_rules aop_id (some d) => PlaneGCS.arc_of_parabola_rules aop_id d
  | .arc_of_parabola_rules aop_id none => PlaneGCS.arc_of_parabola_rules aop_id
  | .tangent_line_circle line_id circle_id (some d) => PlaneGCS.tangent_line_circle line_id circle_id d
  | .tangent_line_circle line_id circle_id none => PlaneGCS.tangent_line_circle line_id circle_id
  | .tangent_line_ellipse line_id ellipse_id (some d) => PlaneGCS.tangent_line_ellipse line_id ellipse_id d
  | .tangent_line_ellipse line_id ellipse_id none => PlaneGCS.tangent_line_ellipse line_id ellipse_id
  | .tangent_line_arc line_id arc_id (some d) => PlaneGCS.tangent_line_arc line_id arc_id d
  | .tangent_line_arc line_id arc_id none => PlaneGCS.tangent_line_arc line_id arc_id
  | .tangent_circle_circle c1_id c2_id (some d) => PlaneGCS.tangent_circle_circle c1_id c2_id d
  | .tangent_circle_circle c1_id c2_id none => PlaneGCS.tangent_circle_circle c1_id c2_id
  | .tangent_arc_arc a1_id a2_id (some d) => PlaneGCS.tangent_arc_arc a1_id a2_id d
  | .tangent_arc_arc a1_id a2_id none => PlaneGCS.tangent_arc_arc a1_id a2_id
  | .tangent_circle_arc circle_id arc_id (some d) => PlaneGCS.tangent_circle_arc circle_id arc_id d
  | .tangent_circle_arc circle_id arc_id none => PlaneGCS.tangent_circle_arc circle_id arc_id
  | .circle_radius circle_id radius_id (some d) => PlaneGCS.circle_radius circle_id radius_id d
  | .circle_radius circle_id radius_id none => PlaneGCS.circle_radius circle_id radius_id
  | .arc_radius arc_id radius_id (some d) => PlaneGCS.arc_radius arc_id radius_id d
  | .arc_radius arc_id radius_id none => PlaneGCS.arc_radius arc_id radius_id
  | .circle_diameter circle_id diameter_id (some d) => PlaneGCS.circle_diameter circle_id diameter_id d
  | .circle_diameter circle_id diameter_id none => PlaneGCS.circle_diameter circle_id diameter_id
  | .arc_diameter arc_id diameter_id (some d) => PlaneGCS.arc_diameter arc_id diameter_id d
  | .arc_diameter arc_id diameter_id none => PlaneGCS.arc_diameter arc_id diameter_id
  | .equal_length l1_id l2_id (some d) => PlaneGCS.equal_length l1_id l2_id d
  | .equal_length l1_id l2_id none => PlaneGCS.equal_length l1_id l2_id
  | .equal_radius_cc c1_id c2_id (some d) => PlaneGCS.equal_radius_cc c1_id c2_id d
  | .equal_radius_cc c1_id c2_id none => PlaneGCS.equal_radius_cc c1_id c2_id
  | .equal_radius_ca circle_id arc_id (some d) => PlaneGCS.equal_radius_ca circle_id arc_id d
  | .equal_radius_ca circle_id arc_id none => PlaneGCS.equal_radius_ca circle_id arc_id
  | .equal_radius_aa a1_id a2_id (some d) => PlaneGCS.equal_radius_aa a1_id a2_id d
  | .equal_radius_aa a1_id a2_id none => PlaneGCS.equal_radius_aa a1_id a2_id
  | .symmetric_points_line p1_id p2_id line_id (some d) => PlaneGCS.symmetric_points_line p1_id p2_id line_id d
  | .symmetric_points_line p1_id p2_id line_id none => PlaneGCS.symmetric_points_line p1_id p2_id line_id
  | .symmetric_points_point p1_id p2_id center_id (some d) => PlaneGCS.symmetric_points_point p1_id p2_id center_id d
  | .symmetric_points_point p1_id p2_id center_id none => PlaneGCS.symmetric_points_point p1_id p2_id center_id
  | .p2c_distance pt_id circle_id distance_id (some d) => PlaneGCS.p2c_distance pt_id circle_id distance_id d
  | .p2c_distance pt_id circle_id distance_id none => PlaneGCS.p2c_distance pt_id circle_id distance_id
  | .c2c_distance c1_id c2_id dist_id (some d) => PlaneGCS.c2c_distance c1_id c2_id dist_id d
  | .c2c_distance c1_id c2_id dist_id none => PlaneGCS.c2c_distance c1_id c2_id dist_id
  | .c2l_distance circle_id line_id dist_id (some d) => PlaneGCS.c2l_distance circle_id line_id dist_id d
  | .c2l_distance circle_id line_id dist_id none => PlaneGCS.c2l_distance circle_id line_id dist_id
  | .arc_length arc_id dist_id (some d) => PlaneGCS.arc_length arc_id dist_id d
  | .arc_length arc_id dist_id none => PlaneGCS.arc_length arc_id dist_id
  | .internal_alignment_point2ellipse ellipse_id pt_id alignmentType (some d) => PlaneGCS.internal_alignment_point2ellipse ellipse_id pt_id alignmentType d
  | .internal_alignment_point2ellipse ellipse_id pt_id alignmentType none => PlaneGCS.internal_alignment_point2ellipse ellipse_id pt_id alignmentType
  | .internal_alignment_ellipse_major_diameter ellipse_id p1_id p2_id (some d) => PlaneGCS.internal_alignment_ellipse_major_diameter ellipse_id p1_id p2_id d
  | .internal_alignment_ellipse_major_diameter ellipse_id p1_id p2_id none => PlaneGCS.internal_alignment_ellipse_major_diameter ellipse_id p1_id p2_id
  | .internal_alignment_ellipse_minor_diameter ellipse_id p1_id p2_id (some d) => PlaneGCS.internal_alignment_ellipse_minor_diameter ellipse_id p1_id p2_id d
  | .internal_alignment_ellipse_minor_diameter ellipse_id p1_id p2_id none => PlaneGCS.internal_alignment_ellipse_minor_diameter ellipse_id p1_id p2_id
  | .internal_alignment_ellipse_focus1 ellipse_id pt_id (some d) => PlaneGCS.internal_alignment_ellipse_focus1 ellipse_id pt_id d
  | .internal_alignment_ellipse_focus1 ellipse_id pt_id none => PlaneGCS.internal_alignment_ellipse_focus1 ellipse_id pt_id
  | .internal_alignment_ellipse_focus2 ellipse_id pt_id (some d) => PlaneGCS.internal_alignment_ellipse_focus2 ellipse_id pt_id d
  | .internal_alignment_ellipse_focus2 ellipse_id pt_id none => PlaneGCS.internal_alignment_ellipse_focus2 ellipse_id pt_id
  | .p2p_coincident p1_id p2_id (some d) => PlaneGCS.p2p_coincident p1_id p2_id d
  | .p2p_coincident p1_id p2_id none => PlaneGCS.p2p_coincident p1_id p2_id
  | .tangent_circumf a b c d (some i) (some dr) => PlaneGCS.tangent_circumf a b c d i dr
  | .tangent_circumf a b c d (some i) none => PlaneGCS.tangent_circumf a b c d i
  | .tangent_circumf a b c d none (some dr) => PlaneGCS.tangent_circumf a b c d false dr
  | .tangent_circumf a b c d none none => PlaneGCS.tangent_circumf a b c d

/-- The engine function a constraint call forwards to. -/
def CCall.kind {R : Type} : CCall R → CKind
  | .coincident _ _ _ => .P2PCoincident
  | .arc_rules _ _ => .ArcRules
  | .equal _ _ _ => .Equal
  | .proportional _ _ _ _ => .Proportional
  | .difference _ _ _ _ => .Difference
  | .p2p_distance _ _ _ _ => .P2PDistance
  | .p2p_angle _ _ _ _ => .P2PAngle
  | .p2p_angle_incr _ _ _ _ _ => .P2PAngle
  | .p2l_distance _ _ _ _ => .P2LDistance
  | .point_on_line _ _ _ => .PointOnLine
  | .point_on_line_2pts _ _ _ _ => .PointOnLine
  | .point_on_perp_bisector _ _ _ => .PointOnPerpBisector
  | .parallel _ _ _ => .Parallel
  | .perpendicular _ _ _ => .Perpendicular
  | .l2l_angle _ _ _ _ => .L2LAngle
  | .midpoint_on_line _ _ _ => .MidpointOnLine
  | .horizontal_line _ _ => .Horizontal
  | .horizontal_points _ _ _ => .Horizontal
  | .vertical_line _ _ => .Vertical
  | .vertical_points _ _ _ => .Vertical
  | .coordinate_x _ _ _ => .CoordinateX
  | .coordinate_y _ _ _ => .CoordinateY
  | .point_on_circle _ _ _ => .PointOnCircle
  | .point_on_ellipse _ _ _ => .PointOnEllipse
  | .point_on_arc _ _ _ => .PointOnArc
  | .arc_of_ellipse_rules _ _ => .ArcOfEllipseRules
  | .arc_of_hyperbola_rules _ _ => .ArcOfHyperbolaRules
  | .arc_of_parabola_rules _ _ => .ArcOfParabolaRules
  | .tangent_line_circle _ _ _ => .Tangent
  | .tangent_line_ellipse _ _ _ => .Tangent
  | .tangent_line_arc _ _ _ => .Tangent
  | .tangent_circle_circle _ _ _ => .Tangent
  | .tangent_arc_arc _ _ _ => .Tangent
  | .tangent_circle_arc _ _ _ => .Tangent
  | .circle_radius _ _ _ => .CircleRadius
  | .arc_radius _ _ _ => .ArcRadius
  | .circle_diameter _ _ _ => .CircleDiameter
  | .arc_diameter _ _ _ => .ArcDiameter
  | .equal_length _ _ _ => .EqualLength
  | .equal_radius_cc _ _ _ => .EqualRadius
  | .equal_radius_ca _ _ _ => .EqualRadius
  | .equal_radius_aa _ _ _ => .EqualRadius
  | .symmetric_points_line _ _ _ _ => .P2PSymmetric
  | .symmetric_points_point _ _ _ _ => .P2PSymmetric
  | .p2c_distance _ _ _ _ => .P2CDistance
  | .c2c_distance _ _ _ _ => .C2CDistance
  | .c2l_distance _ _ _ _ => .C2LDistance
  | .arc_length _ _ _ => .ArcLength
  | .internal_alignment_point2ellipse _ _ _ _ => .InternalAlignmentPoint2Ellipse
  | .internal_alignment_ellipse_major_diameter _ _ _ _ => .InternalAlignmentEllipseMajorDiameter
  | .internal_alignment_ellipse_minor_diameter _ _ _ _ => .InternalAlignmentEllipseMinorDiameter
  | .internal_alignment_ellipse_focus1 _ _ _ => .InternalAlignmentEllipseFocus1
  | .internal_alignment_ellipse_focus2 _ _ _ => .InternalAlignmentEllipseFocus2
  | .p2p_coincident _ _ _ => .P2PCoincident
  | .tangent_circumf _ _ _ _ _ _ => .TangentCircumf

/-- The argument expressions of a constraint call, in source order. -/
def CCall.args {R : Type} : CCall R → List (HArg R)
  | .coincident pt1_id pt2_id _ => [.point pt1_id, .point pt2_id]
  | .arc_rules arc_id _ => [.arc arc_id]
  | .equal param1_id param2_id _ => [.param param1_id, .param param2_id]
  | .proportional param1_id param2_id ratio _ => [.param param1_id, .param param2_id, .value ratio]
  | .difference param1_id param2_id diff_id _ => [.param param1_id, .param param2_id, .param diff_id]
  | .p2p_distance pt1_id pt2_id distance_id _ => [.point pt1_id, .point pt2_id, .param distance_id]
  | .p2p_angle pt1_id pt2_id angle_id _ => [.point pt1_id, .point pt2_id, .param angle_id]
  | .p2p_angle_incr pt1_id pt2_id angle_id incr_angle _ => [.point pt1_id, .point pt2_id, .param angle_id, .value incr_angle]
  | .p2l_distance pt_id line_id distance_id _ => [.point pt_id, .line line_id, .param distance_id]
  | .point_on_line pt_id line_id _ => [.point pt_id, .line line_id]
  | .point_on_line_2pts pt_id lp1_id lp2_id _ => [.point pt_id, .point lp1_id, .point lp2_id]
  | .point_on_perp_bisector pt_id line_id _ => [.point pt_id, .line line_id]
  | .parallel l1_id l2_id _ => [.line l1_id, .line l2_id]
  | .perpendicular l1_id l2_id _ => [.line l1_id, .line l2_id]
  | .l2l_angle l1_id l2_id angle_id _ => [.line l1_id, .line l2_id, .param angle_id]
  | .midpoint_on_line l1_id l2_id _ => [.line l1_id, .line l2_id]
  | .horizontal_line line_id _ => [.line line_id]
  | .horizontal_points p1_id p2_id _ => [.point p1_id, .point p2_id]
  | .vertical_line line_id _ => [.line line_id]
  | .vertical_points p1_id p2_id _ => [.point p1_id, .point p2_id]
  | .coordinate_x pt_id x_id _ => [.point pt_id, .param x_id]
  | .coordinate_y pt_id y_id _ => [.point pt_id, .param y_id]
  | .point_on_circle pt_id circle_id _ => [.point pt_id, .circle circle_id]
  | .point_on_ellipse pt_id ellipse_id _ => [.point pt_id, .ellipse ellipse_id]
  | .point_on_arc pt_id arc_id _ => [.point pt_id, .arc arc_id]
  | .arc_of_ellipse_rules aoe_id _ => [.arcOfEllipse aoe_id]
  | .arc_of_hyperbola_rules aoh_id _ => [.arcOfHyperbola aoh_id]
  | .arc_of_parabola_rules aop_id _ => [.arcOfParabola aop_id]
  | .tangent_line_circle line_id circle_id _ => [.line line_id, .circle circle_id]
  | .tangent_line_ellipse line_id ellipse_id _ => [.line line_id, .ellipse ellipse_id]
  | .tangent_line_arc line_id arc_id _ => [.line line_id, .arc arc_id]
  | .tangent_circle_circle c1_id c2_id _ => [.circle c1_id, .circle c2_id]
  | .tangent_arc_arc a1_id a2_id _ => [.arc a1_id, .arc a2_id]
  | .tangent_circle_arc circle_id arc_id _ => [.circle circle_id, .arc arc_id]
  | .circle_radius circle_id radius_id _ => [.circle circle_id, .param radius_id]
  | .arc_radius arc_id radius_id _ => [.arc arc_id, .param radius_id]
  | .circle_diameter circle_id diameter_id _ => [.circle circle_id, .param diameter_id]
  | .arc_diameter arc_id diameter_id _ => [.arc arc_id, .param diameter_id]
  | .equal_length l1_id l2_id _ => [.line l1_id, .line l2_id]
  | .equal_radius_cc c1_id c2_id _ => [.circle c1_id, .circle c2_id]
  | .equal_radius_ca circle_id arc_id _ => [.circle circle_id, .arc arc_id]
  | .equal_radius_aa a1_id a2_id _ => [.arc a1_id, .arc a2_id]
  | .symmetric_points_line p1_id p2_id line_id _ => [.point p1_id, .point p2_id, .line line_id]
  | .symmetric_points_point p1_id p2_id center_id _ => [.point p1_id, .point p2_id, .point center_id]
  | .p2c_distance pt_id circle_id distance_id _ => [.point pt_id, .circle circle_id, .param distance_id]
  | .c2c_distance c1_id c2_id dist_id _ => [.circle c1_id, .circle c2_id, .param dist_id]
  | .c2l_distance circle_id line_id dist_id _ => [.circle circle_id, .line line_id, .param dist_id]
  | .arc_length arc_id dist_id _ => [.arc arc_id, .param dist_id]
  | .internal_alignment_point2ellipse ellipse_id pt_id alignmentType _ => [.ellipse ellipse_id, .point pt_id, .alignment alignmentType]
  | .internal_alignment_ellipse_major_diameter ellipse_id p1_id p2_id _ => [.ellipse ellipse_id, .point p1_id, .point p2_id]
  | .internal_alignment_ellipse_minor_diameter ellipse_id p1_id p2_id _ => [.ellipse ellipse_id, .point p1_id, .point p2_id]
  | .internal_alignment_ellipse_focus1 ellipse_id pt_id _ => [.ellipse ellipse_id, .point pt_id]
  | .internal_alignment_ellipse_focus2 ellipse_id pt_id _ => [.ellipse ellipse_id, .point pt_id]
  | .p2p_coincident p1_id p2_id _ => [.point p1_id, .point p2_id]
  | .tangent_circumf a b c d i _ => [.point a, .point b, .param c, .param d, .flag (i.getD false)]

/-- The driving flag the caller gave, if any. -/
def CCall.drivingArg {R : Type} : CCall R → Option Bool
  | .coincident _ _ d => d
  | .arc_rules _ d => d
  | .equal _ _ d => d
  | .proportional _ _ _ d => d
  | .difference _ _ _ d => d
  | .p2p_distance _ _ _ d => d
  | .p2p_angle _ _ _ d => d
  | .p2p_angle_incr _ _ _ _ d => d
  | .p2l_distance _ _ _ d => d
  | .point_on_line _ _ d => d
  | .point_on_line_2pts _ _ _ d => d
  | .point_on_perp_bisector _ _ d => d
  | .parallel _ _ d => d
  | .perpendicular _ _ d => d
  | .l2l_angle _ _ _ d => d
  | .midpoint_on_line _ _ d => d
  | .horizontal_line _ d => d
  | .horizontal_points _ _ d => d
  | .vertical_line _ d => d
  | .vertical_points _ _ d => d
  | .coordinate_x _ _ d => d
  | .coordinate_y _ _ d => d
  | .point_on_circle _ _ d => d
  | .point_on_ellipse _ _ d => d
  | .point_on_arc _ _ d => d
  | .arc_of_ellipse_rules _ d => d
  | .arc_of_hyperbola_rules _ d => d
  | .arc_of_parabola_rules _ d => d
  | .tangent_line_circle _ _ d => d
  | .tangent_line_ellipse _ _ d => d
  | .tangent_line_arc _ _ d => d
  | .tangent_circle_circle _ _ d => d
  | .tangent_arc_arc _ _ d => d
  | .tangent_circle_arc _ _ d => d
  | .circle_radius _ _ d => d
  | .arc_radius _ _ d => d
  | .circle_diameter _ _ d => d
  | .arc_diameter _ _ d => d
  | .equal_length _ _ d => d
  | .equal_radius_cc _ _ d => d
  | .equal_radius_ca _ _ d => d
  | .equal_radius_aa _ _ d => d
  | .symmetric_points_line _ _ _ d => d
  | .symmetric_points_point _ _ _ d => d
  | .p2c_distance _ _ _ d => d
  | .c2c_distance _ _ _ d => d
  | .c2l_distance _ _ _ d => d
  | .arc_length _ _ d => d
  | .internal_alignment_point2ellipse _ _ _ d => d
  | .internal_alignment_ellipse_major_diameter _ _ _ d => d
  | .internal_alignment_ellipse_minor_diameter _ _ _ d => d
  | .internal_alignment_ellipse_focus1 _ _ d => d
  | .internal_alignment_ellipse_focus2 _ _ d => d
  | .p2p_coincident _ _ d => d
  | .tangent_circumf _ _ _ _ _ d => d

/-! ## Calls of the public interface and reachable states -/

/-- A call of one of the primitive constructors, with its arguments. -/
inductive PrimCall (R : Type) where
  | add_point (x y : R)
  | add_line (p1_id p2_id : Int)
  | add_line_coords (x1 y1 x2 y2 : R)
  | add_circle (center_id : Int) (radius : R)
  | add_arc_from_center (center_id : Int) (radius start_angle end_angle : R)
  | add_arc_from_start_end (start_id end_id radius_id : Int)
  | add_ellipse (center_id focus1_id : Int) (radmin : R)
  | add_arc_of_ellipse (center_id focus1_id : Int) (radmin start_angle end_angle : R)
      (start_id end_id : Int)
  | add_hyperbola (center_id focus1_id : Int) (radmin : R)
  | add_arc_of_hyperbola (center_id focus1_id : Int) (radmin start_angle end_angle : R)
      (start_id end_id : Int)
  | add_parabola (vertex_id focus1_id : Int)
  | add_arc_of_parabola (vertex_id focus1_id : Int) (start_angle end_angle : R)
      (start_id end_id : Int)

/-- Run a primitive constructor call: dispatch to the member function. -/
def PrimCall.run {R : Type} (F : FloatOps R) : PrimCall R → M R Int
  | .add_point x y => PlaneGCS.add_point x y
  | .add_line a b => PlaneGCS.add_line a b
  | .add_line_coords x1 y1 x2 y2 => PlaneGCS.add_line_coords x1 y1 x2 y2
  | .add_circle c r => PlaneGCS.add_circle c r
  | .add_arc_from_center c r sa ea => PlaneGCS.add_arc_from_center F c r sa ea
  | .add_arc_from_start_end a b r => PlaneGCS.add_arc_from_start_end F a b r
  | .add_ellipse c f rm => PlaneGCS.add_ellipse c f rm
  | .add_arc_of_ellipse c f rm sa ea a b => PlaneGCS.add_arc_of_ellipse c f rm sa ea a b
  | .add_hyperbola c f rm => PlaneGCS.add_hyperbola c f rm
  | .add_arc_of_hyperbola c f rm sa ea a b => PlaneGCS.add_arc_of_hyperbola c f rm sa ea a b
  | .add_parabola v f => PlaneGCS.add_parabola v f
  | .add_arc_of_parabola v f sa ea a b => PlaneGCS.add_arc_of_parabola v f sa ea a b

/-- A call of a public member function that can change the state (the `const`
accessors leave it as it is). An optional argument of `none` is one the caller
omits. -/
inductive Op (R : Type) where
  | add_param (value : R) (fixed : Option Bool)
  | set_param (id : Int) (value : R)
  | set_param_fixed (id : Int) (fixed : Bool)
  | prim (c : PrimCall R)
  | constraint (c : CCall R)
  | declare_unknowns
  | init_solution (alg : Option Algorithm)
  | solve (alg : Option Algorithm)
  | apply_solution
  | dof
  | diagnose (alg : Option Algorithm)
  | clear
  | clear_by_tag (tag : Int)
  | constraint_error (tag : Int)

/-- The state a call leaves behind, whether it returned or threw. -/
def Op.exec {R : Type} (F : FloatOps R) (E : Engine R) : Op R → State R → State R
  | .add_param v (some f), s => (PlaneGCS.add_param v f s).1
  | .add_param v none, s => ((PlaneGCS.add_param v) s).1
  | .set_param id v, s => (PlaneGCS.set_param id v s).1
  | .set_param_fixed id b, s => (PlaneGCS.set_param_fixed id b s).1
  | .prim c, s => (c.run F s).1
  | .constraint c, s => (c.run s).1
  | .declare_unknowns, s => (PlaneGCS.declare_unknowns s).1
  | .init_solution (some a), s => (PlaneGCS.init_solution a s).1
  | .init_solution none, s => ((PlaneGCS.init_solution) s).1
  | .solve (some a), s => (PlaneGCS.solve E a s).1
  | .solve none, s => ((PlaneGCS.solve E) s).1
  | .apply_solution, s => (PlaneGCS.apply_solution E s).1
  | .dof, s => (PlaneGCS.dof E s).1
  | .diagnose (some a), s => (PlaneGCS.diagnose E a s).1
  | .diagnose none, s => ((PlaneGCS.diagnose E) s).1
  | .clear, s => (PlaneGCS.clear s).1
  | .clear_by_tag t, s => (PlaneGCS.clear_by_tag t s).1
  | .constraint_error t, s => (PlaneGCS.constraint_error E t s).1

/-- The state after a sequence of calls. -/
def execAll {R : Type} (F : FloatOps R) (E : Engine R) (s : State R) (ops : List (Op R)) :
    State R :=
  ops.foldl (fun st op => op.exec F E st) s

/-- States reachable from a freshly constructed solver through public calls. -/
inductive Reachable {R : Type} (F : FloatOps R) (E : Engine R) : State R → Prop where
  | init : Reachable F E (State.init R)
  | step (s : State R) (op : Op R) : Reachable F E s → Reachable F E (op.exec F E s)

/-- Whether the call is `clear`, which ends the generation. -/
def Op.isClear {R : Type} : Op R → Bool
  | .clear => true
  | _ => false

/-- Whether the call allocates parameters: `add_param` itself or a primitive
constructor (which calls it internally). -/
def Op.isAlloc {R : Type} : Op R → Bool
  | .add_param _ _ => true
  | .prim _ => true
  | _ => false

/-- Parameter handles issued in the current generation: `add_param` hands out
`next_param_id_++` and only `clear` resets the counter to 0. -/
def Issued {R : Type} (s : State R) (h : Int) : Prop := 0 ≤ h ∧ h < s.next_param_id_

instance {R : Type} (s : State R) (h : Int) : Decidable (Issued s h) := by
  unfold Issued; infer_instance

/-- Whether `k` is a key of the map. -/
def Map.contains {V : Type} (m : Map V) (k : Int) : Bool := (Map.find? m k).isSome

/-- In how many of the ten primitive maps the handle is a key. -/
def keyCount {R : Type} (s : State R) (h : Int) : Nat :=
  (Map.contains s.points_ h).toNat + (Map.contains s.lines_ h).toNat
  + (Map.contains s.circles_ h).toNat + (Map.contains s.arcs_ h).toNat
  + (Map.contains s.ellipses_ h).toNat + (Map.contains s.arcs_of_ellipse_ h).toNat
  + (Map.contains s.hyperbolas_ h).toNat + (Map.contains s.arcs_of_hyperbola_ h).toNat
  + (Map.contains s.parabolas_ h).toNat + (Map.contains s.arcs_of_parabola_ h).toNat

/-- The index map of a store of `n` parameters: handle `i` at slot `i`. -/
def idMap (n : Nat) : Map Nat := (List.range n).map (fun (i : Nat) => (Int.ofNat i, i))

/-- Every address held by the point lies inside the parameter storage. -/
def Point.valid (n : Nat) (p : Point) : Prop := p.x < n ∧ p.y < n

/-- Well-formedness of the registry, kept by every public call. -/
structure WF {R : Type} (s : State R) : Prop where
  index : s.param_index_ = idMap s.params_.length
  next_param : s.next_param_id_ = s.params_.length
  geo_fresh : ∀ h, s.next_geo_id_ ≤ h → keyCount s h = 0
  geo_disjoint : ∀ h, keyCount s h ≤ 1
  points_valid : ∀ h p, Map.find? s.points_ h = some p → p.valid s.params_.length

/-! ## Vocabulary of the properties -/

/-- The point handles a primitive constructor call refers to. -/
def PrimCall.pointRefs {R : Type} : PrimCall R → List Int
  | .add_point _ _ => []
  | .add_line a b => [a, b]
  | .add_line_coords _ _ _ _ => []
  | .add_circle c _ => [c]
  | .add_arc_from_center c _ _ _ => [c]
  | .add_arc_from_start_end a b _ => [a, b]
  | .add_ellipse c f _ => [c, f]
  | .add_arc_of_ellipse c f _ _ _ a b => [c, f, a, b]
  | .add_hyperbola c f _ => [c, f]
  | .add_arc_of_hyperbola c f _ _ _ a b => [c, f, a, b]
  | .add_parabola v f => [v, f]
  | .add_arc_of_parabola v f _ _ a b => [v, f, a, b]

/-- The parameter handles a primitive constructor call refers to. -/
def PrimCall.paramRefs {R : Type} : PrimCall R → List Int
  | .add_arc_from_start_end _ _ r => [r]
  | _ => []

/-- Every handle the call refers to resolves: point handles in the point map,
the radius handle of `add_arc_from_start_end` in the parameter store. -/
def PrimCall.refsResolve {R : Type} (s : State R) (c : PrimCall R) : Bool :=
  c.pointRefs.all (Map.contains s.points_) && c.paramRefs.all (Map.contains s.param_index_)

/-- The handle is a key of the map of the kind the call constructs. -/
def PrimCall.resultIn {R : Type} (s : State R) (h : Int) : PrimCall R → Bool
  | .add_point _ _ => Map.contains s.points_ h
  | .add_line _ _ => Map.contains s.lines_ h
  | .add_line_coords _ _ _ _ => Map.contains s.lines_ h
  | .add_circle _ _ => Map.contains s.circles_ h
  | .add_arc_from_center _ _ _ _ => Map.contains s.arcs_ h
  | .add_arc_from_start_end _ _ _ => Map.contains s.arcs_ h
  | .add_ellipse _ _ _ => Map.contains s.ellipses_ h
  | .add_arc_of_ellipse _ _ _ _ _ _ _ => Map.contains s.arcs_of_ellipse_ h
  | .add_hyperbola _ _ _ => Map.contains s.hyperbolas_ h
  | .add_arc_of_hyperbola _ _ _ _ _ _ _ => Map.contains s.arcs_of_hyperbola_ h
  | .add_parabola _ _ => Map.contains s.parabolas_ h
  | .add_arc_of_parabola _ _ _ _ _ _ => Map.contains s.arcs_of_parabola_ h

/-- The scalar arguments a constructor has already stored with `add_param` when
it reaches its first handle lookup. -/
def PrimCall.earlyParams {R : Type} : PrimCall R → List R
  | .add_circle _ r => [r]
  | .add_arc_from_center _ r sa ea => [r, sa, ea]
  | .add_ellipse _ _ rm => [rm]
  | .add_arc_of_ellipse _ _ rm sa ea _ _ => [rm, sa, ea]
  | .add_hyperbola _ _ rm => [rm]
  | .add_arc_of_hyperbola _ _ rm sa ea _ _ => [rm, sa, ea]
  | .add_arc_of_parabola _ _ sa ea _ _ => [sa, ea]
  | _ => []

/-- By how much a constructor has advanced `next_geo_id_` when it reaches its
first handle lookup. -/
def PrimCall.earlyIds {R : Type} : PrimCall R → Int
  | .add_line _ _ => 1
  | .add_circle _ _ => 1
  | .add_ellipse _ _ _ => 1
  | .add_arc_of_ellipse _ _ _ _ _ _ _ => 1
  | .add_hyperbola _ _ _ => 1
  | .add_arc_of_hyperbola _ _ _ _ _ _ _ => 1
  | .add_parabola _ _ => 1
  | .add_arc_of_parabola _ _ _ _ _ _ => 1
  | _ => 0

/-- The registry after storing the values with `add_param(v)` one by one. -/
def allocAll {R : Type} (s : State R) (vs : List R) : State R :=
  vs.foldl (fun st v => (add_param v false st).1) s

/-- The unknown list as the specification words it: the slots of the handles
issued in this generation that are not fixed, in ascending handle order. -/
def unknownSlots {R : Type} (s : State R) : List Addr :=
  ((List.range s.next_param_id_.toNat).filter
      (fun h => !is_param_fixed s (Int.ofNat h))).filterMap
    (fun h => Map.find? s.param_index_ (Int.ofNat h))

/-- The handles returned by the primitive constructor calls of a run that
succeed, in call order. -/
def primHandles {R : Type} (F : FloatOps R) (E : Engine R) : State R → List (Op R) → List Int
  | _, [] => []
  | s, .prim c :: rest =>
    match (c.run F s).2 with
    | .ok h => h :: primHandles F E ((Op.prim c).exec F E s) rest
    | .error _ => primHandles F E ((Op.prim c).exec F E s) rest
  | s, op :: rest => primHandles F E (op.exec F E s) rest

/-- The tags returned by the constraint registrations of a run that succeed,
in call order. -/
def regTags {R : Type} (F : FloatOps R) (E : Engine R) : State R → List (Op R) → List Int
  | _, [] => []
  | s, .constraint c :: rest =>
    match (c.run s).2 with
    | .ok t => t :: regTags F E ((Op.constraint c).exec F E s) rest
    | .error _ => regTags F E ((Op.constraint c).exec F E s) rest
  | s, op :: rest => regTags F E (op.exec F E s) rest

/-- What a constructor call that returned `h` guarantees of the state `s'` it
leaves: well-formedness, storage grown by appending only, `h` taken from the
shared counter and registered under the constructed kind, tags not reused. -/
def PrimOk {R : Type} (s s' : State R) (h : Int) (c : PrimCall R) : Prop :=
  WF s' ∧ (∃ extra, s'.params_ = s.params_ ++ extra) ∧ s.next_geo_id_ ≤ h
    ∧ h < s'.next_geo_id_ ∧ c.resultIn s' h = true
    ∧ s.next_constraint_tag_ ≤ s'.next_constraint_tag_

/-- The two ways a constructor call ends from a well-formed state: all handles
resolve and it returns, or one does not and it throws `std::out_of_range`
leaving behind what it had stored before the first lookup. -/
def Outcome {R : Type} (F : FloatOps R) (s : State R) (c : PrimCall R) : Prop :=
  (c.refsResolve s = true ∧ ∃ h, (c.run F s).2 = .ok h ∧ PrimOk s (c.run F s).1 h c)
  ∨ (c.refsResolve s = false ∧
      c.run F s = ({ allocAll s c.earlyParams with
                      next_geo_id_ := s.next_geo_id_ + c.earlyIds }, .error .notFound))

/-! ## Sample instantiation, for evaluating the definitions on concrete inputs -/

/-- Integer stand-ins for the floating-point operations. -/
def sampleOps : FloatOps Int where
  add := fun a b => a + b
  sub := fun a b => a - b
  mul := fun a b => a * b
  div := fun a b => a / b
  neg := fun a => -a
  lt := fun a b => decide (a < b)
  sqrt := fun a => Int.ofNat (Nat.sqrt a.toNat)
  abs := fun a => Int.ofNat a.natAbs
  cos := fun _ => 1
  sin := fun _ => 0
  atan2 := fun _ _ => 0
  two := 2

/-- An engine that never converges and writes nothing. -/
def sampleEngine : Engine Int where
  solve := fun _ _ _ => (.Failed, [])
  applySolution := fun _ _ => []
  dofsNumber := fun sys _ => sys.unknowns.length
  getConflicting := fun _ _ => []
  getRedundant := fun _ _ => []
  getPartiallyRedundant := fun _ _ => []
  calculateConstraintErrorByTag := fun _ _ _ => 0

/-- An engine that always succeeds and stores 0 through each declared unknown. -/
def zeroingEngine : Engine Int where
  solve := fun sys _ _ => (.Success, sys.unknowns.map (fun a => (a, 0)))
  applySolution := fun sys _ => sys.unknowns.map (fun a => (a, 0))
  dofsNumber := fun sys _ => sys.unknowns.length
  getConflicting := fun _ _ => []
  getRedundant := fun _ _ => []
  getPartiallyRedundant := fun _ _ => []
  calculateConstraintErrorByTag := fun _ _ _ => 0

/-! ## Assumptions on the collaborators named by the properties -/

/-- The engine writes only through its declared unknowns, in `solve` and in
`applySolution`. -/
def Engine.WritesOnlyUnknowns {R : Type} (E : Engine R) : Prop :=
  (∀ sys ps alg, ∀ w ∈ (E.solve sys ps alg).2, w.1 ∈ sys.unknowns)
  ∧ (∀ sys ps, ∀ w ∈ E.applySolution sys ps, w.1 ∈ sys.unknowns)

/-- The operations are those of exact real arithmetic. -/
structure ExactReal (F : FloatOps ℝ) : Prop where
  add : ∀ a b, F.add a b = a + b
  sub : ∀ a b, F.sub a b = a - b
  mul : ∀ a b, F.mul a b = a * b
  div : ∀ a b, F.div a b = a / b
  neg : ∀ a, F.neg a = -a
  lt : ∀ a b, F.lt a b = true ↔ a < b
  sqrt : ∀ a, F.sqrt a = Real.sqrt a
  abs : ∀ a, F.abs a = |a|
  cos : ∀ a, F.cos a = Real.cos a
  sin : ∀ a, F.sin a = Real.sin a
  atan2 : ∀ y x, F.atan2 y x = Complex.arg (Complex.mk x y)
  two : F.two = 2

/-- Every tag in the engine's working set was issued in this generation: tags
start at 1 and lie below the tag counter. -/
def TagsIssued {R : Type} (s : State R) : Prop :=
  1 ≤ s.next_constraint_tag_
  ∧ ∀ k ∈ s.system_.constraints, 1 ≤ k.tag ∧ k.tag < s.next_constraint_tag_

/-- Registered points and arcs of `s` are still registered, unchanged, in `s'`. -/
def Keeps {R : Type} (s s' : State R) : Prop :=
  (∀ h p, Map.find? s.points_ h = some p → Map.find? s'.points_ h = some p)
  ∧ (∀ h a, Map.find? s.arcs_ h = some a → Map.find? s'.arcs_ h = some a)

/-- Constraints of the working set of `s'` were already in that of `s` or carry
a tag taken between the two states. -/
def NewTags {R : Type} (s s' : State R) : Prop :=
  ∀ k ∈ s'.system_.constraints, k ∈ s.system_.constraints
    ∨ (s.next_constraint_tag_ ≤ k.tag ∧ k.tag < s'.next_constraint_tag_)

/-- Whether the constructor allocates points of its own. -/
def PrimCall.addsPoints {R : Type} : PrimCall R → Bool
  | .add_point _ _ => true
  | .add_line_coords _ _ _ _ => true
  | .add_arc_from_center _ _ _ _ => true
  | .add_arc_from_start_end _ _ _ => true
  | _ => false

/-- The local `half_chord` of `add_arc_from_start_end`:
`std::sqrt(dx*dx + dy*dy) / 2.0` with `dx = ex - sx`, `dy = ey - sy`. -/
def arc_half_chord {R : Type} (F : FloatOps R) (sx sy ex ey : R) : R :=
  let dx := F.sub ex sx
  let dy := F.sub ey sy
  F.div (F.sqrt (F.add (F.mul dx dx) (F.mul dy dy))) F.two

/-- The local `r` of `add_arc_from_start_end` after
`if (r < half_chord) r = half_chord`. -/
def arc_clamped_radius {R : Type} (F : FloatOps R) (sx sy ex ey radius : R) : R :=
  let half_chord := arc_half_chord F sx sy ex ey
  let r := F.abs radius
  if F.lt r half_chord then half_chord else r

/-- The argument `r*r - half_chord*half_chord` of the square root that gives the
local `h` of `add_arc_from_start_end`. -/
def arc_sagitta_arg {R : Type} (F : FloatOps R) (sx sy ex ey radius : R) : R :=
  let half_chord := arc_half_chord F sx sy ex ey
  let r := arc_clamped_radius F sx sy ex ey radius
  F.sub (F.mul r r) (F.mul half_chord half_chord)

/-- The divisor `2.0 * half_chord` by which `add_arc_from_start_end` normalises
the perpendicular. -/
def arc_perp_divisor {R : Type} (F : FloatOps R) (sx sy ex ey : R) : R :=
  F.mul F.two (arc_half_chord F sx sy ex ey)

/-- Every fixed flag on record belongs to an issued parameter handle. -/
def FlagsIssued {R : Type} (s : State R) : Prop :=
  ∀ h, Map.contains s.param_fixed_ h = true → Issued s h

/-- Whether the call, if it is a `set_param_fixed`, names a handle issued in the
state it is made in. -/
def Op.flagOnIssued {R : Type} (s : State R) : Op R → Bool
  | .set_param_fixed id _ => decide (Issued s id)
  | _ => true

/-- Whether every `set_param_fixed` of the run names a handle issued at the
time of the call. -/
def flagsOnIssued {R : Type} (F : FloatOps R) (E : Engine R) : State R → List (Op R) → Bool
  | _, [] => true
  | s, op :: rest => op.flagOnIssued s && flagsOnIssued F E (op.exec F E s) rest

/-! ## Evaluation lemmas -/

@[simp] theorem M.bind_apply {R α β : Type} (m : M R α) (f : α → M R β) (s : State R) :
    (m >>= f) s = match m s with
      | (s1, .ok a) => f a s1
      | (s1, .error e) => (s1, .error e) := rfl

@[simp] theorem M.pure_apply {R α : Type} (a : α) (s : State R) :
    (pure a : M R α) s = (s, .ok a) := rfl

@[simp] theorem getS_apply {R : Type} (s : State R) : getS s = (s, .ok s) := rfl

@[simp] theorem modifyS_apply {R : Type} (f : State R → State R) (s : State R) :
    modifyS f s = (f s, .ok ()) := rfl

@[simp] theorem liftE_apply {R α : Type} (x : Except Err α) (s : State R) :
    liftE x s = (s, x) := rfl

@[simp] theorem nextGeoId_apply {R : Type} (s : State R) :
    nextGeoId s = ({ s with next_geo_id_ := s.next_geo_id_ + 1 }, .ok s.next_geo_id_) := rfl

@[simp] theorem deref_apply {R : Type} (p : Addr) (s : State R) :
    deref p s = match s.params_[p]? with
      | some v => (s, .ok v)
      | none => (s, .error .undefined) := rfl

@[simp] theorem nextTag_apply {R : Type} (s : State R) :
    nextTag s = ({ s with next_constraint_tag_ := s.next_constraint_tag_ + 1 },
      .ok s.next_constraint_tag_) := rfl

theorem Map.find?_assign {V : Type} (m : Map V) (k k' : Int) (v : V) :
    Map.find? (Map.assign m k v) k' = if k = k' then some v else Map.find? m k' := by
  induction m with
  | nil => simp [Map.assign, Map.find?]
  | cons hd tl ih =>
    obtain ⟨a, b⟩ := hd
    simp only [Map.assign]
    split_ifs with h1 h2 h3 h4
    all_goals simp_all [Map.find?]
    all_goals omega

theorem Map.find?_assign_self {V : Type} (m : Map V) (k : Int) (v : V) :
    Map.find? (Map.assign m k v) k = some v := by
  simp [Map.find?_assign]

theorem Map.find?_assign_ne {V : Type} (m : Map V) (k k' : Int) (v : V) (h : k ≠ k') :
    Map.find? (Map.assign m k v) k' = Map.find? m k' := by
  simp [Map.find?_assign, h]

theorem getElem?_append_some {α : Type} {l : List α} {i : Nat} {v : α}
    (h : l[i]? = some v) (l' : List α) : (l ++ l')[i]? = some v := by
  have hi := (List.getElem?_eq_some_iff.mp h).1
  rw [List.getElem?_append_left hi, h]

theorem Map.contains_assign {V : Type} (m : Map V) (k k' : Int) (v : V) :
    Map.contains (Map.assign m k v) k' = (decide (k = k') || Map.contains m k') := by
  unfold Map.contains
  rw [Map.find?_assign]
  split_ifs with h <;> simp [h]

theorem Map.find?_append {V : Type} (m1 m2 : Map V) (k : Int) :
    Map.find? (m1 ++ m2) k = (Map.find? m1 k).orElse (fun _ => Map.find? m2 k) := by
  induction m1 with
  | nil => simp [Map.find?]
  | cons hd tl ih =>
    obtain ⟨a, b⟩ := hd
    by_cases h : a = k <;> simp [Map.find?, h, ih]

theorem Map.assign_append {V : Type} (m : Map V) (k : Int) (v : V)
    (h : ∀ e ∈ m, e.1 < k) : Map.assign m k v = m ++ [(k, v)] := by
  induction m with
  | nil => simp [Map.assign]
  | cons hd tl ih =>
    obtain ⟨a, b⟩ := hd
    have ha : a < k := h (a, b) (by simp)
    have h1 : ¬ k < a := by omega
    have h2 : ¬ k = a := by omega
    simp only [Map.assign, h1, h2, if_false, List.cons_append]
    rw [ih (fun e he => h e (List.mem_cons_of_mem _ he))]

theorem idMap_succ (n : Nat) : Map.assign (idMap n) n n = idMap (n + 1) := by
  have e : idMap (n + 1) = idMap n ++ [(Int.ofNat n, n)] := by
    simp [idMap, List.range_succ]
  rw [e, Map.assign_append]
  · rfl
  · intro e he
    simp only [idMap, List.mem_map, List.mem_range] at he
    obtain ⟨i, hi, rfl⟩ := he
    simp only [Int.ofNat_eq_coe]
    omega

theorem Map.find?_idMap (n : Nat) (k : Int) :
    Map.find? (idMap n) k = if 0 ≤ k ∧ k < n then some k.toNat else none := by
  induction n with
  | zero =>
    have : ¬ (0 ≤ k ∧ k < 0) := by omega
    simp [idMap, Map.find?, this]
  | succ n ih =>
    have e : idMap (n + 1) = idMap n ++ [(Int.ofNat n, n)] := by
      simp [idMap, List.range_succ]
    rw [e, Map.find?_append, ih]
    by_cases h : 0 ≤ k ∧ k < (n : Int)
    · have h2 : 0 ≤ k ∧ k < ((n + 1 : Nat) : Int) := by omega
      rw [if_pos h, if_pos h2]
      rfl
    · by_cases h3 : k = n
      · subst h3
        simp [Map.find?]
      · have h2 : ¬ (0 ≤ k ∧ k < ((n + 1 : Nat) : Int)) := by omega
        have h4 : ¬ (Int.ofNat n = k) := fun e => h3 e.symm
        rw [if_neg h, if_neg h2]
        simp [Map.find?]
        exact fun e => h3 e.symm


/-! ## What each constructor computes -/

theorem add_param_apply {R : Type} (v : R) (f : Bool) (s : State R) :
    add_param v f s = ({ s with
        next_param_id_ := s.next_param_id_ + 1
        params_ := s.params_ ++ [v]
        param_index_ := Map.assign s.param_index_ s.next_param_id_ s.params_.length
        param_fixed_ := Map.assign s.param_fixed_ s.next_param_id_ f }, .ok s.next_param_id_) := by
  simp [add_param]

theorem add_point_apply {R : Type} (x y : R) (s : State R) :
    add_point x y s = ({ s with
        next_param_id_ := s.next_param_id_ + 1 + 1
        params_ := s.params_ ++ [x] ++ [y]
        param_index_ := Map.assign (Map.assign s.param_index_ s.next_param_id_ s.params_.length)
          (s.next_param_id_ + 1) (s.params_.length + 1)
        param_fixed_ := Map.assign (Map.assign s.param_fixed_ s.next_param_id_ false)
          (s.next_param_id_ + 1) false
        next_geo_id_ := s.next_geo_id_ + 1
        points_ := Map.assign s.points_ s.next_geo_id_
          { x := s.params_.length, y := s.params_.length + 1 }
        point_param_ids_ := Map.assign s.point_param_ids_ s.next_geo_id_
          (s.next_param_id_, s.next_param_id_ + 1) }, .ok s.next_geo_id_) := by
  simp [add_point, add_param_apply, param_ptr, Map.at, Map.find?_assign]

theorem add_line_apply {R : Type} (a b : Int) (s : State R) :
    add_line a b s =
      match Map.find? s.points_ a, Map.find? s.points_ b with
      | some p1, some p2 =>
        ({ s with next_geo_id_ := s.next_geo_id_ + 1
                  lines_ := Map.assign s.lines_ s.next_geo_id_ { p1 := p1, p2 := p2 } },
          .ok s.next_geo_id_)
      | _, _ => ({ s with next_geo_id_ := s.next_geo_id_ + 1 }, .error .notFound) := by
  simp only [add_line, M.bind_apply, nextGeoId_apply, getS_apply, liftE_apply, Map.at,
    modifyS_apply, M.pure_apply]
  cases Map.find? s.points_ a <;> cases Map.find? s.points_ b <;> rfl

theorem add_line_coords_apply {R : Type} (x1 y1 x2 y2 : R) (s : State R) :
    add_line_coords x1 y1 x2 y2 s =
      (let s2 := (add_point x2 y2 (add_point x1 y1 s).1).1
       { s2 with
          next_geo_id_ := s2.next_geo_id_ + 1
          lines_ := Map.assign s2.lines_ s2.next_geo_id_
            { p1 := { x := s.params_.length, y := s.params_.length + 1 },
              p2 := { x := s.params_.length + 2, y := s.params_.length + 3 } } },
        .ok (s.next_geo_id_ + 2)) := by
  simp (disch := omega) [add_line_coords, add_line_apply, add_point_apply,
    Map.find?_assign_self, Map.find?_assign_ne]
  omega

theorem add_circle_apply {R : Type} (c : Int) (r : R) (s : State R) :
    add_circle c r s =
      match Map.find? s.points_ c with
      | some p =>
        ({ (add_param r false s).1 with
            next_geo_id_ := s.next_geo_id_ + 1
            circles_ := Map.assign s.circles_ s.next_geo_id_
              { center := p, rad := s.params_.length }
            circle_rad_param_ := Map.assign s.circle_rad_param_ s.next_geo_id_
              s.next_param_id_ },
          .ok s.next_geo_id_)
      | none => ({ (add_param r false s).1 with next_geo_id_ := s.next_geo_id_ + 1 },
          .error .notFound) := by
  simp only [add_circle, M.bind_apply, nextGeoId_apply, getS_apply, liftE_apply, Map.at,
    modifyS_apply, M.pure_apply, add_param_apply, param_ptr]
  cases Map.find? s.points_ c <;> simp [Map.find?_assign]

theorem add_ellipse_apply {R : Type} (c f : Int) (rm : R) (s : State R) :
    add_ellipse c f rm s =
      match Map.find? s.points_ c, Map.find? s.points_ f with
      | some pc, some pf =>
        ({ (add_param rm false s).1 with
            next_geo_id_ := s.next_geo_id_ + 1
            ellipses_ := Map.assign s.ellipses_ s.next_geo_id_
              { center := pc, focus1 := pf, radmin := s.params_.length } },
          .ok s.next_geo_id_)
      | _, _ => ({ (add_param rm false s).1 with next_geo_id_ := s.next_geo_id_ + 1 },
          .error .notFound) := by
  simp only [add_ellipse, M.bind_apply, nextGeoId_apply, getS_apply, liftE_apply, Map.at,
    modifyS_apply, M.pure_apply, add_param_apply, param_ptr]
  cases Map.find? s.points_ c <;> cases Map.find? s.points_ f <;>
    simp [Map.find?_assign_self]

theorem add_hyperbola_apply {R : Type} (c f : Int) (rm : R) (s : State R) :
    add_hyperbola c f rm s =
      match Map.find? s.points_ c, Map.find? s.points_ f with
      | some pc, some pf =>
        ({ (add_param rm false s).1 with
            next_geo_id_ := s.next_geo_id_ + 1
            hyperbolas_ := Map.assign s.hyperbolas_ s.next_geo_id_
              { center := pc, focus1 := pf, radmin := s.params_.length } },
          .ok s.next_geo_id_)
      | _, _ => ({ (add_param rm false s).1 with next_geo_id_ := s.next_geo_id_ + 1 },
          .error .notFound) := by
  simp only [add_hyperbola, M.bind_apply, nextGeoId_apply, getS_apply, liftE_apply, Map.at,
    modifyS_apply, M.pure_apply, add_param_apply, param_ptr]
  cases Map.find? s.points_ c <;> cases Map.find? s.points_ f <;>
    simp [Map.find?_assign_self]

theorem add_arc_of_ellipse_apply {R : Type} (c f : Int) (rm sa ea : R) (a b : Int) (s : State R) :
    add_arc_of_ellipse c f rm sa ea a b s =
      match Map.find? s.points_ c, Map.find? s.points_ f, Map.find? s.points_ a,
        Map.find? s.points_ b with
      | some pc, some pf, some pa, some pb =>
        ({ (add_param ea false (add_param sa false (add_param rm false s).1).1).1 with
            next_geo_id_ := s.next_geo_id_ + 1
            arcs_of_ellipse_ := Map.assign s.arcs_of_ellipse_ s.next_geo_id_
              { center := pc, focus1 := pf, radmin := s.params_.length,
                startAngle := s.params_.length + 1, endAngle := s.params_.length + 2,
                start := pa, «end» := pb } },
          .ok s.next_geo_id_)
      | _, _, _, _ =>
        ({ (add_param ea false (add_param sa false (add_param rm false s).1).1).1 with
            next_geo_id_ := s.next_geo_id_ + 1 }, .error .notFound) := by
  simp only [add_arc_of_ellipse, M.bind_apply, nextGeoId_apply, getS_apply, liftE_apply, Map.at,
    modifyS_apply, M.pure_apply, add_param_apply, param_ptr]
  cases Map.find? s.points_ c <;> cases Map.find? s.points_ f <;>
    cases Map.find? s.points_ a <;> cases Map.find? s.points_ b <;>
    simp (disch := omega) [Map.find?_assign_self, Map.find?_assign_ne]

theorem add_arc_of_hyperbola_apply {R : Type} (c f : Int) (rm sa ea : R) (a b : Int) (s : State R) :
    add_arc_of_hyperbola c f rm sa ea a b s =
      match Map.find? s.points_ c, Map.find? s.points_ f, Map.find? s.points_ a,
        Map.find? s.points_ b with
      | some pc, some pf, some pa, some pb =>
        ({ (add_param ea false (add_param sa false (add_param rm false s).1).1).1 with
            next_geo_id_ := s.next_geo_id_ + 1
            arcs_of_hyperbola_ := Map.assign s.arcs_of_hyperbola_ s.next_geo_id_
              { center := pc, focus1 := pf, radmin := s.params_.length,
                startAngle := s.params_.length + 1, endAngle := s.params_.length + 2,
                start := pa, «end» := pb } },
          .ok s.next_geo_id_)
      | _, _, _, _ =>
        ({ (add_param ea false (add_param sa false (add_param rm false s).1).1).1 with
            next_geo_id_ := s.next_geo_id_ + 1 }, .error .notFound) := by
  simp only [add_arc_of_hyperbola, M.bind_apply, nextGeoId_apply, getS_apply, liftE_apply, Map.at,
    modifyS_apply, M.pure_apply, add_param_apply, param_ptr]
  cases Map.find? s.points_ c <;> cases Map.find? s.points_ f <;>
    cases Map.find? s.points_ a <;> cases Map.find? s.points_ b <;>
    simp (disch := omega) [Map.find?_assign_self, Map.find?_assign_ne]

theorem add_parabola_apply {R : Type} (v f : Int) (s : State R) :
    add_parabola v f s =
      match Map.find? s.points_ v, Map.find? s.points_ f with
      | some pv, some pf =>
        ({ s with next_geo_id_ := s.next_geo_id_ + 1
                  parabolas_ := Map.assign s.parabolas_ s.next_geo_id_
                    { vertex := pv, focus1 := pf } },
          .ok s.next_geo_id_)
      | _, _ => ({ s with next_geo_id_ := s.next_geo_id_ + 1 }, .error .notFound) := by
  simp only [add_parabola, M.bind_apply, nextGeoId_apply, getS_apply, liftE_apply, Map.at,
    modifyS_apply, M.pure_apply]
  cases Map.find? s.points_ v <;> cases Map.find? s.points_ f <;> rfl

theorem add_arc_of_parabola_apply {R : Type} (v f : Int) (sa ea : R) (a b : Int)
    (s : State R) :
    add_arc_of_parabola v f sa ea a b s =
      match Map.find? s.points_ v, Map.find? s.points_ f, Map.find? s.points_ a,
        Map.find? s.points_ b with
      | some pv, some pf, some pa, some pb =>
        ({ (add_param ea false (add_param sa false s).1).1 with
            next_geo_id_ := s.next_geo_id_ + 1
            arcs_of_parabola_ := Map.assign s.arcs_of_parabola_ s.next_geo_id_
              { vertex := pv, focus1 := pf,
                startAngle := s.params_.length, endAngle := s.params_.length + 1,
                start := pa, «end» := pb } },
          .ok s.next_geo_id_)
      | _, _, _, _ =>
        ({ (add_param ea false (add_param sa false s).1).1 with
            next_geo_id_ := s.next_geo_id_ + 1 }, .error .notFound) := by
  simp only [add_arc_of_parabola, M.bind_apply, nextGeoId_apply, getS_apply, liftE_apply,
    Map.at, modifyS_apply, M.pure_apply, add_param_apply, param_ptr]
  cases Map.find? s.points_ v <;> cases Map.find? s.points_ f <;>
    cases Map.find? s.points_ a <;> cases Map.find? s.points_ b <;>
    simp (disch := omega) [Map.find?_assign_self, Map.find?_assign_ne]

theorem add_arc_from_center_fail {R : Type} (F : FloatOps R) (c : Int) (r sa ea : R)
    (s : State R) (hc : Map.find? s.points_ c = none) :
    add_arc_from_center F c r sa ea s =
      ((add_param ea false (add_param sa false (add_param r false s).1).1).1,
        .error .notFound) := by
  simp [add_arc_from_center, add_param_apply, Map.at, hc]

theorem add_arc_from_center_ok {R : Type} (F : FloatOps R) (c : Int) (r sa ea : R)
    (s : State R) (p : Point) (cx cy : R) (hc : Map.find? s.points_ c = some p)
    (hn : c < s.next_geo_id_) (hx : s.params_[p.x]? = some cx) (hy : s.params_[p.y]? = some cy) :
    add_arc_from_center F c r sa ea s =
      (let s1 := (add_param ea false (add_param sa false (add_param r false s).1).1).1
       let s2 := (add_point (F.add cx (F.mul r (F.cos sa))) (F.add cy (F.mul r (F.sin sa))) s1).1
       let s3 := (add_point (F.add cx (F.mul r (F.cos ea))) (F.add cy (F.mul r (F.sin ea))) s2).1
       { s3 with
          next_geo_id_ := s3.next_geo_id_ + 1
          arcs_ := Map.assign s3.arcs_ s3.next_geo_id_
            { center := p, rad := s.params_.length, startAngle := s.params_.length + 1,
              endAngle := s.params_.length + 2,
              start := { x := s.params_.length + 3, y := s.params_.length + 4 },
              «end» := { x := s.params_.length + 5, y := s.params_.length + 6 } } },
        .ok (s.next_geo_id_ + 2)) := by
  have hx' := getElem?_append_some hx
  have hy' := getElem?_append_some hy
  simp (disch := omega) [add_arc_from_center, add_param_apply, add_point_apply, Map.at, hc,
    param_ptr, Map.find?_assign_self, Map.find?_assign_ne, hx', hy']
  omega

theorem resolve_tag {R : Type} (s : State R) (t : Int) :
    resolve { s with next_constraint_tag_ := t } = resolve s := by
  funext a
  cases a <;> rfl

theorem resolveAll_tag {R : Type} (s : State R) (t : Int) (args : List (HArg R)) :
    resolveAll { s with next_constraint_tag_ := t } args = resolveAll s args := by
  induction args with
  | nil => rfl
  | cons a rest ih => simp only [resolveAll, resolve_tag, ih]

theorem register_apply {R : Type} (k : CKind) (args : List (HArg R)) (d : Bool) (s : State R) :
    register k args d s =
      match resolveAll s args with
      | .ok eargs =>
        ({ s with
            next_constraint_tag_ := s.next_constraint_tag_ + 1
            system_ := System.addConstraint s.system_
              { kind := k, args := eargs, tag := s.next_constraint_tag_, driving := d } },
          .ok s.next_constraint_tag_)
      | .error e => ({ s with next_constraint_tag_ := s.next_constraint_tag_ + 1 }, .error e) := by
  simp only [register, M.bind_apply, nextTag_apply, getS_apply, liftE_apply, modifyS_apply,
    M.pure_apply, resolveAll_tag]
  cases resolveAll s args <;> rfl

theorem CCall.run_eq {R : Type} (c : CCall R) :
    c.run = register c.kind c.args (c.drivingArg.getD true) := by
  cases c
  case tangent_circumf a b c d i dr => cases i <;> cases dr <;> rfl
  all_goals (rename_i d; cases d <;> rfl)

theorem add_arc_from_start_end_fail {R : Type} (F : FloatOps R) (a b r : Int) (s : State R)
    (hv : ∀ h p, Map.find? s.points_ h = some p → p.valid s.params_.length)
    (h : Map.find? s.points_ a = none ∨ Map.find? s.points_ b = none
      ∨ Map.find? s.param_index_ r = none) :
    add_arc_from_start_end F a b r s = (s, .error .notFound) := by
  simp only [add_arc_from_start_end, M.bind_apply, getS_apply, liftE_apply, Map.at, deref_apply,
    param_ptr]
  cases ha : Map.find? s.points_ a with
  | none => rfl
  | some pa =>
    obtain ⟨hax, hay⟩ := hv a pa ha
    simp only [List.getElem?_eq_getElem hax, List.getElem?_eq_getElem hay]
    cases hb : Map.find? s.points_ b with
    | none => rfl
    | some pb =>
      obtain ⟨hbx, hby⟩ := hv b pb hb
      simp only [List.getElem?_eq_getElem hbx, List.getElem?_eq_getElem hby]
      cases hr : Map.find? s.param_index_ r with
      | none => rfl
      | some pr => simp [ha, hb, hr] at h

theorem add_arc_from_start_end_ok {R : Type} (F : FloatOps R) (a b r : Int) (s : State R)
    (pa pb : Point) (pr : Nat) (sx sy ex ey rv : R)
    (ha : Map.find? s.points_ a = some pa) (hb : Map.find? s.points_ b = some pb)
    (hr : Map.find? s.param_index_ r = some pr)
    (han : a < s.next_geo_id_) (hbn : b < s.next_geo_id_) (hrn : r < s.next_param_id_)
    (hsx : s.params_[pa.x]? = some sx) (hsy : s.params_[pa.y]? = some sy)
    (hex : s.params_[pb.x]? = some ex) (hey : s.params_[pb.y]? = some ey)
    (hrv : s.params_[pr]? = some rv) :
    add_arc_from_start_end F a b r s =
      (let v := arc_from_start_end_values F sx sy ex ey rv
       let n := s.params_.length
       let t := s.next_constraint_tag_
       let s1 := (add_point v.1.1 v.1.2 s).1
       let s3 := (add_param v.2.2 false (add_param v.2.1 false s1).1).1
       let s5 := (add_point ex ey (add_point sx sy s3).1).1
       let arc : Arc :=
         { center := { x := n, y := n + 1 }, rad := pr, startAngle := n + 2,
           endAngle := n + 3, start := { x := n + 4, y := n + 5 },
           «end» := { x := n + 6, y := n + 7 } }
       { s5 with
          next_geo_id_ := s5.next_geo_id_ + 1
          arcs_ := Map.assign s5.arcs_ s5.next_geo_id_ arc
          next_constraint_tag_ := t + 3
          system_ := System.addConstraint (System.addConstraint (System.addConstraint s.system_
            { kind := .ArcRules, args := [.arc arc], tag := t, driving := true })
            { kind := .P2PCoincident, args := [.point arc.start, .point pa], tag := t + 1,
              driving := true })
            { kind := .P2PCoincident, args := [.point arc.«end», .point pb], tag := t + 2,
              driving := true } },
        .ok (s.next_geo_id_ + 3)) := by
  simp (disch := omega) [add_arc_from_start_end, add_param_apply, add_point_apply, Map.at,
    ha, hb, hr, hsx, hsy, hex, hey, hrv, param_ptr, Map.find?_assign_self, Map.find?_assign_ne,
    arc_rules, coincident, register_apply, resolveAll, resolve, Except.map]
  refine ⟨⟨?_, by omega⟩, by omega⟩
  rw [show s.next_constraint_tag_ + 1 + 1 = s.next_constraint_tag_ + 2 by omega]

/-! ## Well-formedness is kept by every call -/

theorem wf_init (R : Type) : WF (State.init R) := by
  refine ⟨rfl, rfl, ?_, ?_, ?_⟩
  · intro h _; rfl
  · intro h; exact Nat.zero_le 1
  · intro h p hp; simp [State.init, Map.find?] at hp

theorem wf_add_param {R : Type} {s : State R} (h : WF s) (v : R) (f : Bool) :
    WF (add_param v f s).1 := by
  obtain ⟨h1, h2, h3, h4, h5⟩ := h
  refine ⟨?_, ?_, ?_, ?_, ?_⟩
  · simp [add_param_apply, h1, h2, idMap_succ]
  · simp [add_param_apply, h2]
  · simpa [add_param_apply, keyCount] using h3
  · simpa [add_param_apply, keyCount] using h4
  · intro k p hp
    have := h5 k p (by simpa [add_param_apply] using hp)
    simp [add_param_apply, Point.valid] at this ⊢
    omega

theorem wf_allocAll {R : Type} (vs : List R) {s : State R} (h : WF s) : WF (allocAll s vs) := by
  induction vs generalizing s with
  | nil => exact h
  | cons v rest ih => exact ih (wf_add_param h v false)

/-- Taking handles from the shared counter and inserting them as fresh keys
keeps the registry well formed. -/
theorem wf_of_geo {R : Type} {s s' : State R} (h : WF s)
    (hidx : s'.param_index_ = s.param_index_) (hpar : s'.params_ = s.params_)
    (hnext : s'.next_param_id_ = s.next_param_id_)
    (hpts : ∀ k p, Map.find? s'.points_ k = some p →
      Map.find? s.points_ k = some p ∨ p.valid s.params_.length)
    (hcount : ∀ k, (keyCount s' k = keyCount s k ∧ (s'.next_geo_id_ ≤ k → s.next_geo_id_ ≤ k)) ∨
      (s.next_geo_id_ ≤ k ∧ k < s'.next_geo_id_ ∧ keyCount s' k ≤ 1 + keyCount s k)) :
    WF s' := by
  obtain ⟨h1, h2, h3, h4, h5⟩ := h
  refine ⟨by rw [hidx, hpar, h1], by rw [hnext, hpar, h2], ?_, ?_, ?_⟩
  · intro k hk
    rcases hcount k with ⟨e, e'⟩ | ⟨_, e2, _⟩
    · rw [e]; exact h3 k (e' hk)
    · omega
  · intro k
    rcases hcount k with ⟨e, _⟩ | ⟨e1, _, e3⟩
    · rw [e]; exact h4 k
    · have := h3 k e1
      omega
  · intro k p hp
    rw [hpar]
    rcases hpts k p hp with e | e
    · exact h5 k p e
    · exact e

theorem wf_add_point {R : Type} {s : State R} (h : WF s) (x y : R) :
    WF (add_point x y s).1 := by
  have hb : WF (add_param y false (add_param x false s).1).1 :=
    wf_add_param (wf_add_param h x false) y false
  refine wf_of_geo hb ?_ ?_ ?_ ?_ ?_
  · simp [add_point_apply, add_param_apply]
  · simp [add_point_apply, add_param_apply]
  · simp [add_point_apply, add_param_apply]
  · intro k p hp
    simp only [add_point_apply, add_param_apply, Map.find?_assign] at hp ⊢
    split_ifs at hp with e
    · right
      cases hp
      simp [Point.valid]
    · left; exact hp
  · intro k
    simp only [keyCount, Map.contains_assign, add_param_apply, add_point_apply]
    by_cases e : s.next_geo_id_ = k
    · right; subst e; simp; omega
    · left; simp [e]; omega

theorem wf_register {R : Type} {s : State R} (h : WF s) (k : CKind) (args : List (HArg R))
    (d : Bool) : WF (register k args d s).1 := by
  obtain ⟨h1, h2, h3, h4, h5⟩ := h
  rw [register_apply]
  split <;> exact ⟨h1, h2, h3, h4, h5⟩

/-! ## Outcome of each constructor from a well-formed state -/

theorem outcome_add_line {R : Type} (F : FloatOps R) (a b : Int) {s : State R} (hs : WF s) :
    Outcome F s (.add_line a b) := by
  by_cases hres : PrimCall.refsResolve s (.add_line a b) = true
  · have hres' := hres
    simp only [PrimCall.refsResolve, PrimCall.pointRefs, PrimCall.paramRefs, List.all_cons,
      List.all_nil, Bool.and_true, Bool.and_eq_true, Map.contains,
      Option.isSome_iff_exists] at hres'
    obtain ⟨⟨p1, h1⟩, p2, h2⟩ := hres'
    refine Or.inl ⟨hres, s.next_geo_id_, ?_, ?_⟩ <;>
      simp only [PrimCall.run, add_line_apply, h1, h2]
    refine ⟨wf_of_geo hs rfl rfl rfl (fun k p hp => Or.inl hp) ?_,
      ⟨[], by simp [add_param_apply]⟩, le_refl _, by simp,
      by simp [PrimCall.resultIn, Map.contains, Map.find?_assign_self],
      by simp [add_param_apply]⟩
    intro k
    simp only [keyCount, Map.contains_assign, add_param_apply]
    by_cases e : s.next_geo_id_ = k
    · right; subst e; simp; omega
    · left; simp [e]; omega
  · refine Or.inr ⟨by simpa using hres, ?_⟩
    simp only [PrimCall.refsResolve, PrimCall.pointRefs, PrimCall.paramRefs, List.all_cons,
      List.all_nil, Bool.and_true, Bool.and_eq_true, Map.contains] at hres
    simp only [PrimCall.run, add_line_apply, allocAll, PrimCall.earlyParams,
      PrimCall.earlyIds, List.foldl]
    cases h1 : Map.find? s.points_ a <;> cases h2 : Map.find? s.points_ b <;>
      simp_all

theorem outcome_add_circle {R : Type} (F : FloatOps R) (c : Int) (r : R) {s : State R} (hs : WF s) :
    Outcome F s (.add_circle c r) := by
  by_cases hres : PrimCall.refsResolve s (.add_circle c r) = true
  · have hres' := hres
    simp only [PrimCall.refsResolve, PrimCall.pointRefs, PrimCall.paramRefs, List.all_cons,
      List.all_nil, Bool.and_true, Bool.and_eq_true, Map.contains,
      Option.isSome_iff_exists] at hres'
    obtain ⟨p1, h1⟩ := hres'
    refine Or.inl ⟨hres, s.next_geo_id_, ?_, ?_⟩ <;>
      simp only [PrimCall.run, add_circle_apply, h1]
    refine ⟨wf_of_geo (wf_add_param hs r false) rfl rfl rfl (fun k p hp => Or.inl hp) ?_,
      ⟨[r], by simp [add_param_apply]⟩, le_refl _, by simp,
      by simp [PrimCall.resultIn, Map.contains, Map.find?_assign_self],
      by simp [add_param_apply]⟩
    intro k
    simp only [keyCount, Map.contains_assign, add_param_apply]
    by_cases e : s.next_geo_id_ = k
    · right; subst e; simp; omega
    · left; simp [e]; omega
  · refine Or.inr ⟨by simpa using hres, ?_⟩
    simp only [PrimCall.refsResolve, PrimCall.pointRefs, PrimCall.paramRefs, List.all_cons,
      List.all_nil, Bool.and_true, Bool.and_eq_true, Map.contains] at hres
    simp only [PrimCall.run, add_circle_apply, allocAll, PrimCall.earlyParams,
      PrimCall.earlyIds, List.foldl]
    cases h1 : Map.find? s.points_ c <;>
      simp_all

theorem outcome_add_ellipse {R : Type} (F : FloatOps R) (c f : Int) (rm : R) {s : State R} (hs : WF s) :
    Outcome F s (.add_ellipse c f rm) := by
  by_cases hres : PrimCall.refsResolve s (.add_ellipse c f rm) = true
  · have hres' := hres
    simp only [PrimCall.refsResolve, PrimCall.pointRefs, PrimCall.paramRefs, List.all_cons,
      List.all_nil, Bool.and_true, Bool.and_eq_true, Map.contains,
      Option.isSome_iff_exists] at hres'
    obtain ⟨⟨p1, h1⟩, p2, h2⟩ := hres'
    refine Or.inl ⟨hres, s.next_geo_id_, ?_, ?_⟩ <;>
      simp only [PrimCall.run, add_ellipse_apply, h1, h2]
    refine ⟨wf_of_geo (wf_add_param hs rm false) rfl rfl rfl (fun k p hp => Or.inl hp) ?_,
      ⟨[rm], by simp [add_param_apply]⟩, le_refl _, by simp,
      by simp [PrimCall.resultIn, Map.contains, Map.find?_assign_self],
      by simp [add_param_apply]⟩
    intro k
    simp only [keyCount, Map.contains_assign, add_param_apply]
    by_cases e : s.next_geo_id_ = k
    · right; subst e; simp; omega
    · left; simp [e]; omega
  · refine Or.inr ⟨by simpa using hres, ?_⟩
    simp only [PrimCall.refsResolve, PrimCall.pointRefs, PrimCall.paramRefs, List.all_cons,
      List.all_nil, Bool.and_true, Bool.and_eq_true, Map.contains] at hres
    simp only [PrimCall.run, add_ellipse_apply, allocAll, PrimCall.earlyParams,
      PrimCall.earlyIds, List.foldl]
    cases h1 : Map.find? s.points_ c <;> cases h2 : Map.find? s.points_ f <;>
      simp_all

theorem outcome_add_hyperbola {R : Type} (F : FloatOps R) (c f : Int) (rm : R) {s : State R} (hs : WF s) :
    Outcome F s (.add_hyperbola c f rm) := by
  by_cases hres : PrimCall.refsResolve s (.add_hyperbola c f rm) = true
  · have hres' := hres
    simp only [PrimCall.refsResolve, PrimCall.pointRefs, PrimCall.paramRefs, List.all_cons,
      List.all_nil, Bool.and_true, Bool.and_eq_true, Map.contains,
      Option.isSome_iff_exists] at hres'
    obtain ⟨⟨p1, h1⟩, p2, h2⟩ := hres'
    refine Or.inl ⟨hres, s.next_geo_id_, ?_, ?_⟩ <;>
      simp only [PrimCall.run, add_hyperbola_apply, h1, h2]
    refine ⟨wf_of_geo (wf_add_param hs rm false) rfl rfl rfl (fun k p hp => Or.inl hp) ?_,
      ⟨[rm], by simp [add_param_apply]⟩, le_refl _, by simp,
      by simp [PrimCall.resultIn, Map.contains, Map.find?_assign_self],
      by simp [add_param_apply]⟩
    intro k
    simp only [keyCount, Map.contains_assign, add_param_apply]
    by_cases e : s.next_geo_id_ = k
    · right; subst e; simp; omega
    · left; simp [e]; omega
  · refine Or.inr ⟨by simpa using hres, ?_⟩
    simp only [PrimCall.refsResolve, PrimCall.pointRefs, PrimCall.paramRefs, List.all_cons,
      List.all_nil, Bool.and_true, Bool.and_eq_true, Map.contains] at hres
    simp only [PrimCall.run, add_hyperbola_apply, allocAll, PrimCall.earlyParams,
      PrimCall.earlyIds, List.foldl]
    cases h1 : Map.find? s.points_ c <;> cases h2 : Map.find? s.points_ f <;>
      simp_all

theorem outcome_add_parabola {R : Type} (F : FloatOps R) (v f : Int) {s : State R} (hs : WF s) :
    Outcome F s (.add_parabola v f) := by
  by_cases hres : PrimCall.refsResolve s (.add_parabola v f) = true
  · have hres' := hres
    simp only [PrimCall.refsResolve, PrimCall.pointRefs, PrimCall.paramRefs, List.all_cons,
      List.all_nil, Bool.and_true, Bool.and_eq_true, Map.contains,
      Option.isSome_iff_exists] at hres'
    obtain ⟨⟨p1, h1⟩, p2, h2⟩ := hres'
    refine Or.inl ⟨hres, s.next_geo_id_, ?_, ?_⟩ <;>
      simp only [PrimCall.run, add_parabola_apply, h1, h2]
    refine ⟨wf_of_geo hs rfl rfl rfl (fun k p hp => Or.inl hp) ?_,
      ⟨[], by simp [add_param_apply]⟩, le_refl _, by simp,
      by simp [PrimCall.resultIn, Map.contains, Map.find?_assign_self],
      by simp [add_param_apply]⟩
    intro k
    simp only [keyCount, Map.contains_assign, add_param_apply]
    by_cases e : s.next_geo_id_ = k
    · right; subst e; simp; omega
    · left; simp [e]; omega
  · refine Or.inr ⟨by simpa using hres, ?_⟩
    simp only [PrimCall.refsResolve, PrimCall.pointRefs, PrimCall.paramRefs, List.all_cons,
      List.all_nil, Bool.and_true, Bool.and_eq_true, Map.contains] at hres
    simp only [PrimCall.run, add_parabola_apply, allocAll, PrimCall.earlyParams,
      PrimCall.earlyIds, List.foldl]
    cases h1 : Map.find? s.points_ v <;> cases h2 : Map.find? s.points_ f <;>
      simp_all

theorem outcome_add_arc_of_ellipse {R : Type} (F : FloatOps R) (c f : Int) (rm sa ea : R) (a b : Int) {s : State R} (hs : WF s) :
    Outcome F s (.add_arc_of_ellipse c f rm sa ea a b) := by
  by_cases hres : PrimCall.refsResolve s (.add_arc_of_ellipse c f rm sa ea a b) = true
  · have hres' := hres
    simp only [PrimCall.refsResolve, PrimCall.pointRefs, PrimCall.paramRefs, List.all_cons,
      List.all_nil, Bool.and_true, Bool.and_eq_true, Map.contains,
      Option.isSome_iff_exists] at hres'
    obtain ⟨⟨p1, h1⟩, ⟨p2, h2⟩, ⟨p3, h3⟩, p4, h4⟩ := hres'
    refine Or.inl ⟨hres, s.next_geo_id_, ?_, ?_⟩ <;>
      simp only [PrimCall.run, add_arc_of_ellipse_apply, h1, h2, h3, h4]
    refine ⟨wf_of_geo (wf_add_param (wf_add_param (wf_add_param hs rm false) sa false) ea false) rfl rfl rfl (fun k p hp => Or.inl hp) ?_,
      ⟨[rm, sa, ea], by simp [add_param_apply]⟩, le_refl _, by simp,
      by simp [PrimCall.resultIn, Map.contains, Map.find?_assign_self],
      by simp [add_param_apply]⟩
    intro k
    simp only [keyCount, Map.contains_assign, add_param_apply]
    by_cases e : s.next_geo_id_ = k
    · right; subst e; simp; omega
    · left; simp [e]; omega
  · refine Or.inr ⟨by simpa using hres, ?_⟩
    simp only [PrimCall.refsResolve, PrimCall.pointRefs, PrimCall.paramRefs, List.all_cons,
      List.all_nil, Bool.and_true, Bool.and_eq_true, Map.contains] at hres
    simp only [PrimCall.run, add_arc_of_ellipse_apply, allocAll, PrimCall.earlyParams,
      PrimCall.earlyIds, List.foldl]
    cases h1 : Map.find? s.points_ c <;> cases h2 : Map.find? s.points_ f <;> cases h3 : Map.find? s.points_ a <;> cases h4 : Map.find? s.points_ b <;>
      simp_all

theorem outcome_add_arc_of_hyperbola {R : Type} (F : FloatOps R) (c f : Int) (rm sa ea : R) (a b : Int) {s : State R} (hs : WF s) :
    Outcome F s (.add_arc_of_hyperbola c f rm sa ea a b) := by
  by_cases hres : PrimCall.refsResolve s (.add_arc_of_hyperbola c f rm sa ea a b) = true
  · have hres' := hres
    simp only [PrimCall.refsResolve, PrimCall.pointRefs, PrimCall.paramRefs, List.all_cons,
      List.all_nil, Bool.and_true, Bool.and_eq_true, Map.contains,
      Option.isSome_iff_exists] at hres'
    obtain ⟨⟨p1, h1⟩, ⟨p2, h2⟩, ⟨p3, h3⟩, p4, h4⟩ := hres'
    refine Or.inl ⟨hres, s.next_geo_id_, ?_, ?_⟩ <;>
      simp only [PrimCall.run, add_arc_of_hyperbola_apply, h1, h2, h3, h4]
    refine ⟨wf_of_geo (wf_add_param (wf_add_param (wf_add_param hs rm false) sa false) ea false) rfl rfl rfl (fun k p hp => Or.inl hp) ?_,
      ⟨[rm, sa, ea], by simp [add_param_apply]⟩, le_refl _, by simp,
      by simp [PrimCall.resultIn, Map.contains, Map.find?_assign_self],
      by simp [add_param_apply]⟩
    intro k
    simp only [keyCount, Map.contains_assign, add_param_apply]
    by_cases e : s.next_geo_id_ = k
    · right; subst e; simp; omega
    · left; simp [e]; omega
  · refine Or.inr ⟨by simpa using hres, ?_⟩
    simp only [PrimCall.refsResolve, PrimCall.pointRefs, PrimCall.paramRefs, List.all_cons,
      List.all_nil, Bool.and_true, Bool.and_eq_true, Map.contains] at hres
    simp only [PrimCall.run, add_arc_of_hyperbola_apply, allocAll, PrimCall.earlyParams,
      PrimCall.earlyIds, List.foldl]
    cases h1 : Map.find? s.points_ c <;> cases h2 : Map.find? s.points_ f <;> cases h3 : Map.find? s.points_ a <;> cases h4 : Map.find? s.points_ b <;>
      simp_all

theorem outcome_add_arc_of_parabola {R : Type} (F : FloatOps R) (v f : Int) (sa ea : R) (a b : Int) {s : State R} (hs : WF s) :
    Outcome F s (.add_arc_of_parabola v f sa ea a b) := by
  by_cases hres : PrimCall.refsResolve s (.add_arc_of_parabola v f sa ea a b) = true
  · have hres' := hres
    simp only [PrimCall.refsResolve, PrimCall.pointRefs, PrimCall.paramRefs, List.all_cons,
      List.all_nil, Bool.and_true, Bool.and_eq_true, Map.contains,
      Option.isSome_iff_exists] at hres'
    obtain ⟨⟨p1, h1⟩, ⟨p2, h2⟩, ⟨p3, h3⟩, p4, h4⟩ := hres'
    refine Or.inl ⟨hres, s.next_geo_id_, ?_, ?_⟩ <;>
      simp only [PrimCall.run, add_arc_of_parabola_apply, h1, h2, h3, h4]
    refine ⟨wf_of_geo (wf_add_param (wf_add_param hs sa false) ea false) rfl rfl rfl (fun k p hp => Or.inl hp) ?_,
      ⟨[sa, ea], by simp [add_param_apply]⟩, le_refl _, by simp,
      by simp [PrimCall.resultIn, Map.contains, Map.find?_assign_self],
      by simp [add_param_apply]⟩
    intro k
    simp only [keyCount, Map.contains_assign, add_param_apply]
    by_cases e : s.next_geo_id_ = k
    · right; subst e; simp; omega
    · left; simp [e]; omega
  · refine Or.inr ⟨by simpa using hres, ?_⟩
    simp only [PrimCall.refsResolve, PrimCall.pointRefs, PrimCall.paramRefs, List.all_cons,
      List.all_nil, Bool.and_true, Bool.and_eq_true, Map.contains] at hres
    simp only [PrimCall.run, add_arc_of_parabola_apply, allocAll, PrimCall.earlyParams,
      PrimCall.earlyIds, List.foldl]
    cases h1 : Map.find? s.points_ v <;> cases h2 : Map.find? s.points_ f <;> cases h3 : Map.find? s.points_ a <;> cases h4 : Map.find? s.points_ b <;>
      simp_all

theorem keyCount_zero_iff {R : Type} (s : State R) (h : Int) :
    keyCount s h = 0 ↔
      (Map.contains s.points_ h = false ∧ Map.contains s.lines_ h = false
      ∧ Map.contains s.circles_ h = false ∧ Map.contains s.arcs_ h = false
      ∧ Map.contains s.ellipses_ h = false ∧ Map.contains s.arcs_of_ellipse_ h = false
      ∧ Map.contains s.hyperbolas_ h = false ∧ Map.contains s.arcs_of_hyperbola_ h = false
      ∧ Map.contains s.parabolas_ h = false ∧ Map.contains s.arcs_of_parabola_ h = false) := by
  unfold keyCount
  cases Map.contains s.points_ h <;> cases Map.contains s.lines_ h <;>
  cases Map.contains s.circles_ h <;> cases Map.contains s.arcs_ h <;>
  cases Map.contains s.ellipses_ h <;> cases Map.contains s.arcs_of_ellipse_ h <;>
  cases Map.contains s.hyperbolas_ h <;> cases Map.contains s.arcs_of_hyperbola_ h <;>
  cases Map.contains s.parabolas_ h <;> cases Map.contains s.arcs_of_parabola_ h <;> simp

theorem WF.point_lt {R : Type} {s : State R} (hs : WF s) {c : Int} {p : Point}
    (h : Map.find? s.points_ c = some p) : c < s.next_geo_id_ := by
  by_contra hn
  have h0 := (keyCount_zero_iff s c).mp (hs.geo_fresh c (by omega))
  simp [Map.contains, h] at h0

theorem WF.point_deref {R : Type} {s : State R} (hs : WF s) {c : Int} {p : Point}
    (h : Map.find? s.points_ c = some p) :
    ∃ vx vy, s.params_[p.x]? = some vx ∧ s.params_[p.y]? = some vy := by
  obtain ⟨hx, hy⟩ := hs.points_valid c p h
  exact ⟨_, _, List.getElem?_eq_getElem hx, List.getElem?_eq_getElem hy⟩

theorem WF.param_lookup {R : Type} {s : State R} (hs : WF s) {r : Int} {pr : Nat}
    (h : Map.find? s.param_index_ r = some pr) :
    0 ≤ r ∧ r < s.next_param_id_ ∧ pr = r.toNat ∧ pr < s.params_.length := by
  rw [hs.index, Map.find?_idMap] at h
  rw [hs.next_param]
  split_ifs at h with hr
  cases h
  omega

theorem WF.param_found {R : Type} {s : State R} (hs : WF s) {r : Int} (h : Issued s r) :
    Map.find? s.param_index_ r = some r.toNat ∧ r.toNat < s.params_.length := by
  unfold Issued at h
  rw [hs.next_param] at h
  rw [hs.index, Map.find?_idMap, if_pos h]
  exact ⟨rfl, by omega⟩

theorem outcome_add_point {R : Type} (F : FloatOps R) (x y : R) {s : State R} (hs : WF s) :
    Outcome F s (.add_point x y) := by
  refine Or.inl ⟨rfl, s.next_geo_id_, by simp [PrimCall.run, add_point_apply], ?_⟩
  refine ⟨wf_add_point hs x y, ⟨[x, y], by simp [PrimCall.run, add_point_apply]⟩, le_refl _,
    by simp [PrimCall.run, add_point_apply],
    by simp [PrimCall.run, add_point_apply, PrimCall.resultIn, Map.contains,
      Map.find?_assign_self],
    by simp [PrimCall.run, add_point_apply]⟩

theorem outcome_add_line_coords {R : Type} (F : FloatOps R) (x1 y1 x2 y2 : R) {s : State R}
    (hs : WF s) : Outcome F s (.add_line_coords x1 y1 x2 y2) := by
  have hb := wf_add_point (wf_add_point hs x1 y1) x2 y2
  refine Or.inl ⟨rfl, s.next_geo_id_ + 2, by simp [PrimCall.run, add_line_coords_apply], ?_⟩
  simp only [PrimCall.run, add_line_coords_apply]
  refine ⟨wf_of_geo hb rfl rfl rfl (fun k p hp => Or.inl hp) ?_,
    ⟨[x1, y1, x2, y2], by simp [add_point_apply]⟩, by omega, by simp [add_point_apply]; omega,
    by rw [show s.next_geo_id_ + 2 = s.next_geo_id_ + 1 + 1 by omega]
       simp [PrimCall.resultIn, Map.contains, Map.find?_assign_self, add_point_apply],
    by simp [add_point_apply]⟩
  intro k
  simp only [keyCount, Map.contains_assign, add_point_apply]
  by_cases e : s.next_geo_id_ + 1 + 1 = k
  · right; subst e; simp; omega
  · left; simp [e]; omega

theorem outcome_add_arc_from_center {R : Type} (F : FloatOps R) (c : Int) (r sa ea : R)
    {s : State R} (hs : WF s) : Outcome F s (.add_arc_from_center c r sa ea) := by
  cases hc : Map.find? s.points_ c with
  | none =>
    refine Or.inr ⟨by simp [PrimCall.refsResolve, PrimCall.pointRefs, Map.contains, hc], ?_⟩
    simp [PrimCall.run, add_arc_from_center_fail F c r sa ea s hc, allocAll,
      PrimCall.earlyParams, PrimCall.earlyIds, add_param_apply]
  | some p =>
    obtain ⟨cx, cy, hx, hy⟩ := hs.point_deref hc
    have hrun := add_arc_from_center_ok F c r sa ea s p cx cy hc (hs.point_lt hc) hx hy
    have hb := wf_add_point (wf_add_point (wf_add_param (wf_add_param (wf_add_param hs r false)
      sa false) ea false) (F.add cx (F.mul r (F.cos sa))) (F.add cy (F.mul r (F.sin sa))))
      (F.add cx (F.mul r (F.cos ea))) (F.add cy (F.mul r (F.sin ea)))
    refine Or.inl ⟨by simp [PrimCall.refsResolve, PrimCall.pointRefs, PrimCall.paramRefs,
      Map.contains, hc], s.next_geo_id_ + 2, by simp [PrimCall.run, hrun], ?_⟩
    simp only [PrimCall.run, hrun]
    refine ⟨wf_of_geo hb rfl rfl rfl (fun k p hp => Or.inl hp) ?_,
      ⟨[r, sa, ea, F.add cx (F.mul r (F.cos sa)), F.add cy (F.mul r (F.sin sa)),
        F.add cx (F.mul r (F.cos ea)), F.add cy (F.mul r (F.sin ea))],
        by simp [add_point_apply, add_param_apply]⟩,
      by omega, by simp [add_point_apply, add_param_apply]; omega,
      by rw [show s.next_geo_id_ + 2 = s.next_geo_id_ + 1 + 1 by omega]
         simp [PrimCall.resultIn, Map.contains, Map.find?_assign_self, add_point_apply,
           add_param_apply],
      by simp [add_point_apply, add_param_apply]⟩
    intro k
    simp only [keyCount, Map.contains_assign, add_point_apply, add_param_apply]
    by_cases e : s.next_geo_id_ + 1 + 1 = k
    · right; subst e; simp; omega
    · left; simp [e]; omega

theorem wf_put_arc {R : Type} {b : State R} (hb : WF b) (arc : Arc) (t : Int)
    (sys : System R) :
    WF { b with next_geo_id_ := b.next_geo_id_ + 1
                arcs_ := Map.assign b.arcs_ b.next_geo_id_ arc
                next_constraint_tag_ := t
                system_ := sys } := by
  refine wf_of_geo hb rfl rfl rfl (fun k p hp => Or.inl hp) ?_
  intro k
  simp only [keyCount, Map.contains_assign]
  by_cases e : b.next_geo_id_ = k
  · right; subst e; simp; omega
  · left; simp [e]; omega

theorem outcome_add_arc_from_start_end {R : Type} (F : FloatOps R) (a b r : Int)
    {s : State R} (hs : WF s) : Outcome F s (.add_arc_from_start_end a b r) := by
  by_cases hres : PrimCall.refsResolve s (.add_arc_from_start_end a b r) = true
  · have hres' := hres
    simp only [PrimCall.refsResolve, PrimCall.pointRefs, PrimCall.paramRefs, List.all_cons,
      List.all_nil, Bool.and_true, Bool.and_eq_true, Map.contains,
      Option.isSome_iff_exists] at hres'
    obtain ⟨⟨⟨pa, ha⟩, pb, hb⟩, pr, hr⟩ := hres'
    obtain ⟨sx, sy, hsx, hsy⟩ := hs.point_deref ha
    obtain ⟨ex, ey, hex, hey⟩ := hs.point_deref hb
    obtain ⟨_, hrn, _, hpr⟩ := hs.param_lookup hr
    have hrv : s.params_[pr]? = some (s.params_[pr]) := List.getElem?_eq_getElem hpr
    have hrun := add_arc_from_start_end_ok F a b r s pa pb pr sx sy ex ey _ ha hb hr
      (hs.point_lt ha) (hs.point_lt hb) hrn hsx hsy hex hey hrv
    generalize arc_from_start_end_values F sx sy ex ey s.params_[pr] = v at hrun
    have hbase := wf_add_point (wf_add_point (wf_add_param (wf_add_param
      (wf_add_point hs v.1.1 v.1.2) v.2.1 false) v.2.2 false) sx sy) ex ey
    refine Or.inl ⟨hres, s.next_geo_id_ + 3, by simp [PrimCall.run, hrun], ?_⟩
    simp only [PrimCall.run, hrun]
    refine ⟨wf_put_arc hbase _ _ _,
      ⟨[v.1.1, v.1.2, v.2.1, v.2.2, sx, sy, ex, ey],
        by simp [add_point_apply, add_param_apply]⟩,
      by omega, by simp [add_point_apply, add_param_apply]; omega,
      by rw [show s.next_geo_id_ + 3 = s.next_geo_id_ + 1 + 1 + 1 by omega]
         simp [PrimCall.resultIn, Map.contains, Map.find?_assign_self, add_point_apply,
           add_param_apply],
      by simp⟩
  · refine Or.inr ⟨by simpa using hres, ?_⟩
    simp only [PrimCall.refsResolve, PrimCall.pointRefs, PrimCall.paramRefs, List.all_cons,
      List.all_nil, Bool.and_true, Bool.and_eq_true, Map.contains] at hres
    have hfail : Map.find? s.points_ a = none ∨ Map.find? s.points_ b = none
        ∨ Map.find? s.param_index_ r = none := by
      cases h1 : Map.find? s.points_ a <;> cases h2 : Map.find? s.points_ b <;>
        cases h3 : Map.find? s.param_index_ r <;> simp_all
    simp [PrimCall.run, add_arc_from_start_end_fail F a b r s hs.points_valid hfail, allocAll,
      PrimCall.earlyParams, PrimCall.earlyIds]

theorem PrimCall.outcome {R : Type} (F : FloatOps R) (c : PrimCall R) {s : State R}
    (hs : WF s) : Outcome F s c := by
  cases c with
  | add_point x y => exact outcome_add_point F x y hs
  | add_line a b => exact outcome_add_line F a b hs
  | add_line_coords x1 y1 x2 y2 => exact outcome_add_line_coords F x1 y1 x2 y2 hs
  | add_circle c r => exact outcome_add_circle F c r hs
  | add_arc_from_center c r sa ea => exact outcome_add_arc_from_center F c r sa ea hs
  | add_arc_from_start_end a b r => exact outcome_add_arc_from_start_end F a b r hs
  | add_ellipse c f rm => exact outcome_add_ellipse F c f rm hs
  | add_arc_of_ellipse c f rm sa ea a b => exact outcome_add_arc_of_ellipse F c f rm sa ea a b hs
  | add_hyperbola c f rm => exact outcome_add_hyperbola F c f rm hs
  | add_arc_of_hyperbola c f rm sa ea a b =>
    exact outcome_add_arc_of_hyperbola F c f rm sa ea a b hs
  | add_parabola v f => exact outcome_add_parabola F v f hs
  | add_arc_of_parabola v f sa ea a b => exact outcome_add_arc_of_parabola F v f sa ea a b hs

theorem wf_prim {R : Type} (F : FloatOps R) (c : PrimCall R) {s : State R} (hs : WF s) :
    WF (c.run F s).1 := by
  rcases PrimCall.outcome F c hs with ⟨_, h, _, hok⟩ | ⟨_, hrun⟩
  · exact hok.1
  · rw [hrun]
    have hb := wf_allocAll c.earlyParams hs
    refine wf_of_geo hb rfl rfl rfl (fun k p hp => Or.inl hp) ?_
    intro k
    left
    refine ⟨rfl, ?_⟩
    have h0 : 0 ≤ c.earlyIds := by cases c <;> simp [PrimCall.earlyIds]
    have hg : (allocAll s c.earlyParams).next_geo_id_ = s.next_geo_id_ := by
      cases c <;> simp [PrimCall.earlyParams, allocAll, add_param_apply]
    simp only [hg]
    intro h; omega

/-! ## Calls that touch neither the handle maps nor the counters -/

theorem length_applyWrites {R : Type} (ws : List (Addr × R)) (ps : List R) :
    (applyWrites ps ws).length = ps.length := by
  unfold applyWrites
  induction ws generalizing ps with
  | nil => rfl
  | cons w rest ih => simp [List.foldl_cons, ih]

/-- The unknown list computed by `declare_unknowns`. -/
theorem declare_unknowns_apply {R : Type} (s : State R) :
    declare_unknowns s =
      (let params := (s.param_index_.filter (fun e => !is_param_fixed s e.1)).map (fun e => e.2)
       { s with system_ := System.declareUnknowns s.system_ params }, .ok ()) := rfl

theorem solve_apply {R : Type} (E : Engine R) (alg : Algorithm) (s : State R) :
    solve E alg s =
      (let sys1 := System.record (declare_unknowns s).1.system_ (.initSolution alg)
       let r := E.solve sys1 s.params_ alg
       let ps1 := applyWrites s.params_ r.2
       let sys2 := System.record sys1 (.solve true alg)
       if r.1 = .Success ∨ r.1 = .Converged then
         ({ s with params_ := applyWrites ps1 (E.applySolution sys2 ps1)
                   system_ := System.record sys2 .applySolution }, .ok r.1)
       else ({ s with params_ := ps1, system_ := sys2 }, .ok r.1)) := by
  simp only [solve, M.bind_apply, declare_unknowns_apply, init_solution, modifyS_apply,
    getS_apply, apply_solution, M.pure_apply]
  split_ifs with h <;> simp [h]

/-- The calls other than `add_param`, the constructors, the registrations and
`clear` change at most the stored values, the fixed flags and the engine. -/
theorem exec_frame {R : Type} (F : FloatOps R) (E : Engine R) (op : Op R) (s : State R)
    (h1 : op.isAlloc = false) (h2 : op.isClear = false) (h3 : ∀ c, op ≠ .constraint c) :
    ∃ ps sys fx, op.exec F E s = { s with params_ := ps, system_ := sys, param_fixed_ := fx }
      ∧ ps.length = s.params_.length := by
  cases op with
  | add_param v f => simp [Op.isAlloc] at h1
  | prim c => simp [Op.isAlloc] at h1
  | clear => simp [Op.isClear] at h2
  | constraint c => exact absurd rfl (h3 c)
  | set_param id v =>
    simp only [Op.exec, set_param, M.bind_apply, getS_apply, liftE_apply, Map.at]
    cases Map.find? s.param_index_ id with
    | none => exact ⟨s.params_, s.system_, s.param_fixed_, rfl, rfl⟩
    | some idx =>
      by_cases hi : idx < s.params_.length
      · exact ⟨s.params_.set idx v, s.system_, s.param_fixed_, by simp [hi], by simp⟩
      · exact ⟨s.params_, s.system_, s.param_fixed_, by simp [hi], rfl⟩
  | set_param_fixed id b => exact ⟨s.params_, s.system_, _, rfl, rfl⟩
  | declare_unknowns => exact ⟨s.params_, _, s.param_fixed_, rfl, rfl⟩
  | init_solution alg => cases alg <;> exact ⟨s.params_, _, s.param_fixed_, rfl, rfl⟩
  | apply_solution => exact ⟨_, _, s.param_fixed_, rfl, by simp [length_applyWrites]⟩
  | dof => exact ⟨s.params_, _, s.param_fixed_, rfl, rfl⟩
  | diagnose alg => cases alg <;> exact ⟨s.params_, _, s.param_fixed_, rfl, rfl⟩
  | clear_by_tag t =>
    simp only [Op.exec, clear_by_tag, M.bind_apply, getS_apply, liftE_apply]
    cases System.clearByTag s.system_ t with
    | error e => exact ⟨s.params_, s.system_, s.param_fixed_, rfl, rfl⟩
    | ok sys => exact ⟨s.params_, sys, s.param_fixed_, rfl, rfl⟩
  | constraint_error t =>
    simp only [Op.exec, constraint_error, M.bind_apply, getS_apply, liftE_apply]
    cases System.calculateConstraintErrorByTag E s.system_ s.params_ t with
    | error e => exact ⟨s.params_, s.system_, s.param_fixed_, rfl, rfl⟩
    | ok v => exact ⟨s.params_, _, s.param_fixed_, rfl, rfl⟩
  | solve alg =>
    have key : ∀ a, ∃ ps sys fx, (solve E a s).1 =
        { s with params_ := ps, system_ := sys, param_fixed_ := fx }
        ∧ ps.length = s.params_.length := by
      intro a
      rw [solve_apply]
      simp only
      split_ifs
      · exact ⟨_, _, s.param_fixed_, rfl, by simp [length_applyWrites]⟩
      · exact ⟨_, _, s.param_fixed_, rfl, by simp [length_applyWrites]⟩
    cases alg with
    | none => exact key _
    | some a => exact key a

theorem wf_frame {R : Type} {s : State R} (hs : WF s) (ps : List R) (sys : System R)
    (fx : Map Bool) (hl : ps.length = s.params_.length) :
    WF { s with params_ := ps, system_ := sys, param_fixed_ := fx } := by
  obtain ⟨h1, h2, h3, h4, h5⟩ := hs
  refine ⟨by simp [hl, h1], by simp [hl, h2], h3, h4, ?_⟩
  intro k p hp
  simp only [hl]
  exact h5 k p hp

theorem wf_clear {R : Type} (s : State R) : WF (clear s).1 := by
  refine ⟨rfl, rfl, ?_, ?_, ?_⟩
  · intro h _; rfl
  · intro h; exact Nat.zero_le 1
  · intro h p hp; simp [clear, Map.find?] at hp

theorem wf_exec {R : Type} (F : FloatOps R) (E : Engine R) (op : Op R) {s : State R}
    (hs : WF s) : WF (op.exec F E s) := by
  by_cases h1 : op.isAlloc = true
  · cases op with
    | add_param v f => cases f <;> exact wf_add_param hs v _
    | prim c => exact wf_prim F c hs
    | _ => simp [Op.isAlloc] at h1
  · by_cases h2 : op.isClear = true
    · cases op with
      | clear => exact wf_clear s
      | _ => simp [Op.isClear] at h2
    · by_cases h3 : ∃ c, op = .constraint c
      · obtain ⟨c, rfl⟩ := h3
        simp only [Op.exec, CCall.run_eq]
        exact wf_register hs _ _ _
      · obtain ⟨ps, sys, fx, he, hl⟩ := exec_frame F E op s (by simpa using h1)
          (by simpa using h2) (fun c hc => h3 ⟨c, hc⟩)
        rw [he]
        exact wf_frame hs ps sys fx hl

theorem Reachable.wf {R : Type} {F : FloatOps R} {E : Engine R} {s : State R}
    (h : Reachable F E s) : WF s := by
  induction h with
  | init => exact wf_init R
  | step s op _ ih => exact wf_exec F E op ih

/-! ## Reading and writing parameters in a well-formed registry -/

theorem get_param_issued {R : Type} {s : State R} (hs : WF s) {h : Int} (hh : Issued s h) :
    ∃ v, s.params_[h.toNat]? = some v ∧ get_param h s = (s, .ok v) := by
  obtain ⟨hf, hl⟩ := hs.param_found hh
  refine ⟨s.params_[h.toNat], List.getElem?_eq_getElem hl, ?_⟩
  simp [get_param, Map.at, hf, List.getElem?_eq_getElem hl]

theorem param_not_issued {R : Type} {s : State R} (hs : WF s) {h : Int} (hh : ¬ Issued s h) :
    Map.find? s.param_index_ h = none := by
  unfold Issued at hh
  rw [hs.next_param] at hh
  rw [hs.index, Map.find?_idMap, if_neg hh]

theorem get_param_not_issued {R : Type} {s : State R} (hs : WF s) {h : Int}
    (hh : ¬ Issued s h) : get_param h s = (s, .error .notFound) := by
  simp [get_param, Map.at, param_not_issued hs hh]

theorem set_param_issued {R : Type} {s : State R} (hs : WF s) {h : Int} (hh : Issued s h)
    (v : R) : set_param h v s = ({ s with params_ := s.params_.set h.toNat v }, .ok ()) := by
  obtain ⟨hf, hl⟩ := hs.param_found hh
  simp [set_param, Map.at, hf, hl]

theorem set_param_not_issued {R : Type} {s : State R} (hs : WF s) {h : Int}
    (hh : ¬ Issued s h) (v : R) : set_param h v s = (s, .error .notFound) := by
  simp [set_param, Map.at, param_not_issued hs hh]

theorem param_ptr_issued {R : Type} {s : State R} (hs : WF s) {h : Int} (hh : Issued s h) :
    param_ptr h s = (s, .ok h.toNat) := by
  simp [param_ptr, Map.at, (hs.param_found hh).1]

theorem allocAll_spec {R : Type} (vs : List R) (s : State R) :
    ∃ idx fx, allocAll s vs =
        { s with params_ := s.params_ ++ vs
                 next_param_id_ := s.next_param_id_ + vs.length
                 param_index_ := idx
                 param_fixed_ := fx }
      ∧ ∀ h, h < s.next_param_id_ → Map.find? fx h = Map.find? s.param_fixed_ h := by
  induction vs generalizing s with
  | nil => exact ⟨s.param_index_, s.param_fixed_, by simp [allocAll], fun _ _ => rfl⟩
  | cons v rest ih =>
    obtain ⟨idx, fx, he, hfx⟩ := ih (add_param v false s).1
    refine ⟨idx, fx, ?_, ?_⟩
    · have : allocAll s (v :: rest) = allocAll (add_param v false s).1 rest := rfl
      rw [this, he]
      simp [add_param_apply]
      omega
    · intro h hh
      rw [hfx h (by simp [add_param_apply]; omega)]
      simp only [add_param_apply]
      rw [Map.find?_assign_ne]
      omega

/-- An allocating call only appends to the parameter storage. -/
theorem alloc_appends {R : Type} (F : FloatOps R) (E : Engine R) (op : Op R) {s : State R}
    (hs : WF s) (hop : op.isAlloc = true) :
    ∃ extra, (op.exec F E s).params_ = s.params_ ++ extra := by
  cases op with
  | add_param v f => cases f <;> exact ⟨[v], by simp [Op.exec, add_param_apply]⟩
  | prim c =>
    rcases PrimCall.outcome F c hs with ⟨_, h, _, hok⟩ | ⟨_, hrun⟩
    · exact hok.2.1
    · obtain ⟨idx, fx, he, _⟩ := allocAll_spec c.earlyParams s
      exact ⟨c.earlyParams, by simp [Op.exec, hrun, he]⟩
  | _ => simp [Op.isAlloc] at hop

theorem issued_of_append {R : Type} {s s' : State R} (hs : WF s) (hs' : WF s') {h : Int}
    (hh : Issued s h) {extra : List R} (he : s'.params_ = s.params_ ++ extra) :
    Issued s' h := by
  unfold Issued at hh ⊢
  rw [hs'.next_param, he]
  rw [hs.next_param] at hh
  simp only [List.length_append, Nat.cast_add]
  omega

/-! ## Claims -/

/-- C1: parameter storage is stable under growth. In every reachable state, for
every parameter handle `h` issued so far and every further allocating call
(`add_param`, or a primitive constructor calling it internally), the slot that
`param_ptr(h)` designates and the value `get_param(h)` are the same after the
call as before it. -/
theorem C1_param_storage_stable {R : Type} (F : FloatOps R) (E : Engine R) (s : State R)
    (hs : Reachable F E s) (h : Int) (hh : Issued s h) (op : Op R) (hop : op.isAlloc = true) :
    (∃ i, (param_ptr h s).2 = .ok i ∧ (param_ptr h (op.exec F E s)).2 = .ok i)
    ∧ (∃ v, (get_param h s).2 = .ok v ∧ (get_param h (op.exec F E s)).2 = .ok v) := by
  have hw := hs.wf
  have hw' := wf_exec F E op hw
  obtain ⟨extra, he⟩ := alloc_appends F E op hw hop
  have hh' := issued_of_append hw hw' hh he
  refine ⟨⟨h.toNat, by rw [param_ptr_issued hw hh], by rw [param_ptr_issued hw' hh']⟩, ?_⟩
  obtain ⟨v, hv, hg⟩ := get_param_issued hw hh
  obtain ⟨v', hv', hg'⟩ := get_param_issued hw' hh'
  refine ⟨v, by rw [hg], ?_⟩
  rw [hg']
  rw [he, getElem?_append_some hv] at hv'
  cases hv'
  rfl

/-- C1 evaluated: after `add_param(5)`, handle 0 keeps slot 0 and value 5 across
an `add_point(7, 8)`. -/
theorem C1_param_storage_stable_witness :
    (∃ i, (param_ptr 0 (Op.exec sampleOps sampleEngine (.add_param 5 none)
        (State.init Int))).2 = .ok i
      ∧ (param_ptr 0 (Op.exec sampleOps sampleEngine (.prim (.add_point 7 8))
          (Op.exec sampleOps sampleEngine (.add_param 5 none) (State.init Int)))).2 = .ok i)
    ∧ (∃ v, (get_param 0 (Op.exec sampleOps sampleEngine (.add_param 5 none)
        (State.init Int))).2 = .ok v
      ∧ (get_param 0 (Op.exec sampleOps sampleEngine (.prim (.add_point 7 8))
          (Op.exec sampleOps sampleEngine (.add_param 5 none) (State.init Int)))).2 = .ok v) :=
  C1_param_storage_stable sampleOps sampleEngine _
    (Reachable.step _ (.add_param 5 none) Reachable.init) 0 (by decide)
    (.prim (.add_point 7 8)) rfl

/-- C2: round trip. In every reachable state, for every issued parameter handle
`h` and every value `v`, `set_param(h, v)` succeeds, after it `get_param(h)`
returns `v`, and `get_param` of every other handle and every fixed flag are
unchanged. -/
theorem C2_set_get_round_trip {R : Type} (F : FloatOps R) (E : Engine R) (s : State R)
    (hs : Reachable F E s) (h : Int) (hh : Issued s h) (v : R) :
    (set_param h v s).2 = .ok ()
    ∧ (get_param h (set_param h v s).1).2 = .ok v
    ∧ (∀ h', h' ≠ h → (get_param h' (set_param h v s).1).2 = (get_param h' s).2)
    ∧ (∀ h', is_param_fixed (set_param h v s).1 h' = is_param_fixed s h') := by
  have hw := hs.wf
  have hw' : WF (set_param h v s).1 := wf_exec F E (.set_param h v) hw
  have hset := set_param_issued hw hh v
  obtain ⟨hf, hl⟩ := hw.param_found hh
  have hiss : ∀ h', Issued (set_param h v s).1 h' ↔ Issued s h' := by
    intro h'; rw [hset]; exact Iff.rfl
  refine ⟨by rw [hset], ?_, ?_, ?_⟩
  · obtain ⟨x, hx, hg⟩ := get_param_issued hw' ((hiss h).mpr hh)
    rw [hg]
    rw [hset] at hx
    simp only [List.getElem?_set_self hl] at hx
    cases hx
    rfl
  · intro h' hne
    by_cases hh' : Issued s h'
    · obtain ⟨x, hx, hg⟩ := get_param_issued hw' ((hiss h').mpr hh')
      obtain ⟨y, hy, hg0⟩ := get_param_issued hw hh'
      rw [hg, hg0]
      rw [hset] at hx
      have hne' : h.toNat ≠ h'.toNat := by
        unfold Issued at hh hh'
        omega
      simp only [List.getElem?_set_ne hne'] at hx
      rw [hy] at hx
      cases hx
      rfl
    · rw [get_param_not_issued hw hh',
        get_param_not_issued hw' (fun c => hh' ((hiss h').mp c))]
  · intro h'
    rw [hset]
    rfl

/-- C2 evaluated: two parameters, the first is overwritten. -/
theorem C2_set_get_round_trip_witness :
    (set_param 0 9 (execAll sampleOps sampleEngine (State.init Int)
        [.add_param 5 none, .add_param 6 (some true)])).2 = .ok ()
    ∧ (get_param 0 (set_param 0 9 (execAll sampleOps sampleEngine (State.init Int)
        [.add_param 5 none, .add_param 6 (some true)])).1).2 = .ok 9
    ∧ (∀ h', h' ≠ 0 → (get_param h' (set_param 0 9 (execAll sampleOps sampleEngine
        (State.init Int) [.add_param 5 none, .add_param 6 (some true)])).1).2
        = (get_param h' (execAll sampleOps sampleEngine (State.init Int)
            [.add_param 5 none, .add_param 6 (some true)])).2)
    ∧ (∀ h', is_param_fixed (set_param 0 9 (execAll sampleOps sampleEngine (State.init Int)
        [.add_param 5 none, .add_param 6 (some true)])).1 h'
        = is_param_fixed (execAll sampleOps sampleEngine (State.init Int)
            [.add_param 5 none, .add_param 6 (some true)]) h') :=
  C2_set_get_round_trip sampleOps sampleEngine _
    (Reachable.step _ (.add_param 6 (some true))
      (Reachable.step _ (.add_param 5 none) Reachable.init)) 0 (by decide) 9

/-- C3: in every reachable state `get_param(h)` and `set_param(h, v)` fail, and
then with NotFound, exactly when `h` is not a parameter handle issued in the
current generation; on an issued handle both succeed; a failing `set_param`
leaves the whole state unchanged. -/
theorem C3_param_access_not_found {R : Type} (F : FloatOps R) (E : Engine R) (s : State R)
    (hs : Reachable F E s) (h : Int) (v : R) :
    ((get_param h s).2 = .error .notFound ↔ ¬ Issued s h)
    ∧ ((set_param h v s).2 = .error .notFound ↔ ¬ Issued s h)
    ∧ (Issued s h → (∃ x, (get_param h s).2 = .ok x) ∧ (set_param h v s).2 = .ok ())
    ∧ (∀ e, (set_param h v s).2 = .error e → (set_param h v s).1 = s) := by
  have hw := hs.wf
  by_cases hh : Issued s h
  · obtain ⟨x, _, hg⟩ := get_param_issued hw hh
    have hset := set_param_issued hw hh v
    refine ⟨by simp [hg, hh], by simp [hset, hh], fun _ => ⟨⟨x, by rw [hg]⟩, by rw [hset]⟩, ?_⟩
    intro e he
    rw [hset] at he
    cases he
  · have hg := get_param_not_issued hw hh
    have hset := set_param_not_issued hw hh v
    refine ⟨by simp [hg, hh], by simp [hset, hh], fun c => absurd c hh, ?_⟩
    intro e _
    rw [hset]

/-- C3 evaluated: with one parameter issued, handle 0 resolves and handle 1
does not. -/
theorem C3_param_access_not_found_witness :
    (get_param 0 (Op.exec sampleOps sampleEngine (.add_param 5 none) (State.init Int))).2
      = .ok 5
    ∧ (get_param 1 (Op.exec sampleOps sampleEngine (.add_param 5 none) (State.init Int))).2
      = .error .notFound
    ∧ (set_param 1 3 (Op.exec sampleOps sampleEngine (.add_param 5 none) (State.init Int))).2
      = .error .notFound :=
  ⟨rfl,
   ((C3_param_access_not_found sampleOps sampleEngine _
      (Reachable.step _ (.add_param 5 none) Reachable.init) 1 3).1).mpr (by decide),
   ((C3_param_access_not_found sampleOps sampleEngine _
      (Reachable.step _ (.add_param 5 none) Reachable.init) 1 3).2.1).mpr (by decide)⟩

/-- C4: in every reachable state `add_param(v, f)` returns a fresh handle `h`:
before the call `get_param(h)` fails and `h` differs from every handle issued
so far; after the call `h` is issued, `get_param(h)` is `v` and
`is_param_fixed(h)` is `f`, which is false when the flag is omitted. -/
theorem C4_add_param_fresh {R : Type} (F : FloatOps R) (E : Engine R) (s : State R)
    (hs : Reachable F E s) (v : R) (f : Bool) :
    ∃ h, (add_param v f s).2 = .ok h
      ∧ (get_param h s).2 = .error .notFound
      ∧ (∀ h', Issued s h' → h' ≠ h)
      ∧ Issued (add_param v f s).1 h
      ∧ (get_param h (add_param v f s).1).2 = .ok v
      ∧ is_param_fixed (add_param v f s).1 h = f
      ∧ ((add_param v) s).2 = .ok h
      ∧ is_param_fixed ((add_param v) s).1 h = false := by
  have hw := hs.wf
  have hw' := wf_add_param hw v f
  have hni : ¬ Issued s s.next_param_id_ := by unfold Issued; omega
  have hi' : Issued (add_param v f s).1 s.next_param_id_ := by
    have := hw.next_param
    simp only [add_param_apply, Issued]
    omega
  refine ⟨s.next_param_id_, by simp [add_param_apply], ?_, ?_, hi', ?_, ?_, ?_, ?_⟩
  · rw [get_param_not_issued hw hni]
  · intro h' hh' e
    exact hni (e ▸ hh')
  · obtain ⟨x, hx, hg⟩ := get_param_issued hw' hi'
    rw [hg]
    have hn := hw.next_param
    simp only [add_param_apply, hn, Int.toNat_ofNat] at hx
    simp at hx
    rw [hx]
  · simp [add_param_apply, is_param_fixed, Map.find?_assign_self]
  · simp [add_param_apply]
  · simp [add_param_apply, is_param_fixed, Map.find?_assign_self]

/-- C4 evaluated on the state with one parameter. -/
theorem C4_add_param_fresh_witness :
    ∃ h, (add_param (7 : Int) true (Op.exec sampleOps sampleEngine (.add_param 5 none)
        (State.init Int))).2 = .ok h
      ∧ (get_param h (Op.exec sampleOps sampleEngine (.add_param 5 none)
          (State.init Int))).2 = .error .notFound
      ∧ (get_param h (add_param (7 : Int) true (Op.exec sampleOps sampleEngine
          (.add_param 5 none) (State.init Int))).1).2 = .ok 7 := by
  obtain ⟨h, h1, h2, _, _, h5, _⟩ := C4_add_param_fresh sampleOps sampleEngine _
    (Reachable.step _ (.add_param 5 none) Reachable.init) (7 : Int) true
  exact ⟨h, h1, h2, h5⟩

/-! ## Counters never go back within a generation -/

theorem allocAll_geo {R : Type} (vs : List R) (s : State R) :
    (allocAll s vs).next_geo_id_ = s.next_geo_id_
    ∧ (allocAll s vs).next_constraint_tag_ = s.next_constraint_tag_ := by
  obtain ⟨idx, fx, he, _⟩ := allocAll_spec vs s
  rw [he]
  exact ⟨rfl, rfl⟩

theorem PrimCall.earlyIds_nonneg {R : Type} (c : PrimCall R) : 0 ≤ c.earlyIds := by
  cases c <;> simp [PrimCall.earlyIds]

theorem counters_mono {R : Type} (F : FloatOps R) (E : Engine R) (op : Op R) {s : State R}
    (hs : WF s) (hc : op.isClear = false) :
    s.next_geo_id_ ≤ (op.exec F E s).next_geo_id_
    ∧ s.next_constraint_tag_ ≤ (op.exec F E s).next_constraint_tag_ := by
  by_cases h1 : op.isAlloc = true
  · cases op with
    | add_param v f => cases f <;> simp [Op.exec, add_param_apply]
    | prim c =>
      rcases PrimCall.outcome F c hs with ⟨_, h, _, hok⟩ | ⟨_, hrun⟩
      · obtain ⟨_, _, h3, h4, _, h6⟩ := hok
        exact ⟨by simp only [Op.exec]; omega, h6⟩
      · have h0 := c.earlyIds_nonneg
        obtain ⟨hg, ht⟩ := allocAll_geo c.earlyParams s
        simp only [Op.exec, hrun, ht]
        exact ⟨by omega, le_refl _⟩
    | _ => simp [Op.isAlloc] at h1
  · by_cases h3 : ∃ c, op = .constraint c
    · obtain ⟨c, rfl⟩ := h3
      simp only [Op.exec, CCall.run_eq, register_apply]
      split <;> simp
    · obtain ⟨ps, sys, fx, he, _⟩ := exec_frame F E op s (by simpa using h1) hc
        (fun c hc => h3 ⟨c, hc⟩)
      rw [he]
      exact ⟨le_refl _, le_refl _⟩

theorem primHandles_bounds {R : Type} (F : FloatOps R) (E : Engine R) (ops : List (Op R)) :
    ∀ (s : State R), WF s → (∀ op ∈ ops, op.isClear = false) →
      (∀ h ∈ primHandles F E s ops, s.next_geo_id_ ≤ h)
      ∧ (primHandles F E s ops).Pairwise (· < ·) := by
  induction ops with
  | nil => intro s _ _; simp [primHandles]
  | cons op rest ih =>
    intro s hs hops
    have hc : op.isClear = false := hops op (List.mem_cons_self _ _)
    have hrest : ∀ o ∈ rest, o.isClear = false := fun o ho => hops o (List.mem_cons_of_mem _ ho)
    obtain ⟨hlo, hpw⟩ := ih (op.exec F E s) (wf_exec F E op hs) hrest
    have hmono := (counters_mono F E op hs hc).1
    have hother : (∀ h ∈ primHandles F E (op.exec F E s) rest, s.next_geo_id_ ≤ h) :=
      fun h hh => le_trans hmono (hlo h hh)
    cases op with
    | prim c =>
      rcases PrimCall.outcome F c hs with ⟨_, h, hr, hok⟩ | ⟨_, hrun⟩
      · obtain ⟨_, _, h3, h4, _, _⟩ := hok
        simp only [primHandles, hr]
        refine ⟨?_, List.pairwise_cons.mpr ⟨?_, hpw⟩⟩
        · intro x hx
          rcases List.mem_cons.mp hx with e | e
          · rw [e]; exact h3
          · exact hother x e
        · intro x hx
          have := hlo x hx
          simp only [Op.exec] at this
          omega
      · simp only [primHandles, hrun]
        exact ⟨hother, hpw⟩
    | _ => exact ⟨hother, hpw⟩

theorem regTags_bounds {R : Type} (F : FloatOps R) (E : Engine R) (ops : List (Op R)) :
    ∀ (s : State R), WF s → (∀ op ∈ ops, op.isClear = false) →
      (∀ t ∈ regTags F E s ops, s.next_constraint_tag_ ≤ t)
      ∧ (regTags F E s ops).Pairwise (· < ·) := by
  induction ops with
  | nil => intro s _ _; simp [regTags]
  | cons op rest ih =>
    intro s hs hops
    have hc : op.isClear = false := hops op (List.mem_cons_self _ _)
    have hrest : ∀ o ∈ rest, o.isClear = false := fun o ho => hops o (List.mem_cons_of_mem _ ho)
    obtain ⟨hlo, hpw⟩ := ih (op.exec F E s) (wf_exec F E op hs) hrest
    have hmono := (counters_mono F E op hs hc).2
    have hother : (∀ t ∈ regTags F E (op.exec F E s) rest, s.next_constraint_tag_ ≤ t) :=
      fun t ht => le_trans hmono (hlo t ht)
    cases op with
    | constraint c =>
      have hrun := register_apply c.kind c.args (c.drivingArg.getD true) s
      rw [← CCall.run_eq] at hrun
      cases hres : resolveAll s c.args with
      | error e =>
        rw [hres] at hrun
        simp only [regTags, hrun]
        exact ⟨hother, hpw⟩
      | ok eargs =>
        rw [hres] at hrun
        simp only [regTags, hrun]
        refine ⟨?_, List.pairwise_cons.mpr ⟨?_, hpw⟩⟩
        · intro x hx
          rcases List.mem_cons.mp hx with e | e
          · rw [e]
          · exact hother x e
        · intro x hx
          have := hlo x hx
          simp only [Op.exec, hrun] at this
          omega
    | _ => exact ⟨hother, hpw⟩

/-- C5: all primitive kinds share one handle space. Within a generation (a run
of calls without `clear` from a reachable state) the handles returned by the
successful primitive constructor calls are strictly increasing in call order,
hence pairwise distinct; and in every reachable state no handle is a key of
more than one primitive map, so a point handle fails lookup in every other
map. -/
theorem C5_shared_handle_space {R : Type} (F : FloatOps R) (E : Engine R) (s : State R)
    (hs : Reachable F E s) (ops : List (Op R)) (hops : ∀ op ∈ ops, op.isClear = false) :
    (primHandles F E s ops).Pairwise (· < ·)
    ∧ (primHandles F E s ops).Nodup
    ∧ (∀ h, keyCount s h ≤ 1)
    ∧ (∀ h, Map.contains s.points_ h = true →
        Map.at s.lines_ h = .error .notFound ∧ Map.at s.circles_ h = .error .notFound
        ∧ Map.at s.arcs_ h = .error .notFound) := by
  have hw := hs.wf
  have hpw := (primHandles_bounds F E ops s hw hops).2
  refine ⟨hpw, hpw.imp (fun h => ne_of_lt h), hw.geo_disjoint, ?_⟩
  intro h hp
  have hk := hw.geo_disjoint h
  simp only [keyCount, hp, Bool.toNat_true] at hk
  have h1 : Map.contains s.lines_ h = false := by
    cases hc : Map.contains s.lines_ h
    · rfl
    · simp [hc] at hk
      omega
  have h2 : Map.contains s.circles_ h = false := by
    cases hc : Map.contains s.circles_ h
    · rfl
    · simp [hc] at hk
      omega
  have h3 : Map.contains s.arcs_ h = false := by
    cases hc : Map.contains s.arcs_ h
    · rfl
    · simp [hc] at hk
      omega
  simp only [Map.contains] at h1 h2 h3
  cases e1 : Map.find? s.lines_ h <;> cases e2 : Map.find? s.circles_ h <;>
    cases e3 : Map.find? s.arcs_ h <;> simp_all [Map.at]

/-- C5 evaluated: a point, a failed line, a line and an arc. -/
theorem C5_shared_handle_space_witness :
    primHandles sampleOps sampleEngine (State.init Int)
      [.prim (.add_point 0 0), .prim (.add_line 0 9), .prim (.add_line_coords 1 1 2 2),
       .prim (.add_arc_from_center 0 5 0 1)] = [0, 4, 7]
    ∧ (primHandles sampleOps sampleEngine (State.init Int)
      [.prim (.add_point 0 0), .prim (.add_line 0 9), .prim (.add_line_coords 1 1 2 2),
       .prim (.add_arc_from_center 0 5 0 1)]).Pairwise (· < ·) :=
  ⟨by decide, (C5_shared_handle_space sampleOps sampleEngine _ Reachable.init
    [.prim (.add_point 0 0), .prim (.add_line 0 9), .prim (.add_line_coords 1 1 2 2),
     .prim (.add_arc_from_center 0 5 0 1)] (by decide)).1⟩

/-- C6: in every reachable state a primitive constructor fails, and then with
NotFound, exactly when one of the handles it refers to does not resolve (a
point handle missing from the point map or, for `add_arc_from_start_end`, a
radius handle missing from the parameter store); when all resolve it returns
a handle that is then a key of the map of the constructed kind. -/
theorem C6_constructor_not_found {R : Type} (F : FloatOps R) (E : Engine R) (s : State R)
    (hs : Reachable F E s) (c : PrimCall R) :
    ((c.run F s).2 = .error .notFound ↔ c.refsResolve s = false)
    ∧ (∀ e, (c.run F s).2 = .error e → e = .notFound)
    ∧ (c.refsResolve s = true →
        ∃ h, (c.run F s).2 = .ok h ∧ c.resultIn (c.run F s).1 h = true) := by
  rcases PrimCall.outcome F c hs.wf with ⟨hres, h, hr, hok⟩ | ⟨hres, hrun⟩
  · refine ⟨by simp [hr, hres], ?_, fun _ => ⟨h, hr, hok.2.2.2.2.1⟩⟩
    intro e he
    rw [hr] at he
    cases he
  · refine ⟨by simp [hrun, hres], ?_, fun c => by simp [hres] at c⟩
    intro e he
    rw [hrun] at he
    cases he
    rfl

/-- C6 evaluated: with one point registered, a circle on it is constructed and
a line to a missing point is refused. -/
theorem C6_constructor_not_found_witness :
    (∃ h, ((PrimCall.add_circle 0 3).run sampleOps (Op.exec sampleOps sampleEngine
        (.prim (.add_point 1 2)) (State.init Int))).2 = .ok h
      ∧ (PrimCall.add_circle 0 3).resultIn ((PrimCall.add_circle 0 3).run sampleOps
          (Op.exec sampleOps sampleEngine (.prim (.add_point 1 2)) (State.init Int))).1 h
        = true)
    ∧ ((PrimCall.add_line 0 1).run sampleOps (Op.exec sampleOps sampleEngine
        (.prim (.add_point 1 2)) (State.init Int))).2 = .error .notFound :=
  ⟨(C6_constructor_not_found sampleOps sampleEngine _
      (Reachable.step _ (.prim (.add_point 1 2)) Reachable.init) (.add_circle 0 3)).2.2
      (by decide),
   ((C6_constructor_not_found sampleOps sampleEngine _
      (Reachable.step _ (.prim (.add_point 1 2)) Reachable.init) (.add_line 0 1)).1).mpr
      (by decide)⟩

/-- C7 as stated fails: on a fresh solver `add_circle(0, 1.0)` throws NotFound
and yet has appended the radius to the parameter storage and advanced both the
parameter counter and the primitive handle counter. -/
theorem C7_counterexample :
    (add_circle 0 (1 : Int) (State.init Int)).2 = .error .notFound
    ∧ (State.init Int).params_ = []
    ∧ (add_circle 0 (1 : Int) (State.init Int)).1.params_ = [1]
    ∧ (State.init Int).next_param_id_ = 0
    ∧ (add_circle 0 (1 : Int) (State.init Int)).1.next_param_id_ = 1
    ∧ (State.init Int).next_geo_id_ = 0
    ∧ (add_circle 0 (1 : Int) (State.init Int)).1.next_geo_id_ = 1 := by
  refine ⟨rfl, rfl, rfl, rfl, rfl, rfl, rfl⟩

/-- C7, amended: in every reachable state, when a primitive constructor fails
with NotFound no primitive is registered and nothing is forwarded to the
engine: every primitive map, the engine and the tag counter are as before, and
every parameter handle issued before keeps its slot, value and fixed flag. What
the call did before its first lookup stays: the scalar arguments stored with
`add_param` (`earlyParams`) remain appended to the storage with the parameter
counter advanced by their number, and the primitive handle counter is advanced
by `earlyIds`. -/
theorem C7_failed_constructor_effects {R : Type} (F : FloatOps R) (E : Engine R)
    (s : State R) (hs : Reachable F E s) (c : PrimCall R)
    (hfail : (c.run F s).2 = .error .notFound) :
    (c.run F s).1.points_ = s.points_ ∧ (c.run F s).1.point_param_ids_ = s.point_param_ids_
    ∧ (c.run F s).1.lines_ = s.lines_ ∧ (c.run F s).1.circles_ = s.circles_
    ∧ (c.run F s).1.circle_rad_param_ = s.circle_rad_param_
    ∧ (c.run F s).1.arcs_ = s.arcs_ ∧ (c.run F s).1.ellipses_ = s.ellipses_
    ∧ (c.run F s).1.arcs_of_ellipse_ = s.arcs_of_ellipse_
    ∧ (c.run F s).1.hyperbolas_ = s.hyperbolas_
    ∧ (c.run F s).1.arcs_of_hyperbola_ = s.arcs_of_hyperbola_
    ∧ (c.run F s).1.parabolas_ = s.parabolas_
    ∧ (c.run F s).1.arcs_of_parabola_ = s.arcs_of_parabola_
    ∧ (c.run F s).1.system_ = s.system_
    ∧ (c.run F s).1.next_constraint_tag_ = s.next_constraint_tag_
    ∧ (c.run F s).1.params_ = s.params_ ++ c.earlyParams
    ∧ (c.run F s).1.next_param_id_ = s.next_param_id_ + c.earlyParams.length
    ∧ (c.run F s).1.next_geo_id_ = s.next_geo_id_ + c.earlyIds
    ∧ (∀ h, Issued s h →
        (param_ptr h (c.run F s).1).2 = (param_ptr h s).2
        ∧ (get_param h (c.run F s).1).2 = (get_param h s).2
        ∧ is_param_fixed (c.run F s).1 h = is_param_fixed s h) := by
  have hw := hs.wf
  rcases PrimCall.outcome F c hw with ⟨_, h, hr, _⟩ | ⟨_, hrun⟩
  · rw [hr] at hfail
    cases hfail
  · obtain ⟨idx, fx, he, hfx⟩ := allocAll_spec c.earlyParams s
    have hst : (c.run F s).1 =
        { s with params_ := s.params_ ++ c.earlyParams
                 next_param_id_ := s.next_param_id_ + c.earlyParams.length
                 param_index_ := idx
                 param_fixed_ := fx
                 next_geo_id_ := s.next_geo_id_ + c.earlyIds } := by
      rw [hrun, he]
    have hw' : WF (c.run F s).1 := wf_prim F c hw
    refine ⟨by rw [hst], by rw [hst], by rw [hst], by rw [hst], by rw [hst], by rw [hst],
      by rw [hst], by rw [hst], by rw [hst], by rw [hst], by rw [hst], by rw [hst],
      by rw [hst], by rw [hst], by rw [hst], by rw [hst], by rw [hst], ?_⟩
    intro h hh
    have hh' : Issued (c.run F s).1 h :=
      issued_of_append hw hw' hh (show (c.run F s).1.params_ = s.params_ ++ c.earlyParams by
        rw [hst])
    obtain ⟨v, hv, hg⟩ := get_param_issued hw hh
    obtain ⟨v', hv', hg'⟩ := get_param_issued hw' hh'
    refine ⟨by rw [param_ptr_issued hw hh, param_ptr_issued hw' hh'], ?_, ?_⟩
    · rw [hg, hg']
      rw [hst] at hv'
      simp only [getElem?_append_some hv] at hv'
      cases hv'
      rfl
    · rw [hst]
      simp only [is_param_fixed, hfx h hh.2]

/-- C7 amended, evaluated: on a solver holding one point, `add_arc_of_ellipse`
with a missing focus throws and leaves its three scalars in the storage. -/
theorem C7_failed_constructor_effects_witness :
    ((PrimCall.add_arc_of_ellipse 0 4 1 2 3 0 0).run sampleOps (Op.exec sampleOps sampleEngine
        (.prim (.add_point 8 9)) (State.init Int))).1.params_ = [8, 9] ++ [1, 2, 3]
    ∧ ((PrimCall.add_arc_of_ellipse 0 4 1 2 3 0 0).run sampleOps (Op.exec sampleOps
        sampleEngine (.prim (.add_point 8 9)) (State.init Int))).1.next_geo_id_ = 1 + 1 :=
  ⟨(C7_failed_constructor_effects sampleOps sampleEngine _
      (Reachable.step _ (.prim (.add_point 8 9)) Reachable.init)
      (.add_arc_of_ellipse 0 4 1 2 3 0 0) rfl).2.2.2.2.2.2.2.2.2.2.2.2.2.2.1,
   (C7_failed_constructor_effects sampleOps sampleEngine _
      (Reachable.step _ (.prim (.add_point 8 9)) Reachable.init)
      (.add_arc_of_ellipse 0 4 1 2 3 0 0) rfl).2.2.2.2.2.2.2.2.2.2.2.2.2.2.2.2.1⟩

/-- C8 as stated fails: on a solver holding two points, `coincident(0, 7)`
throws NotFound and yet takes tag 1, so the next successful registration
returns 2 where it would have returned 1 had the failing call not been made. -/
theorem C8_counterexample :
    (execAll sampleOps sampleEngine (State.init Int)
      [.prim (.add_point 0 0), .prim (.add_point 1 1)]).next_constraint_tag_ = 1
    ∧ (coincident 0 7 true (execAll sampleOps sampleEngine (State.init Int)
        [.prim (.add_point 0 0), .prim (.add_point 1 1)])).2 = .error .notFound
    ∧ (coincident 0 7 true (execAll sampleOps sampleEngine (State.init Int)
        [.prim (.add_point 0 0), .prim (.add_point 1 1)])).1.next_constraint_tag_ = 2
    ∧ (coincident 0 1 true (execAll sampleOps sampleEngine (State.init Int)
        [.prim (.add_point 0 0), .prim (.add_point 1 1)])).2 = .ok 1
    ∧ (coincident 0 1 true (coincident 0 7 true (execAll sampleOps sampleEngine
        (State.init Int) [.prim (.add_point 0 0), .prim (.add_point 1 1)])).1).2 = .ok 2 := by
  refine ⟨rfl, rfl, rfl, rfl, rfl⟩

/-- C8, amended: in every state, when a constraint registration fails because
a handle does not resolve, no constraint is forwarded to the engine and the
state is as before the call except that the tag counter has advanced by one:
the failed call consumes a tag, and the next successful registration returns
the tag after it. -/
theorem C8_failed_registration_effects {R : Type} (s : State R) (c : CCall R) (e : Err)
    (hfail : (c.run s).2 = .error e) :
    (c.run s).1 = { s with next_constraint_tag_ := s.next_constraint_tag_ + 1 }
    ∧ (c.run s).1.system_ = s.system_
    ∧ (∀ (c' : CCall R) (t : Int), (c'.run (c.run s).1).2 = .ok t →
        t = s.next_constraint_tag_ + 1) := by
  have hrun := register_apply c.kind c.args (c.drivingArg.getD true) s
  rw [← CCall.run_eq] at hrun
  cases hres : resolveAll s c.args with
  | ok eargs =>
    rw [hres] at hrun
    rw [hrun] at hfail
    cases hfail
  | error e' =>
    rw [hres] at hrun
    have hst : (c.run s).1 = { s with next_constraint_tag_ := s.next_constraint_tag_ + 1 } := by
      rw [hrun]
    refine ⟨hst, by rw [hst], ?_⟩
    intro c' t ht
    have hrun' := register_apply c'.kind c'.args (c'.drivingArg.getD true) (c.run s).1
    rw [← CCall.run_eq] at hrun'
    cases hres' : resolveAll (c.run s).1 c'.args with
    | ok eargs =>
      rw [hres'] at hrun'
      rw [hrun'] at ht
      simp only [Except.ok.injEq] at ht
      rw [← ht, hst]
    | error e'' =>
      rw [hres'] at hrun'
      rw [hrun'] at ht
      cases ht

/-- C8 amended, evaluated: a `parallel` on two missing lines of a fresh solver. -/
theorem C8_failed_registration_effects_witness :
    ((CCall.parallel 3 4 none).run (State.init Int)).1.next_constraint_tag_ = 1 + 1
    ∧ ((CCall.parallel 3 4 none).run (State.init Int)).1.system_ = (State.init Int).system_ :=
  ⟨congrArg State.next_constraint_tag_
      (C8_failed_registration_effects (State.init Int) (.parallel 3 4 none) .notFound rfl).1,
   (C8_failed_registration_effects (State.init Int) (.parallel 3 4 none) .notFound rfl).2.1⟩

/-- C9: uniform constraint contract. A constraint registration that returns
tag `t` has resolved all its handles, has forwarded exactly one constraint to
the engine, carrying the resolved primitives and addresses, the caller's
driving flag (true when omitted) and `t`, and has left the rest of the state
alone; `t` is the tag counter before the call, which is 1 on a fresh solver and
after `clear`, and the counter is `t + 1` after it. Within a generation the tags
returned by successive successful registrations are strictly increasing, hence
distinct. -/
theorem C9_registration_contract {R : Type} (F : FloatOps R) (E : Engine R) (s : State R)
    (hs : Reachable F E s) (c : CCall R) (t : Int) (ht : (c.run s).2 = .ok t)
    (ops : List (Op R)) (hops : ∀ op ∈ ops, op.isClear = false) :
    (∃ eargs, resolveAll s c.args = .ok eargs
      ∧ (c.run s).1 = { s with
          next_constraint_tag_ := t + 1
          system_ := { s.system_ with
            constraints := s.system_.constraints ++
              [{ kind := c.kind, args := eargs, tag := t, driving := c.drivingArg.getD true }]
            calls := s.system_.calls ++ [.addConstraint
              { kind := c.kind, args := eargs, tag := t,
                driving := c.drivingArg.getD true }] } })
    ∧ t = s.next_constraint_tag_
    ∧ (State.init R).next_constraint_tag_ = 1
    ∧ (clear s).1.next_constraint_tag_ = 1
    ∧ (regTags F E s ops).Pairwise (· < ·)
    ∧ (regTags F E s ops).Nodup := by
  have hrun := register_apply c.kind c.args (c.drivingArg.getD true) s
  rw [← CCall.run_eq] at hrun
  have hpw := (regTags_bounds F E ops s hs.wf hops).2
  cases hres : resolveAll s c.args with
  | error e =>
    rw [hres] at hrun
    rw [hrun] at ht
    cases ht
  | ok eargs =>
    rw [hres] at hrun
    rw [hrun] at ht
    simp only [Except.ok.injEq] at ht
    subst ht
    exact ⟨⟨eargs, rfl, by rw [hrun]; rfl⟩, rfl, rfl, rfl, hpw, hpw.imp (fun h => ne_of_lt h)⟩

/-- C9 evaluated: two points, a failed and two successful registrations. -/
theorem C9_registration_contract_witness :
    regTags sampleOps sampleEngine
      (execAll sampleOps sampleEngine (State.init Int)
        [.prim (.add_point 0 0), .prim (.add_point 1 1)])
      [.constraint (.coincident 0 1 none), .constraint (.coincident 0 7 none),
       .constraint (.horizontal_points 0 1 (some false))] = [1, 3]
    ∧ ((CCall.coincident 0 1 none).run (execAll sampleOps sampleEngine (State.init Int)
        [.prim (.add_point 0 0), .prim (.add_point 1 1)])).1.system_.constraints
      = [{ kind := .P2PCoincident,
           args := [.point { x := 0, y := 1 }, .point { x := 2, y := 3 }],
           tag := 1, driving := true }]
    ∧ (regTags sampleOps sampleEngine
      (execAll sampleOps sampleEngine (State.init Int)
        [.prim (.add_point 0 0), .prim (.add_point 1 1)])
      [.constraint (.coincident 0 1 none), .constraint (.coincident 0 7 none),
       .constraint (.horizontal_points 0 1 (some false))]).Pairwise (· < ·) :=
  ⟨by decide, rfl,
   (C9_registration_contract sampleOps sampleEngine _
      (Reachable.step _ (.prim (.add_point 1 1))
        (Reachable.step _ (.prim (.add_point 0 0)) Reachable.init))
      (.coincident 0 1 none) 1 rfl
      [.constraint (.coincident 0 1 none), .constraint (.coincident 0 7 none),
       .constraint (.horizontal_points 0 1 (some false))] (by decide)).2.2.2.2.1⟩

/-! ## The declare step -/

theorem declared_eq_range {R : Type} {s : State R} (hs : WF s) :
    (s.param_index_.filter (fun e => !is_param_fixed s e.1)).map (fun e => e.2)
      = (List.range s.params_.length).filter (fun h => !is_param_fixed s (Int.ofNat h)) := by
  rw [hs.index, idMap, List.filter_map, List.map_map]
  have : ((fun e : Int × Nat => e.2) ∘ fun (i : Nat) => (Int.ofNat i, i)) = id := rfl
  rw [this, List.map_id]
  rfl

theorem filterMap_idMap (n : Nat) (l : List Nat) (hl : ∀ h ∈ l, h < n) :
    l.filterMap (fun h => Map.find? (idMap n) (Int.ofNat h)) = l := by
  induction l with
  | nil => rfl
  | cons a rest ih =>
    have ha : a < n := hl a (List.mem_cons_self _ _)
    have hf : Map.find? (idMap n) (Int.ofNat a) = some a := by
      rw [Map.find?_idMap, if_pos (by simp only [Int.ofNat_eq_coe]; omega)]
      simp
    rw [List.filterMap_cons, hf]
    simp only
    rw [ih (fun h hh => hl h (List.mem_cons_of_mem _ hh))]

theorem unknownSlots_eq_range {R : Type} {s : State R} (hs : WF s) :
    unknownSlots s
      = (List.range s.params_.length).filter (fun h => !is_param_fixed s (Int.ofNat h)) := by
  unfold unknownSlots
  have hn : s.next_param_id_.toNat = s.params_.length := by rw [hs.next_param]; simp
  rw [hn, hs.index]
  apply filterMap_idMap
  intro h hh
  exact List.mem_range.mp (List.mem_filter.mp hh).1

theorem declare_unknowns_spec {R : Type} {s : State R} (hs : WF s) :
    declare_unknowns s =
      ({ s with system_ := System.declareUnknowns s.system_ (unknownSlots s) }, .ok ()) := by
  rw [declare_unknowns_apply, unknownSlots_eq_range hs, ← declared_eq_range hs]

/-- C10: the declare step. In every reachable state the unknown list handed to
the engine by `declare_unknowns` is the list of storage slots of the issued
parameters that are not fixed, in ascending handle order and each once; `solve`,
`dof` and `diagnose` each begin by handing the engine that list, computed from
the flags of the state they are called in. -/
theorem C10_declare_unknowns {R : Type} (F : FloatOps R) (E : Engine R) (s : State R)
    (hs : Reachable F E s) :
    (declare_unknowns s).1.system_.unknowns = unknownSlots s
    ∧ (declare_unknowns s).1.system_.calls
        = s.system_.calls ++ [.declareUnknowns (unknownSlots s)]
    ∧ (unknownSlots s).Pairwise (· < ·)
    ∧ (unknownSlots s).Nodup
    ∧ (∀ a, a ∈ unknownSlots s ↔
        ∃ h, Issued s h ∧ is_param_fixed s h = false ∧ (param_ptr h s).2 = .ok a)
    ∧ (∀ alg, ∃ rest, (solve E alg s).1.system_.calls
        = s.system_.calls ++ .declareUnknowns (unknownSlots s) :: rest)
    ∧ (∃ rest, (dof E s).1.system_.calls
        = s.system_.calls ++ .declareUnknowns (unknownSlots s) :: rest)
    ∧ (∀ alg, ∃ rest, (diagnose E alg s).1.system_.calls
        = s.system_.calls ++ .declareUnknowns (unknownSlots s) :: rest) := by
  have hw := hs.wf
  have hd := declare_unknowns_spec hw
  have hsorted : (unknownSlots s).Pairwise (· < ·) := by
    rw [unknownSlots_eq_range hw]
    exact List.Pairwise.sublist (List.filter_sublist _) (List.pairwise_lt_range _)
  refine ⟨by rw [hd]; rfl, by rw [hd]; rfl, hsorted, hsorted.imp (fun h => ne_of_lt h),
    ?_, ?_, ?_, ?_⟩
  · intro a
    rw [unknownSlots_eq_range hw, List.mem_filter, List.mem_range]
    constructor
    · rintro ⟨ha, hf⟩
      have hi : Issued s (Int.ofNat a) := by
        unfold Issued
        rw [hw.next_param]
        simp only [Int.ofNat_eq_coe]
        omega
      refine ⟨Int.ofNat a, hi, by simpa using hf, ?_⟩
      rw [param_ptr_issued hw hi]
      simp
    · rintro ⟨h, hi, hf, hp⟩
      rw [param_ptr_issued hw hi] at hp
      have hp' : h.toNat = a := by simpa using hp
      have hl := (hw.param_found hi).2
      obtain ⟨h0, _⟩ := hi
      have hh : Int.ofNat a = h := by
        simp only [Int.ofNat_eq_coe]
        omega
      refine ⟨by omega, ?_⟩
      rw [hh, hf]
      rfl
  · intro alg
    rw [solve_apply, hd]
    simp only [System.record, System.declareUnknowns]
    split_ifs
    · exact ⟨[.initSolution alg, .solve true alg, .applySolution], by simp⟩
    · exact ⟨[.initSolution alg, .solve true alg], by simp⟩
  · simp only [dof, M.bind_apply, hd, init_solution, modifyS_apply, getS_apply, M.pure_apply,
      System.record, System.declareUnknowns]
    exact ⟨[.initSolution .DogLeg, .diagnose .DogLeg, .dofsNumber], by simp⟩
  · intro alg
    simp only [diagnose, M.bind_apply, hd, init_solution, modifyS_apply, getS_apply,
      M.pure_apply, System.record, System.declareUnknowns]
    exact ⟨[.initSolution alg, .diagnose alg, .dofsNumber, .getConflicting, .getRedundant,
      .getPartiallyRedundant], by simp⟩

/-- C10 evaluated: three parameters, the second fixed; the unknowns are slots 0
and 2. -/
theorem C10_declare_unknowns_witness :
    (declare_unknowns (execAll sampleOps sampleEngine (State.init Int)
      [.add_param 5 none, .add_param 6 (some true), .add_param 7 none])).1.system_.unknowns
      = [0, 2]
    ∧ (declare_unknowns (execAll sampleOps sampleEngine (State.init Int)
      [.add_param 5 none, .add_param 6 (some true), .add_param 7 none])).1.system_.unknowns
      = unknownSlots (execAll sampleOps sampleEngine (State.init Int)
          [.add_param 5 none, .add_param 6 (some true), .add_param 7 none]) :=
  ⟨by decide,
   (C10_declare_unknowns sampleOps sampleEngine _
      (Reachable.step _ (.add_param 7 none) (Reachable.step _ (.add_param 6 (some true))
        (Reachable.step _ (.add_param 5 none) Reachable.init)))).1⟩

/-! ## Solving -/

theorem applyWrites_getElem? {R : Type} (ws : List (Addr × R)) (ps : List R) (i : Nat)
    (h : ∀ w ∈ ws, w.1 ≠ i) : (applyWrites ps ws)[i]? = ps[i]? := by
  unfold applyWrites
  induction ws generalizing ps with
  | nil => rfl
  | cons w rest ih =>
    rw [List.foldl_cons, ih _ (fun x hx => h x (List.mem_cons_of_mem _ hx))]
    exact List.getElem?_set_ne (h w (List.mem_cons_self _ _))

theorem solve_keeps_slot {R : Type} (E : Engine R) (hE : E.WritesOnlyUnknowns)
    (alg : Algorithm) {s : State R} (hs : WF s) (i : Nat) (hi : i ∉ unknownSlots s) :
    (solve E alg s).1.params_[i]? = s.params_[i]? := by
  rw [solve_apply, declare_unknowns_spec hs]
  simp only
  have h1 : ∀ sys : System R, sys.unknowns = unknownSlots s → ∀ ps a,
      ∀ w ∈ (E.solve sys ps a).2, w.1 ≠ i := by
    intro sys hsys ps a w hw e
    exact hi (e ▸ hsys ▸ hE.1 sys ps a w hw)
  have h2 : ∀ sys : System R, sys.unknowns = unknownSlots s → ∀ ps,
      ∀ w ∈ E.applySolution sys ps, w.1 ≠ i := by
    intro sys hsys ps w hw e
    exact hi (e ▸ hsys ▸ hE.2 sys ps w hw)
  split_ifs
  · simp only
    rw [applyWrites_getElem? _ _ _ (h2 _ rfl _), applyWrites_getElem? _ _ _ (h1 _ rfl _ _)]
  · simp only
    rw [applyWrites_getElem? _ _ _ (h1 _ rfl _ _)]

/-- C11: fixed parameters are solver-inert. In every reachable state, for every
parameter handle `h` with `is_param_fixed(h) = true`, the slot of `h` is not in
the unknown list that `solve` declares to the engine; so for an engine that
writes only through its declared unknowns, `get_param(h)` after `solve` is what
it was before, whatever constraints refer to `h`. -/
theorem C11_fixed_params_solver_inert {R : Type} (F : FloatOps R) (E : Engine R)
    (s : State R) (hs : Reachable F E s) (hE : E.WritesOnlyUnknowns) (h : Int)
    (hf : is_param_fixed s h = true) (alg : Algorithm) :
    (∀ a, (param_ptr h s).2 = .ok a → a ∉ unknownSlots s)
    ∧ (∃ rest, (solve E alg s).1.system_.calls
        = s.system_.calls ++ .declareUnknowns (unknownSlots s) :: rest)
    ∧ (get_param h (solve E alg s).1).2 = (get_param h s).2 := by
  have hw := hs.wf
  have hw' : WF (solve E alg s).1 := wf_exec F E (.solve (some alg)) hw
  have hnext : (solve E alg s).1.next_param_id_ = s.next_param_id_ := by
    rw [solve_apply]; simp only; split_ifs <;> rfl
  have hslot : Issued s h → h.toNat ∉ unknownSlots s := by
    intro hi hm
    rw [unknownSlots_eq_range hw, List.mem_filter] at hm
    have e : Int.ofNat h.toNat = h := by
      have := hi.1
      simp only [Int.ofNat_eq_coe]
      omega
    rw [e, hf] at hm
    simp at hm
  refine ⟨?_, ?_, ?_⟩
  · intro a ha
    by_cases hi : Issued s h
    · rw [param_ptr_issued hw hi] at ha
      have e : h.toNat = a := by simpa using ha
      exact e ▸ hslot hi
    · simp [param_ptr, Map.at, param_not_issued hw hi] at ha
  · rw [solve_apply, declare_unknowns_spec hw]
    simp only [System.record, System.declareUnknowns]
    split_ifs
    · exact ⟨[.initSolution alg, .solve true alg, .applySolution], by simp⟩
    · exact ⟨[.initSolution alg, .solve true alg], by simp⟩
  · by_cases hi : Issued s h
    · have hi' : Issued (solve E alg s).1 h := by unfold Issued at hi ⊢; rw [hnext]; exact hi
      obtain ⟨v, hv, hg⟩ := get_param_issued hw hi
      obtain ⟨v', hv', hg'⟩ := get_param_issued hw' hi'
      rw [solve_keeps_slot E hE alg hw _ (hslot hi), hv] at hv'
      cases hv'
      rw [hg, hg']
    · have hi' : ¬ Issued (solve E alg s).1 h := by unfold Issued at hi ⊢; rw [hnext]; exact hi
      rw [get_param_not_issued hw hi, get_param_not_issued hw' hi']

theorem zeroingEngine_writesOnlyUnknowns : zeroingEngine.WritesOnlyUnknowns := by
  constructor
  · intro sys ps alg w hw
    simp only [zeroingEngine, List.mem_map] at hw
    obtain ⟨a, ha, rfl⟩ := hw
    exact ha
  · intro sys ps w hw
    simp only [zeroingEngine, List.mem_map] at hw
    obtain ⟨a, ha, rfl⟩ := hw
    exact ha

/-- C11 evaluated: a free and a fixed parameter under an engine that zeroes
its unknowns; the fixed one keeps its value 6, the free one becomes 0. -/
theorem C11_fixed_params_solver_inert_witness :
    (get_param 1 (solve zeroingEngine .DogLeg (execAll sampleOps zeroingEngine (State.init Int)
      [.add_param 5 none, .add_param 6 (some true)])).1).2 = .ok 6
    ∧ (get_param 0 (solve zeroingEngine .DogLeg (execAll sampleOps zeroingEngine
      (State.init Int) [.add_param 5 none, .add_param 6 (some true)])).1).2 = .ok 0
    ∧ (get_param 1 (solve zeroingEngine .DogLeg (execAll sampleOps zeroingEngine
      (State.init Int) [.add_param 5 none, .add_param 6 (some true)])).1).2
      = (get_param 1 (execAll sampleOps zeroingEngine (State.init Int)
          [.add_param 5 none, .add_param 6 (some true)])).2 :=
  ⟨rfl, rfl,
   (C11_fixed_params_solver_inert sampleOps zeroingEngine _
      (Reachable.step _ (.add_param 6 (some true))
        (Reachable.step _ (.add_param 5 none) Reachable.init))
      zeroingEngine_writesOnlyUnknowns 1 rfl .DogLeg).2.2⟩

/-- C12: `solve(alg)` calls the engine's `declareUnknowns`, `initSolution(alg)`
and `solve(true, alg)` in this order, then `applySolution` exactly when the
status is Success or Converged; it returns the engine's status as it is and
never throws; without an argument `alg` is DogLeg. -/
theorem C12_solve_protocol {R : Type} (E : Engine R) (s : State R) (alg : Algorithm) :
    ∃ status us,
      us = (declare_unknowns s).1.system_.unknowns
      ∧ status = (E.solve
          { constraints := s.system_.constraints, unknowns := us,
            calls := s.system_.calls ++ [.declareUnknowns us, .initSolution alg] }
          s.params_ alg).1
      ∧ (solve E alg s).2 = .ok status
      ∧ (solve E alg s).1.system_.calls
          = s.system_.calls ++ [.declareUnknowns us, .initSolution alg, .solve true alg]
            ++ (if status = .Success ∨ status = .Converged then [.applySolution] else [])
      ∧ (solve E) s = solve E .DogLeg s := by
  refine ⟨_, _, rfl, rfl, ?_, ?_, rfl⟩
  · rw [solve_apply]
    simp only [declare_unknowns_apply, System.record, System.declareUnknowns,
      List.append_assoc, List.singleton_append]
    split_ifs <;> rfl
  · rw [solve_apply]
    simp only [declare_unknowns_apply, System.record, System.declareUnknowns,
      List.append_assoc, List.singleton_append]
    split_ifs <;> simp

/-- C13: reset completeness. After `clear()` the registry (parameter storage,
index and fixed flags, every primitive map and the three counters) is that of a
freshly constructed solver, the engine having been told to clear; so no
parameter or primitive handle resolves, `add_param` and `add_point` return 0
again, and the first tag taken is 1 again, exactly as on a fresh instance. -/
theorem C13_reset_completeness {R : Type} (s : State R) (v x y : R) (f : Bool) :
    (clear s).2 = .ok ()
    ∧ (clear s).1 = { State.init R with system_ := System.clear s.system_ }
    ∧ (clear s).1.system_.constraints = []
    ∧ (clear s).1.next_param_id_ = 0 ∧ (clear s).1.next_geo_id_ = 0
    ∧ (clear s).1.next_constraint_tag_ = 1
    ∧ (∀ h, (get_param h (clear s).1).2 = .error .notFound)
    ∧ (∀ h w, (set_param h w (clear s).1).2 = .error .notFound)
    ∧ (∀ h, is_param_fixed (clear s).1 h = false)
    ∧ (∀ h, keyCount (clear s).1 h = 0)
    ∧ (∀ h, (get_point h (clear s).1).2 = .error .notFound)
    ∧ (∀ h, (get_arc_center h (clear s).1).2 = .error .notFound)
    ∧ (add_param v f (clear s).1).2 = .ok 0
    ∧ (add_param v f (State.init R)).2 = .ok 0
    ∧ (add_point x y (clear s).1).2 = .ok 0
    ∧ (add_point x y (State.init R)).2 = .ok 0
    ∧ (coincident 0 1 true (add_point x y (add_point x y (clear s).1).1).1).2 = .ok 1
    ∧ (coincident 0 1 true (add_point x y (add_point x y (State.init R)).1).1).2 = .ok 1 := by
  refine ⟨rfl, rfl, rfl, rfl, rfl, rfl, fun _ => rfl, fun _ _ => rfl, fun _ => rfl,
    fun _ => rfl, fun _ => rfl, fun _ => rfl, rfl, rfl, rfl, rfl, ?_, ?_⟩
  · simp (disch := omega) [coincident, register_apply, add_point_apply, resolveAll, resolve,
      Map.at, Map.find?_assign_self, Map.find?_assign_ne, Except.map, clear]
  · simp (disch := omega) [coincident, register_apply, add_point_apply, resolveAll, resolve,
      Map.at, Map.find?_assign_self, Map.find?_assign_ne, Except.map, State.init]

/-! ## What later calls keep -/

theorem WF.arc_lt {R : Type} {s : State R} (hs : WF s) {c : Int} {a : Arc}
    (h : Map.find? s.arcs_ c = some a) : c < s.next_geo_id_ := by
  by_contra hn
  have h0 := (keyCount_zero_iff s c).mp (hs.geo_fresh c (by omega))
  simp [Map.contains, h] at h0

theorem keeps_of_eq {R : Type} {s s' : State R} (hp : s'.points_ = s.points_)
    (ha : s'.arcs_ = s.arcs_) : Keeps s s' :=
  ⟨fun _ _ h => hp ▸ h, fun _ _ h => ha ▸ h⟩

theorem newTags_of_eq {R : Type} {s s' : State R} (h : s'.system_ = s.system_) :
    NewTags s s' :=
  fun _ hk => Or.inl (h ▸ hk)

theorem Keeps.trans {R : Type} {s1 s2 s3 : State R} (h12 : Keeps s1 s2) (h23 : Keeps s2 s3) :
    Keeps s1 s3 :=
  ⟨fun h p hp => h23.1 h p (h12.1 h p hp), fun h a ha => h23.2 h a (h12.2 h a ha)⟩

theorem simple_prim_frame {R : Type} (F : FloatOps R) (c : PrimCall R) (s : State R)
    (hc : c.addsPoints = false) :
    (c.run F s).1.points_ = s.points_ ∧ (c.run F s).1.arcs_ = s.arcs_
    ∧ (c.run F s).1.system_ = s.system_ := by
  cases c with
  | add_point _ _ => simp [PrimCall.addsPoints] at hc
  | add_line_coords _ _ _ _ => simp [PrimCall.addsPoints] at hc
  | add_arc_from_center _ _ _ _ => simp [PrimCall.addsPoints] at hc
  | add_arc_from_start_end _ _ _ => simp [PrimCall.addsPoints] at hc
  | add_line a b =>
    simp only [PrimCall.run, add_line_apply]; split <;> exact ⟨rfl, rfl, rfl⟩
  | add_circle c r =>
    simp only [PrimCall.run, add_circle_apply]; split <;> exact ⟨rfl, rfl, rfl⟩
  | add_ellipse c f rm =>
    simp only [PrimCall.run, add_ellipse_apply]; split <;> exact ⟨rfl, rfl, rfl⟩
  | add_hyperbola c f rm =>
    simp only [PrimCall.run, add_hyperbola_apply]; split <;> exact ⟨rfl, rfl, rfl⟩
  | add_parabola v f =>
    simp only [PrimCall.run, add_parabola_apply]; split <;> exact ⟨rfl, rfl, rfl⟩
  | add_arc_of_ellipse c f rm sa ea a b =>
    simp only [PrimCall.run, add_arc_of_ellipse_apply]; split <;> exact ⟨rfl, rfl, rfl⟩
  | add_arc_of_hyperbola c f rm sa ea a b =>
    simp only [PrimCall.run, add_arc_of_hyperbola_apply]; split <;> exact ⟨rfl, rfl, rfl⟩
  | add_arc_of_parabola v f sa ea a b =>
    simp only [PrimCall.run, add_arc_of_parabola_apply]; split <;> exact ⟨rfl, rfl, rfl⟩

theorem keeps_add_point {R : Type} {s : State R} (hs : WF s) (x y : R) :
    Keeps s (add_point x y s).1 ∧ (add_point x y s).1.system_ = s.system_ := by
  refine ⟨⟨?_, ?_⟩, by simp [add_point_apply]⟩
  · intro h p hp
    have := hs.point_lt hp
    simp only [add_point_apply]
    rw [Map.find?_assign_ne _ _ _ _ (by omega)]
    exact hp
  · intro h a ha
    simpa [add_point_apply] using ha

theorem keeps_add_param {R : Type} (s : State R) (v : R) (f : Bool) :
    Keeps s (add_param v f s).1 ∧ (add_param v f s).1.system_ = s.system_ := by
  exact ⟨keeps_of_eq (by simp [add_param_apply]) (by simp [add_param_apply]),
    by simp [add_param_apply]⟩

theorem prim_frame {R : Type} (F : FloatOps R) (c : PrimCall R) {s : State R} (hs : WF s) :
    Keeps s (c.run F s).1 ∧ NewTags s (c.run F s).1 := by
  by_cases hc : c.addsPoints = false
  · obtain ⟨h1, h2, h3⟩ := simple_prim_frame F c s hc
    exact ⟨keeps_of_eq h1 h2, newTags_of_eq h3⟩
  · cases c with
    | add_point x y =>
      obtain ⟨h1, h2⟩ := keeps_add_point hs x y
      exact ⟨h1, newTags_of_eq h2⟩
    | add_line_coords x1 y1 x2 y2 =>
      obtain ⟨h1, h2⟩ := keeps_add_point hs x1 y1
      obtain ⟨h3, h4⟩ := keeps_add_point (wf_add_point hs x1 y1) x2 y2
      simp only [PrimCall.run, add_line_coords_apply]
      exact ⟨(h1.trans h3).trans (keeps_of_eq rfl rfl), newTags_of_eq (h4.trans h2)⟩
    | add_arc_from_center c r sa ea =>
      cases hc' : Map.find? s.points_ c with
      | none =>
        simp only [PrimCall.run, add_arc_from_center_fail F c r sa ea s hc']
        exact ⟨keeps_of_eq (by simp [add_param_apply]) (by simp [add_param_apply]),
          newTags_of_eq (by simp [add_param_apply])⟩
      | some p =>
        obtain ⟨cx, cy, hx, hy⟩ := hs.point_deref hc'
        simp only [PrimCall.run,
          add_arc_from_center_ok F c r sa ea s p cx cy hc' (hs.point_lt hc') hx hy]
        have w3 := wf_add_param (wf_add_param (wf_add_param hs r false) sa false) ea false
        have k3 : Keeps s (add_param ea false (add_param sa false (add_param r false s).1).1).1 :=
          keeps_of_eq (by simp [add_param_apply]) (by simp [add_param_apply])
        obtain ⟨k4, e4⟩ := keeps_add_point w3 (F.add cx (F.mul r (F.cos sa)))
          (F.add cy (F.mul r (F.sin sa)))
        have w4 := wf_add_point w3 (F.add cx (F.mul r (F.cos sa)))
          (F.add cy (F.mul r (F.sin sa)))
        obtain ⟨k5, e5⟩ := keeps_add_point w4 (F.add cx (F.mul r (F.cos ea)))
          (F.add cy (F.mul r (F.sin ea)))
        have w5 := wf_add_point w4 (F.add cx (F.mul r (F.cos ea)))
          (F.add cy (F.mul r (F.sin ea)))
        refine ⟨((k3.trans k4).trans k5).trans ⟨fun _ _ h => h, ?_⟩, newTags_of_eq ?_⟩
        · intro h a ha
          have := w5.arc_lt ha
          simp only
          rw [Map.find?_assign_ne _ _ _ _ (by omega)]
          exact ha
        · simp only
          rw [e5, e4]
          simp [add_param_apply]
    | add_arc_from_start_end a b r =>
      by_cases hres : PrimCall.refsResolve s (.add_arc_from_start_end a b r) = true
      · simp only [PrimCall.refsResolve, PrimCall.pointRefs, PrimCall.paramRefs, List.all_cons,
          List.all_nil, Bool.and_true, Bool.and_eq_true, Map.contains,
          Option.isSome_iff_exists] at hres
        obtain ⟨⟨⟨pa, ha⟩, pb, hb⟩, pr, hr⟩ := hres
        obtain ⟨sx, sy, hsx, hsy⟩ := hs.point_deref ha
        obtain ⟨ex, ey, hex, hey⟩ := hs.point_deref hb
        obtain ⟨_, hrn, _, hpr⟩ := hs.param_lookup hr
        have hrv : s.params_[pr]? = some (s.params_[pr]) := List.getElem?_eq_getElem hpr
        have hrun := add_arc_from_start_end_ok F a b r s pa pb pr sx sy ex ey _ ha hb hr
          (hs.point_lt ha) (hs.point_lt hb) hrn hsx hsy hex hey hrv
        generalize arc_from_start_end_values F sx sy ex ey s.params_[pr] = v at hrun
        simp only [PrimCall.run, hrun]
        obtain ⟨k1, e1⟩ := keeps_add_point hs v.1.1 v.1.2
        have w1 := wf_add_point hs v.1.1 v.1.2
        obtain ⟨k2, e2⟩ := keeps_add_param (add_point v.1.1 v.1.2 s).1 v.2.1 false
        have w2 := wf_add_param w1 v.2.1 false
        obtain ⟨k3, e3⟩ := keeps_add_param (add_param v.2.1 false (add_point v.1.1 v.1.2 s).1).1
          v.2.2 false
        have w3 := wf_add_param w2 v.2.2 false
        obtain ⟨k4, e4⟩ := keeps_add_point w3 sx sy
        have w4 := wf_add_point w3 sx sy
        obtain ⟨k5, e5⟩ := keeps_add_point w4 ex ey
        have w5 := wf_add_point w4 ex ey
        refine ⟨((((k1.trans k2).trans k3).trans k4).trans k5).trans ⟨fun _ _ h => h, ?_⟩, ?_⟩
        · intro h c hc
          have := w5.arc_lt hc
          simp only
          rw [Map.find?_assign_ne _ _ _ _ (by omega)]
          exact hc
        · intro k hk
          simp only [System.addConstraint, List.append_assoc, List.mem_append,
            List.mem_singleton, List.mem_cons, List.not_mem_nil, or_false] at hk
          rcases hk with hk | hk | hk | hk
          · exact Or.inl hk
          · right; subst hk; simp only; omega
          · right; subst hk; simp only; omega
          · right; subst hk; simp only; omega
      · simp only [PrimCall.refsResolve, PrimCall.pointRefs, PrimCall.paramRefs, List.all_cons,
          List.all_nil, Bool.and_true, Bool.and_eq_true, Map.contains] at hres
        have hfail : Map.find? s.points_ a = none ∨ Map.find? s.points_ b = none
            ∨ Map.find? s.param_index_ r = none := by
          cases h1 : Map.find? s.points_ a <;> cases h2 : Map.find? s.points_ b <;>
            cases h3 : Map.find? s.param_index_ r <;> simp_all
        simp only [PrimCall.run, add_arc_from_start_end_fail F a b r s hs.points_valid hfail]
        exact ⟨keeps_of_eq rfl rfl, newTags_of_eq rfl⟩
    | _ => simp [PrimCall.addsPoints] at hc

theorem exec_frame_constraints {R : Type} (F : FloatOps R) (E : Engine R) (op : Op R)
    (s : State R) (h1 : op.isAlloc = false) (h2 : op.isClear = false)
    (h3 : ∀ c, op ≠ .constraint c) :
    ∀ k ∈ (op.exec F E s).system_.constraints, k ∈ s.system_.constraints := by
  cases op with
  | add_param v f => simp [Op.isAlloc] at h1
  | prim c => simp [Op.isAlloc] at h1
  | clear => simp [Op.isClear] at h2
  | constraint c => exact absurd rfl (h3 c)
  | set_param id v =>
    obtain ⟨ps, sys, fx, he, _⟩ := exec_frame F E (.set_param id v) s h1 h2 h3
    simp only [Op.exec, set_param, M.bind_apply, getS_apply, liftE_apply, Map.at]
    cases Map.find? s.param_index_ id with
    | none => exact fun k hk => hk
    | some idx =>
      by_cases hi : idx < s.params_.length
      · simp only [hi, if_true]; exact fun k hk => hk
      · simp only [hi, if_false]; exact fun k hk => hk
  | set_param_fixed id b => exact fun k hk => hk
  | declare_unknowns => exact fun k hk => hk
  | init_solution alg => cases alg <;> exact fun k hk => hk
  | apply_solution => exact fun k hk => hk
  | dof => exact fun k hk => hk
  | diagnose alg => cases alg <;> exact fun k hk => hk
  | clear_by_tag t =>
    simp only [Op.exec, clear_by_tag, M.bind_apply, getS_apply, liftE_apply, System.clearByTag]
    split_ifs
    · intro k hk
      exact (List.mem_filter.mp hk).1
    · exact fun k hk => hk
  | constraint_error t =>
    simp only [Op.exec, constraint_error, M.bind_apply, getS_apply, liftE_apply,
      System.calculateConstraintErrorByTag]
    split_ifs
    · exact fun k hk => hk
    · exact fun k hk => hk
  | solve alg =>
    have key : ∀ a, ∀ k ∈ (solve E a s).1.system_.constraints, k ∈ s.system_.constraints := by
      intro a
      rw [solve_apply]
      simp only
      split_ifs
      · exact fun k hk => hk
      · exact fun k hk => hk
    cases alg with
    | none => exact key _
    | some a => exact key a

theorem exec_keeps {R : Type} (F : FloatOps R) (E : Engine R) (op : Op R) {s : State R}
    (hs : WF s) (hc : op.isClear = false) :
    Keeps s (op.exec F E s) ∧ NewTags s (op.exec F E s) := by
  by_cases h1 : op.isAlloc = true
  · cases op with
    | add_param v f =>
      cases f <;> exact ⟨(keeps_add_param s v _).1, newTags_of_eq (keeps_add_param s v _).2⟩
    | prim c => exact prim_frame F c hs
    | _ => simp [Op.isAlloc] at h1
  · by_cases h3 : ∃ c, op = .constraint c
    · obtain ⟨c, rfl⟩ := h3
      simp only [Op.exec, CCall.run_eq, register_apply]
      split
      · refine ⟨keeps_of_eq rfl rfl, ?_⟩
        intro k hk
        simp only [System.addConstraint, List.mem_append, List.mem_singleton] at hk
        rcases hk with hk | hk
        · exact Or.inl hk
        · right; subst hk; simp only; omega
      · exact ⟨keeps_of_eq rfl rfl, newTags_of_eq rfl⟩
    · have hcs := exec_frame_constraints F E op s (by simpa using h1) hc
        (fun c hc => h3 ⟨c, hc⟩)
      obtain ⟨ps, sys, fx, he, _⟩ := exec_frame F E op s (by simpa using h1) hc
        (fun c hc => h3 ⟨c, hc⟩)
      refine ⟨?_, fun k hk => Or.inl (hcs k hk)⟩
      rw [he]
      exact keeps_of_eq rfl rfl

theorem tagsIssued_exec {R : Type} (F : FloatOps R) (E : Engine R) (op : Op R) {s : State R}
    (hs : WF s) (ht : TagsIssued s) : TagsIssued (op.exec F E s) := by
  by_cases hc : op.isClear = true
  · cases op with
    | clear => exact ⟨le_refl _, fun k hk => by simp [Op.exec, clear, System.clear] at hk⟩
    | _ => simp [Op.isClear] at hc
  · have hc' : op.isClear = false := by simpa using hc
    have hm := (counters_mono F E op hs hc').2
    have hn := (exec_keeps F E op hs hc').2
    refine ⟨le_trans ht.1 hm, ?_⟩
    intro k hk
    rcases hn k hk with h | ⟨h1, h2⟩
    · have := ht.2 k h
      omega
    · have := ht.1
      omega

theorem Reachable.tagsIssued {R : Type} {F : FloatOps R} {E : Engine R} {s : State R}
    (h : Reachable F E s) : TagsIssued s := by
  induction h with
  | init => exact ⟨le_refl _, fun k hk => by simp [State.init] at hk⟩
  | step s op hr ih => exact tagsIssued_exec F E op hr.wf ih

theorem wf_execAll {R : Type} (F : FloatOps R) (E : Engine R) (ops : List (Op R)) :
    ∀ {s : State R}, WF s → WF (execAll F E s ops) := by
  induction ops with
  | nil => intro s hs; exact hs
  | cons op rest ih => intro s hs; exact ih (wf_exec F E op hs)

theorem keeps_execAll {R : Type} (F : FloatOps R) (E : Engine R) (ops : List (Op R)) :
    ∀ {s : State R}, WF s → (∀ op ∈ ops, op.isClear = false) → Keeps s (execAll F E s ops) := by
  induction ops with
  | nil => intro s _ _; exact keeps_of_eq rfl rfl
  | cons op rest ih =>
    intro s hs hops
    have h1 := (exec_keeps F E op hs (hops op (List.mem_cons_self _ _))).1
    exact h1.trans (ih (wf_exec F E op hs) (fun o ho => hops o (List.mem_cons_of_mem _ ho)))

theorem Reachable.execAll {R : Type} {F : FloatOps R} {E : Engine R} (ops : List (Op R)) :
    ∀ {s : State R}, Reachable F E s → Reachable F E (PlaneGCS.execAll F E s ops) := by
  induction ops with
  | nil => intro s hs; exact hs
  | cons op rest ih => intro s hs; exact ih (Reachable.step s op hs)

/-! ## The arc constructors in a well-formed registry -/

theorem arc_from_start_end_result {R : Type} (F : FloatOps R) (a b r id : Int) {s : State R}
    (hs : WF s) (hrun : (add_arc_from_start_end F a b r s).2 = .ok id) :
    ∃ pa pb pr sx sy ex ey rv,
      Map.find? s.points_ a = some pa ∧ Map.find? s.points_ b = some pb
      ∧ Map.find? s.param_index_ r = some pr
      ∧ s.params_[pa.x]? = some sx ∧ s.params_[pa.y]? = some sy
      ∧ s.params_[pb.x]? = some ex ∧ s.params_[pb.y]? = some ey
      ∧ s.params_[pr]? = some rv
      ∧ id = s.next_geo_id_ + 3
      ∧ (add_arc_from_start_end F a b r s).1.params_ = s.params_ ++
          [(arc_from_start_end_values F sx sy ex ey rv).1.1,
           (arc_from_start_end_values F sx sy ex ey rv).1.2,
           (arc_from_start_end_values F sx sy ex ey rv).2.1,
           (arc_from_start_end_values F sx sy ex ey rv).2.2, sx, sy, ex, ey]
      ∧ Map.find? (add_arc_from_start_end F a b r s).1.arcs_ id = some
          { center := { x := s.params_.length, y := s.params_.length + 1 }, rad := pr,
            startAngle := s.params_.length + 2, endAngle := s.params_.length + 3,
            start := { x := s.params_.length + 4, y := s.params_.length + 5 },
            «end» := { x := s.params_.length + 6, y := s.params_.length + 7 } }
      ∧ (add_arc_from_start_end F a b r s).1.system_ =
          System.addConstraint (System.addConstraint (System.addConstraint s.system_
            { kind := .ArcRules,
              args := [.arc
                { center := { x := s.params_.length, y := s.params_.length + 1 }, rad := pr,
                  startAngle := s.params_.length + 2, endAngle := s.params_.length + 3,
                  start := { x := s.params_.length + 4, y := s.params_.length + 5 },
                  «end» := { x := s.params_.length + 6, y := s.params_.length + 7 } }],
              tag := s.next_constraint_tag_, driving := true })
            { kind := .P2PCoincident,
              args := [.point { x := s.params_.length + 4, y := s.params_.length + 5 },
                .point pa],
              tag := s.next_constraint_tag_ + 1, driving := true })
            { kind := .P2PCoincident,
              args := [.point { x := s.params_.length + 6, y := s.params_.length + 7 },
                .point pb],
              tag := s.next_constraint_tag_ + 2, driving := true }
      ∧ (add_arc_from_start_end F a b r s).1.next_constraint_tag_
          = s.next_constraint_tag_ + 3 := by
  have hres : PrimCall.refsResolve s (.add_arc_from_start_end a b r) = true := by
    rcases PrimCall.outcome F (.add_arc_from_start_end a b r) hs with ⟨h, _⟩ | ⟨_, h⟩
    · exact h
    · simp only [PrimCall.run] at h
      rw [h] at hrun
      cases hrun
  simp only [PrimCall.refsResolve, PrimCall.pointRefs, PrimCall.paramRefs, List.all_cons,
    List.all_nil, Bool.and_true, Bool.and_eq_true, Map.contains,
    Option.isSome_iff_exists] at hres
  obtain ⟨⟨⟨pa, ha⟩, pb, hb⟩, pr, hr⟩ := hres
  obtain ⟨sx, sy, hsx, hsy⟩ := hs.point_deref ha
  obtain ⟨ex, ey, hex, hey⟩ := hs.point_deref hb
  obtain ⟨_, hrn, _, hpr⟩ := hs.param_lookup hr
  have hrv : s.params_[pr]? = some (s.params_[pr]) := List.getElem?_eq_getElem hpr
  have hok := add_arc_from_start_end_ok F a b r s pa pb pr sx sy ex ey _ ha hb hr
    (hs.point_lt ha) (hs.point_lt hb) hrn hsx hsy hex hey hrv
  refine ⟨pa, pb, pr, sx, sy, ex, ey, _, ha, hb, hr, hsx, hsy, hex, hey, hrv, ?_⟩
  generalize arc_from_start_end_values F sx sy ex ey s.params_[pr] = v at hok ⊢
  rw [hok] at hrun ⊢
  simp only [Except.ok.injEq] at hrun
  subst hrun
  refine ⟨rfl, ?_, ?_, rfl, rfl⟩
  · simp [add_point_apply, add_param_apply]
  · simp only [add_point_apply, add_param_apply]
    rw [show s.next_geo_id_ + 3 = s.next_geo_id_ + 1 + 1 + 1 by omega]
    exact Map.find?_assign_self _ _ _

theorem param_counter_mono {R : Type} (F : FloatOps R) (E : Engine R) (op : Op R)
    {s : State R} (hs : WF s) (hc : op.isClear = false) :
    s.next_param_id_ ≤ (op.exec F E s).next_param_id_ := by
  by_cases h1 : op.isAlloc = true
  · obtain ⟨extra, he⟩ := alloc_appends F E op hs h1
    rw [hs.next_param, (wf_exec F E op hs).next_param, he]
    simp
  · by_cases h3 : ∃ c, op = .constraint c
    · obtain ⟨c, rfl⟩ := h3
      simp only [Op.exec, CCall.run_eq, register_apply]
      split <;> simp
    · obtain ⟨ps, sys, fx, he, _⟩ := exec_frame F E op s (by simpa using h1) hc
        (fun c hc => h3 ⟨c, hc⟩)
      rw [he]

theorem issued_execAll {R : Type} (F : FloatOps R) (E : Engine R) (ops : List (Op R)) :
    ∀ {s : State R}, WF s → (∀ op ∈ ops, op.isClear = false) → ∀ h, Issued s h →
      Issued (execAll F E s ops) h := by
  induction ops with
  | nil => intro s _ _ h hh; exact hh
  | cons op rest ih =>
    intro s hs hops h hh
    have hm := param_counter_mono F E op hs (hops op (List.mem_cons_self _ _))
    exact ih (wf_exec F E op hs) (fun o ho => hops o (List.mem_cons_of_mem _ ho)) h
      ⟨hh.1, lt_of_lt_of_le hh.2 hm⟩

/-- C16: the radius handle given to `add_arc_from_start_end` is shared, not
copied. A successful call appends eight parameters (centre, two angles, start
and end point), none for the radius; the arc's radius address is the slot of
`radius_id`, whose value the call leaves as it was; and `get_arc_radius(a)`
equals `get_param(radius_id)` right after the call and in every later state of
the generation, in particular after a later `set_param(radius_id, v)`. -/
theorem C16_radius_shared {R : Type} (F : FloatOps R) (E : Engine R) (s : State R)
    (hs : Reachable F E s) (a b r id : Int)
    (hrun : (add_arc_from_start_end F a b r s).2 = .ok id) (v : R)
    (ops : List (Op R)) (hops : ∀ op ∈ ops, op.isClear = false) :
    (add_arc_from_start_end F a b r s).1.params_.length = s.params_.length + 8
    ∧ (∃ arc slot, Map.find? (add_arc_from_start_end F a b r s).1.arcs_ id = some arc
        ∧ (param_ptr r s).2 = .ok slot ∧ arc.rad = slot
        ∧ (param_ptr r (add_arc_from_start_end F a b r s).1).2 = .ok slot)
    ∧ (∃ x, (get_param r s).2 = .ok x
        ∧ (get_param r (add_arc_from_start_end F a b r s).1).2 = .ok x
        ∧ (get_arc_radius id (add_arc_from_start_end F a b r s).1).2 = .ok x)
    ∧ (get_arc_radius id (set_param r v (add_arc_from_start_end F a b r s).1).1).2 = .ok v
    ∧ (get_param r (set_param r v (add_arc_from_start_end F a b r s).1).1).2 = .ok v
    ∧ (∃ x, (get_param r (execAll F E (add_arc_from_start_end F a b r s).1 ops)).2 = .ok x
        ∧ (get_arc_radius id (execAll F E (add_arc_from_start_end F a b r s).1 ops)).2
          = .ok x) := by
  have hw := hs.wf
  have hw' : WF (add_arc_from_start_end F a b r s).1 :=
    wf_prim F (.add_arc_from_start_end a b r) hw
  obtain ⟨pa, pb, pr, sx, sy, ex, ey, rv, ha, hb, hr, hsx, hsy, hex, hey, hrv, hid, hpar,
    harc, hsys, htag⟩ := arc_from_start_end_result F a b r id hw hrun
  obtain ⟨h0, hrn, hpr, hlt⟩ := hw.param_lookup hr
  have hi : Issued s r := ⟨h0, hrn⟩
  have hi' : Issued (add_arc_from_start_end F a b r s).1 r := issued_of_append hw hw' hi hpar
  -- reading the radius through the arc in any well-formed state that keeps the arc
  have key : ∀ st : State R, WF st → Issued st r →
      Map.find? st.arcs_ id = some
        { center := { x := s.params_.length, y := s.params_.length + 1 }, rad := pr,
          startAngle := s.params_.length + 2, endAngle := s.params_.length + 3,
          start := { x := s.params_.length + 4, y := s.params_.length + 5 },
          «end» := { x := s.params_.length + 6, y := s.params_.length + 7 } } →
      ∃ x, st.params_[r.toNat]? = some x ∧ (get_param r st).2 = .ok x
        ∧ (get_arc_radius id st).2 = .ok x := by
    intro st hst his hfind
    obtain ⟨x, hx, hg⟩ := get_param_issued hst his
    refine ⟨x, hx, by rw [hg], ?_⟩
    simp [get_arc_radius, Map.at, hfind, hpr, hx]
  obtain ⟨x0, hx0, hg0⟩ := get_param_issued hw hi
  obtain ⟨x1, hx1, hg1, hr1⟩ := key _ hw' hi' harc
  have hx01 : x1 = x0 := by
    rw [hpar, getElem?_append_some hx0] at hx1
    cases hx1
    rfl
  subst hx01
  have hafter : (get_arc_radius id (set_param r v
        (add_arc_from_start_end F a b r s).1).1).2 = .ok v
      ∧ (get_param r (set_param r v (add_arc_from_start_end F a b r s).1).1).2 = .ok v := by
    have hset := set_param_issued hw' hi' v
    have hws : WF (set_param r v (add_arc_from_start_end F a b r s).1).1 :=
      wf_exec F E (.set_param r v) hw'
    obtain ⟨x, hx, hg2, hr2⟩ := key _ hws (by rw [hset]; exact hi')
      (by rw [hset]; exact harc)
    rw [hset] at hx
    simp only [List.getElem?_set_self (hw'.param_found hi').2] at hx
    cases hx
    exact ⟨hr2, hg2⟩
  refine ⟨by rw [hpar]; simp, ⟨_, pr, harc, by simp [param_ptr, Map.at, hr], rfl, ?_⟩,
    ⟨x1, by rw [hg0], hg1, hr1⟩, hafter.1, hafter.2, ?_⟩
  · rw [param_ptr_issued hw' hi', hpr]
  · have hk := keeps_execAll F E ops hw' hops
    obtain ⟨x, _, hg, hr2⟩ := key _ (wf_execAll F E ops hw')
      (issued_execAll F E ops hw' hops r hi') (hk.2 id _ harc)
    exact ⟨x, hg, hr2⟩

/-- C16 evaluated: a point, a radius parameter 5, the arc from the point to
itself; the arc's radius reads 5, and 9 after `set_param`. -/
theorem C16_radius_shared_witness :
    (get_arc_radius 4 (add_arc_from_start_end sampleOps 0 0 2 (execAll sampleOps sampleEngine
      (State.init Int) [.prim (.add_point 1 2), .add_param 5 (some true)])).1).2 = .ok 5
    ∧ (get_arc_radius 4 (set_param 2 9 (add_arc_from_start_end sampleOps 0 0 2
      (execAll sampleOps sampleEngine (State.init Int)
        [.prim (.add_point 1 2), .add_param 5 (some true)])).1).1).2 = .ok 9 :=
  ⟨rfl,
   (C16_radius_shared sampleOps sampleEngine
      (execAll sampleOps sampleEngine (State.init Int)
        [.prim (.add_point 1 2), .add_param 5 (some true)])
      (Reachable.execAll _ Reachable.init)
      0 0 2 4 rfl 9 [] (by decide)).2.2.2.1⟩

/-- C17: a successful `add_arc_from_start_end(S, E, radius_id)` forwards exactly
three constraints to the engine, all driving, in this order and with the
consecutive tags `t`, `t + 1`, `t + 2`, where `t` is the tag counter before the
call: arc rules on the new arc, coincidence of the arc's own start point with
`S`, coincidence of its own end point with `E`. The tag counter ends at `t + 3`
and the call returns the arc handle only. -/
theorem C17_arc_constraints {R : Type} (F : FloatOps R) (E : Engine R) (s : State R)
    (hs : Reachable F E s) (a b r id : Int)
    (hrun : (add_arc_from_start_end F a b r s).2 = .ok id) :
    ∃ arc pS pE,
      Map.find? (add_arc_from_start_end F a b r s).1.arcs_ id = some arc
      ∧ Map.find? s.points_ a = some pS ∧ Map.find? s.points_ b = some pE
      ∧ (add_arc_from_start_end F a b r s).1.system_.constraints
          = s.system_.constraints ++
            [⟨.ArcRules, [.arc arc], s.next_constraint_tag_, true⟩,
             ⟨.P2PCoincident, [.point arc.start, .point pS], s.next_constraint_tag_ + 1, true⟩,
             ⟨.P2PCoincident, [.point arc.«end», .point pE], s.next_constraint_tag_ + 2, true⟩]
      ∧ (add_arc_from_start_end F a b r s).1.system_.calls
          = s.system_.calls ++
            [.addConstraint ⟨.ArcRules, [.arc arc], s.next_constraint_tag_, true⟩,
             .addConstraint ⟨.P2PCoincident, [.point arc.start, .point pS], s.next_constraint_tag_ + 1, true⟩,
             .addConstraint ⟨.P2PCoincident, [.point arc.«end», .point pE], s.next_constraint_tag_ + 2, true⟩]
      ∧ (add_arc_from_start_end F a b r s).1.next_constraint_tag_
          = s.next_constraint_tag_ + 3 := by
  obtain ⟨pa, pb, pr, sx, sy, ex, ey, rv, ha, hb, hr, hsx, hsy, hex, hey, hrv, hid, hpar,
    harc, hsys, htag⟩ := arc_from_start_end_result F a b r id hs.wf hrun
  refine ⟨_, pa, pb, harc, ha, hb, ?_, ?_, htag⟩
  · rw [hsys]
    simp [System.addConstraint]
  · rw [hsys]
    simp [System.addConstraint]

/-- C17 evaluated: the three constraints forwarded for an arc between points 0
and 1 with radius parameter 4, on a solver that has issued no tag yet. -/
theorem C17_arc_constraints_witness :
    ∃ arc pS pE,
      Map.find? (add_arc_from_start_end sampleOps 0 1 4 (execAll sampleOps sampleEngine
        (State.init Int) [.prim (.add_point 0 0), .prim (.add_point 10 0),
          .add_param 10 (some true)])).1.arcs_ 5 = some arc
      ∧ Map.find? (execAll sampleOps sampleEngine
        (State.init Int) [.prim (.add_point 0 0), .prim (.add_point 10 0),
          .add_param 10 (some true)]).points_ 0 = some pS
      ∧ Map.find? (execAll sampleOps sampleEngine
        (State.init Int) [.prim (.add_point 0 0), .prim (.add_point 10 0),
          .add_param 10 (some true)]).points_ 1 = some pE
      ∧ (add_arc_from_start_end sampleOps 0 1 4 (execAll sampleOps sampleEngine
        (State.init Int) [.prim (.add_point 0 0), .prim (.add_point 10 0),
          .add_param 10 (some true)])).1.system_.constraints
          = [⟨.ArcRules, [.arc arc], 1, true⟩,
             ⟨.P2PCoincident, [.point arc.start, .point pS], 2, true⟩,
             ⟨.P2PCoincident, [.point arc.«end», .point pE], 3, true⟩] := by
  obtain ⟨arc, pS, pE, h1, h2, h3, h4, _, _⟩ := C17_arc_constraints sampleOps sampleEngine
    (execAll sampleOps sampleEngine (State.init Int)
      [.prim (.add_point 0 0), .prim (.add_point 10 0), .add_param 10 (some true)])
    (Reachable.execAll _ Reachable.init) 0 1 4 5 rfl
  exact ⟨arc, pS, pE, h1, h2, h3, h4⟩

/-- C18 as stated fails: with `S` and `E` the same point handle the call does
not fail; it returns a new arc handle, having appended eight parameters and
forwarded three constraints. -/
theorem C18_counterexample :
    (add_arc_from_start_end sampleOps 0 0 2 (execAll sampleOps sampleEngine
      (State.init Int) [.prim (.add_point 1 2), .add_param 5 (some true)])).2 = .ok 4
    ∧ (execAll sampleOps sampleEngine
      (State.init Int) [.prim (.add_point 1 2), .add_param 5 (some true)]).params_.length = 3
    ∧ (add_arc_from_start_end sampleOps 0 0 2 (execAll sampleOps sampleEngine
      (State.init Int) [.prim (.add_point 1 2), .add_param 5 (some true)])).1.params_.length
        = 11
    ∧ (add_arc_from_start_end sampleOps 0 0 2 (execAll sampleOps sampleEngine
      (State.init Int) [.prim (.add_point 1 2), .add_param 5
        (some true)])).1.system_.constraints.length = 3
    ∧ Map.contains (add_arc_from_start_end sampleOps 0 0 2 (execAll sampleOps sampleEngine
      (State.init Int) [.prim (.add_point 1 2), .add_param 5 (some true)])).1.arcs_ 4
        = true := by
  refine ⟨rfl, rfl, rfl, rfl, rfl⟩

/-- C18, amended: `add_arc_from_start_end` makes no feasibility check. In every
reachable state, whenever `S`, `E` and `radius_id` resolve, equal coordinates
and `S = E` included, the call returns a new arc handle, having appended eight
parameters, registered the arc and forwarded three constraints; it can fail
with NotFound only. -/
theorem C18_degenerate_chord_accepted {R : Type} (F : FloatOps R) (E : Engine R)
    (s : State R) (hs : Reachable F E s) (a b r : Int)
    (hres : PrimCall.refsResolve s (.add_arc_from_start_end a b r) = true) :
    (∃ id, (add_arc_from_start_end F a b r s).2 = .ok id
      ∧ Map.contains (add_arc_from_start_end F a b r s).1.arcs_ id = true
      ∧ (add_arc_from_start_end F a b r s).1.params_.length = s.params_.length + 8
      ∧ (add_arc_from_start_end F a b r s).1.system_.constraints.length
          = s.system_.constraints.length + 3)
    ∧ (∀ (a' b' r' : Int) (e : Err),
        (add_arc_from_start_end F a' b' r' s).2 = .error e → e = .notFound) := by
  have hw := hs.wf
  constructor
  · rcases PrimCall.outcome F (.add_arc_from_start_end a b r) hw with ⟨_, id, hr, _⟩ | ⟨h, _⟩
    · simp only [PrimCall.run] at hr
      obtain ⟨pa, pb, pr, sx, sy, ex, ey, rv, ha, hb, hr', hsx, hsy, hex, hey, hrv, hid, hpar,
        harc, hsys, htag⟩ := arc_from_start_end_result F a b r id hw hr
      refine ⟨id, hr, by simp [Map.contains, harc], by rw [hpar]; simp, ?_⟩
      rw [hsys]
      simp [System.addConstraint]
    · rw [hres] at h
      cases h
  · intro a' b' r' e he
    rcases PrimCall.outcome F (.add_arc_from_start_end a' b' r') hw with ⟨_, id, hr, _⟩ | ⟨_, h⟩
    · simp only [PrimCall.run] at hr
      rw [hr] at he
      cases he
    · simp only [PrimCall.run] at h
      rw [h] at he
      cases he
      rfl

/-- C18 amended, evaluated on the arc from a point to itself. -/
theorem C18_degenerate_chord_accepted_witness :
    ∃ id, (add_arc_from_start_end sampleOps 0 0 2 (execAll sampleOps sampleEngine
        (State.init Int) [.prim (.add_point 1 2), .add_param 5 (some true)])).2 = .ok id
      ∧ Map.contains (add_arc_from_start_end sampleOps 0 0 2 (execAll sampleOps sampleEngine
        (State.init Int) [.prim (.add_point 1 2), .add_param 5 (some true)])).1.arcs_ id
          = true :=
  match (C18_degenerate_chord_accepted sampleOps sampleEngine
      (execAll sampleOps sampleEngine (State.init Int)
        [.prim (.add_point 1 2), .add_param 5 (some true)])
      (Reachable.execAll _ Reachable.init) 0 0 2 (by decide)).1 with
  | ⟨id, h1, h2, _, _⟩ => ⟨id, h1, h2⟩

theorem hasTag_false_of_filter {R : Type} (cs : List (Constraint R)) (t : Int) :
    (cs.filter (fun c => decide (c.tag ≠ t))).any (fun c => decide (c.tag = t)) = false := by
  rw [List.any_eq_false]
  intro c hc
  have := (List.mem_filter.mp hc).2
  simpa using this

theorem clear_by_tag_ok {R : Type} (t : Int) {st : State R}
    (h : System.hasTag st.system_ t = true) :
    clear_by_tag t st =
      ({ st with system_ :=
          { constraints := st.system_.constraints.filter (fun c => decide (c.tag ≠ t)),
            unknowns := st.system_.unknowns,
            calls := st.system_.calls ++ [.clearByTag t] } }, .ok ()) := by
  simp [clear_by_tag, System.clearByTag, h]

theorem clear_by_tag_fail {R : Type} (t : Int) {st : State R}
    (h : System.hasTag st.system_ t = false) :
    clear_by_tag t st = (st, .error .notFound) := by
  simp [clear_by_tag, System.clearByTag, h]

theorem constraint_error_ok {R : Type} (E : Engine R) (t : Int) {st : State R}
    (h : System.hasTag st.system_ t = true) :
    (constraint_error E t st).2
      = .ok (E.calculateConstraintErrorByTag st.system_ st.params_ t) := by
  simp [constraint_error, System.calculateConstraintErrorByTag, h]

theorem constraint_error_fail {R : Type} (E : Engine R) (t : Int) {st : State R}
    (h : System.hasTag st.system_ t = false) :
    constraint_error E t st = (st, .error .notFound) := by
  simp [constraint_error, System.calculateConstraintErrorByTag, h]

/-- C19: tag-scoped removal, with the engine modelled from the specification.
For every tag `t` returned by a constraint registration, `clear_by_tag(t)`
succeeds and afterwards `constraint_error(t)` and a second `clear_by_tag(t)`
fail with NotFound; and in every reachable state `constraint_error` and
`clear_by_tag` fail with NotFound on a tag not issued in the current
generation (below 1 or not below the tag counter). -/
theorem C19_tag_scoped_removal {R : Type} (F : FloatOps R) (E : Engine R) (s : State R)
    (hs : Reachable F E s) (c : CCall R) (t : Int) (ht : (c.run s).2 = .ok t) :
    (clear_by_tag t (c.run s).1).2 = .ok ()
    ∧ (∃ x, (constraint_error E t (c.run s).1).2 = .ok x)
    ∧ (constraint_error E t (clear_by_tag t (c.run s).1).1).2 = .error .notFound
    ∧ (clear_by_tag t (clear_by_tag t (c.run s).1).1).2 = .error .notFound
    ∧ (∀ t', (t' < 1 ∨ s.next_constraint_tag_ ≤ t') →
        (constraint_error E t' s).2 = .error .notFound
        ∧ (clear_by_tag t' s).2 = .error .notFound) := by
  have hrun := register_apply c.kind c.args (c.drivingArg.getD true) s
  rw [← CCall.run_eq] at hrun
  have hti := hs.tagsIssued
  have hyes : System.hasTag (c.run s).1.system_ t = true := by
    cases hres : resolveAll s c.args with
    | error e =>
      rw [hres] at hrun
      rw [hrun] at ht
      cases ht
    | ok eargs =>
      rw [hres] at hrun
      rw [hrun] at ht
      simp only [Except.ok.injEq] at ht
      subst ht
      rw [hrun]
      simp [System.hasTag, System.addConstraint]
  have hc := clear_by_tag_ok t hyes
  have hno : System.hasTag (clear_by_tag t (c.run s).1).1.system_ t = false := by
    rw [hc]
    exact hasTag_false_of_filter _ t
  refine ⟨by rw [hc], ⟨_, constraint_error_ok E t hyes⟩, by rw [constraint_error_fail E t hno],
    by rw [clear_by_tag_fail t hno], ?_⟩
  intro t' ht'
  have hno' : System.hasTag s.system_ t' = false := by
    unfold System.hasTag
    rw [List.any_eq_false]
    intro k hk
    have := hti.2 k hk
    simp only [decide_eq_true_eq]
    omega
  exact ⟨by rw [constraint_error_fail E t' hno'], by rw [clear_by_tag_fail t' hno']⟩

/-- C19 evaluated: register, remove, query. -/
theorem C19_tag_scoped_removal_witness :
    (clear_by_tag 1 ((CCall.equal 0 1 none).run (execAll sampleOps sampleEngine (State.init Int)
      [.add_param 5 none, .add_param 6 none])).1).2 = .ok ()
    ∧ (constraint_error sampleEngine 1 (clear_by_tag 1 ((CCall.equal 0 1 none).run
      (execAll sampleOps sampleEngine (State.init Int)
        [.add_param 5 none, .add_param 6 none])).1).1).2 = .error .notFound :=
  ⟨(C19_tag_scoped_removal sampleOps sampleEngine
      (execAll sampleOps sampleEngine (State.init Int) [.add_param 5 none, .add_param 6 none])
      (Reachable.execAll _ Reachable.init) (.equal 0 1 none) 1 rfl).1,
   (C19_tag_scoped_removal sampleOps sampleEngine
      (execAll sampleOps sampleEngine (State.init Int) [.add_param 5 none, .add_param 6 none])
      (Reachable.execAll _ Reachable.init) (.equal 0 1 none) 1 rfl).2.2.1⟩

theorem center_reads_point {R : Type} {st : State R} (hst : WF st) {c a : Int} {p : Point}
    {arc : Arc} (hp : Map.find? st.points_ c = some p) (ha : Map.find? st.arcs_ a = some arc)
    (hc : arc.center = p) :
    ∃ x y, st.params_[p.x]? = some x ∧ st.params_[p.y]? = some y
      ∧ (get_point c st).2 = .ok (x, y) ∧ (get_arc_center a st).2 = .ok (x, y) := by
  obtain ⟨x, y, hx, hy⟩ := hst.point_deref hp
  refine ⟨x, y, hx, hy, ?_, ?_⟩
  · simp [get_point, Map.at, hp, hx, hy]
  · simp [get_arc_center, Map.at, ha, hc, hx, hy]

/-- C20: accessors read through to the shared parameters, with no caching. For
every registered point `c`, `a = add_arc_from_center(c, r, sa, ea)` succeeds and
right after it `get_arc_center(a)` is `get_point(c)`, itself unchanged by the
call, and `get_arc_radius(a)`, `get_arc_start_angle(a)`, `get_arc_end_angle(a)`
are `r`, `sa`, `ea`. In every later state of the generation, whatever calls were
made, `get_arc_center(a)` and `get_point(c)` both return the values currently
stored in the two slots of the point's coordinates. -/
theorem C20_accessors_read_through {R : Type} (F : FloatOps R) (E : Engine R) (s : State R)
    (hs : Reachable F E s) (c : Int) (r sa ea : R)
    (hc : Map.contains s.points_ c = true) (ops : List (Op R))
    (hops : ∀ op ∈ ops, op.isClear = false) :
    ∃ a p, Map.find? s.points_ c = some p
      ∧ (add_arc_from_center F c r sa ea s).2 = .ok a
      ∧ (get_arc_center a (add_arc_from_center F c r sa ea s).1).2
          = (get_point c (add_arc_from_center F c r sa ea s).1).2
      ∧ (get_point c (add_arc_from_center F c r sa ea s).1).2 = (get_point c s).2
      ∧ (∃ xy, (get_point c s).2 = .ok xy)
      ∧ (get_arc_radius a (add_arc_from_center F c r sa ea s).1).2 = .ok r
      ∧ (get_arc_start_angle a (add_arc_from_center F c r sa ea s).1).2 = .ok sa
      ∧ (get_arc_end_angle a (add_arc_from_center F c r sa ea s).1).2 = .ok ea
      ∧ (∃ x y,
          (execAll F E (add_arc_from_center F c r sa ea s).1 ops).params_[p.x]? = some x
          ∧ (execAll F E (add_arc_from_center F c r sa ea s).1 ops).params_[p.y]? = some y
          ∧ (get_point c (execAll F E (add_arc_from_center F c r sa ea s).1 ops)).2
              = .ok (x, y)
          ∧ (get_arc_center a (execAll F E (add_arc_from_center F c r sa ea s).1 ops)).2
              = .ok (x, y)) := by
  have hw := hs.wf
  have hw' : WF (add_arc_from_center F c r sa ea s).1 :=
    wf_prim F (.add_arc_from_center c r sa ea) hw
  simp only [Map.contains, Option.isSome_iff_exists] at hc
  obtain ⟨p, hp⟩ := hc
  obtain ⟨cx, cy, hx, hy⟩ := hw.point_deref hp
  have hok := add_arc_from_center_ok F c r sa ea s p cx cy hp (hw.point_lt hp) hx hy
  have hk : Keeps s (add_arc_from_center F c r sa ea s).1 :=
    (prim_frame F (.add_arc_from_center c r sa ea) hw).1
  have hp' := hk.1 c p hp
  have harc : Map.find? (add_arc_from_center F c r sa ea s).1.arcs_ (s.next_geo_id_ + 2) = some
      { center := p, rad := s.params_.length, startAngle := s.params_.length + 1,
        endAngle := s.params_.length + 2,
        start := { x := s.params_.length + 3, y := s.params_.length + 4 },
        «end» := { x := s.params_.length + 5, y := s.params_.length + 6 } } := by
    rw [hok]
    simp only [add_point_apply, add_param_apply]
    rw [show s.next_geo_id_ + 2 = s.next_geo_id_ + 1 + 1 by omega]
    exact Map.find?_assign_self _ _ _
  have hpar : (add_arc_from_center F c r sa ea s).1.params_ = s.params_ ++
      [r, sa, ea, F.add cx (F.mul r (F.cos sa)), F.add cy (F.mul r (F.sin sa)),
        F.add cx (F.mul r (F.cos ea)), F.add cy (F.mul r (F.sin ea))] := by
    rw [hok]
    simp [add_point_apply, add_param_apply]
  obtain ⟨x1, y1, hx1, hy1, hg1, hc1⟩ := center_reads_point hw' hp' harc rfl
  have hg0 : (get_point c s).2 = .ok (cx, cy) := by simp [get_point, Map.at, hp, hx, hy]
  have hxy : x1 = cx ∧ y1 = cy := by
    rw [hpar, getElem?_append_some hx] at hx1
    rw [hpar, getElem?_append_some hy] at hy1
    cases hx1
    cases hy1
    exact ⟨rfl, rfl⟩
  obtain ⟨rfl, rfl⟩ := hxy
  have hlater := keeps_execAll F E ops hw' hops
  obtain ⟨x, y, hx2, hy2, hg2, hc2⟩ := center_reads_point (wf_execAll F E ops hw')
    (hlater.1 c p hp') (hlater.2 _ _ harc) rfl
  refine ⟨s.next_geo_id_ + 2, p, hp, by rw [hok], by rw [hg1, hc1], by rw [hg1, hg0],
    ⟨_, hg0⟩, ?_, ?_, ?_, ⟨x, y, hx2, hy2, hg2, hc2⟩⟩
  · have h : (add_arc_from_center F c r sa ea s).1.params_[s.params_.length]? = some r := by
      rw [hpar, List.getElem?_append_right (Nat.le_refl _)]
      simp
    simp [get_arc_radius, Map.at, harc, h]
  · have h : (add_arc_from_center F c r sa ea s).1.params_[s.params_.length + 1]? = some sa := by
      rw [hpar, List.getElem?_append_right (by omega)]
      simp
    simp [get_arc_start_angle, Map.at, harc, h]
  · have h : (add_arc_from_center F c r sa ea s).1.params_[s.params_.length + 2]? = some ea := by
      rw [hpar, List.getElem?_append_right (by omega)]
      simp
    simp [get_arc_end_angle, Map.at, harc, h]

/-- C20 evaluated: an arc around point 0 = (3, 4); after `set_param(0, 9)` both
the point and the arc centre read (9, 4). -/
theorem C20_accessors_read_through_witness :
    (get_arc_center 3 (execAll sampleOps sampleEngine (add_arc_from_center sampleOps 0 5 0 1
      (execAll sampleOps sampleEngine (State.init Int) [.prim (.add_point 3 4)])).1
      [.set_param 0 9])).2 = .ok (9, 4)
    ∧ (get_point 0 (execAll sampleOps sampleEngine (add_arc_from_center sampleOps 0 5 0 1
      (execAll sampleOps sampleEngine (State.init Int) [.prim (.add_point 3 4)])).1
      [.set_param 0 9])).2 = .ok (9, 4)
    ∧ ∃ a p, Map.find? (execAll sampleOps sampleEngine (State.init Int)
        [.prim (.add_point 3 4)]).points_ 0 = some p
      ∧ (add_arc_from_center sampleOps 0 5 0 1 (execAll sampleOps sampleEngine (State.init Int)
        [.prim (.add_point 3 4)])).2 = .ok a
      ∧ (get_arc_center a (add_arc_from_center sampleOps 0 5 0 1 (execAll sampleOps sampleEngine
          (State.init Int) [.prim (.add_point 3 4)])).1).2
          = (get_point 0 (add_arc_from_center sampleOps 0 5 0 1 (execAll sampleOps sampleEngine
          (State.init Int) [.prim (.add_point 3 4)])).1).2 := by
  refine ⟨rfl, rfl, ?_⟩
  obtain ⟨a, p, h1, h2, h3, _⟩ := C20_accessors_read_through sampleOps sampleEngine
    (execAll sampleOps sampleEngine (State.init Int) [.prim (.add_point 3 4)])
    (Reachable.execAll _ Reachable.init) 0 5 0 1 (by decide) [.set_param 0 9] (by decide)
  exact ⟨a, p, h1, h2, h3⟩

/-! ## The arc derivation of `add_arc_from_start_end` -/

theorem get_point_ok_inv {R : Type} {s : State R} (hs : WF s) {a : Int} {x y : R}
    (h : (get_point a s).2 = .ok (x, y)) :
    ∃ p, Map.find? s.points_ a = some p ∧ s.params_[p.x]? = some x
      ∧ s.params_[p.y]? = some y := by
  cases hf : Map.find? s.points_ a with
  | none => simp [get_point, Map.at, hf] at h
  | some p =>
    obtain ⟨x0, y0, hx, hy⟩ := hs.point_deref hf
    simp [get_point, Map.at, hf, hx, hy] at h
    obtain ⟨rfl, rfl⟩ := h
    exact ⟨p, rfl, hx, hy⟩

theorem get_param_ok_inv {R : Type} {s : State R} (hs : WF s) {r : Int} {v : R}
    (h : (get_param r s).2 = .ok v) :
    ∃ pr, Map.find? s.param_index_ r = some pr ∧ s.params_[pr]? = some v := by
  cases hf : Map.find? s.param_index_ r with
  | none => simp [get_param, Map.at, hf] at h
  | some pr =>
    obtain ⟨_, _, _, hl⟩ := hs.param_lookup hf
    simp [get_param, Map.at, hf, List.getElem?_eq_getElem hl] at h
    exact ⟨pr, rfl, by rw [List.getElem?_eq_getElem hl, h]⟩

/-- With registered end points and an issued radius parameter the call returns,
and the center of the new arc reads as the derived center. -/
theorem arc_center_read {R : Type} (F : FloatOps R) {s : State R} (hs : WF s) {a b r : Int}
    {sx sy ex ey rv : R} (ha : (get_point a s).2 = .ok (sx, sy))
    (hb : (get_point b s).2 = .ok (ex, ey)) (hr : (get_param r s).2 = .ok rv) :
    (add_arc_from_start_end F a b r s).2 = .ok (s.next_geo_id_ + 3)
      ∧ (get_arc_center (s.next_geo_id_ + 3) (add_arc_from_start_end F a b r s).1).2
          = .ok (arc_from_start_end_values F sx sy ex ey rv).1 := by
  obtain ⟨pa, hfa, hsx, hsy⟩ := get_point_ok_inv hs ha
  obtain ⟨pb, hfb, hex, hey⟩ := get_point_ok_inv hs hb
  obtain ⟨pr, hfr, hrv⟩ := get_param_ok_inv hs hr
  obtain ⟨_, hrn, _, _⟩ := hs.param_lookup hfr
  have hok := add_arc_from_start_end_ok F a b r s pa pb pr sx sy ex ey rv hfa hfb hfr
    (hs.point_lt hfa) (hs.point_lt hfb) hrn hsx hsy hex hey hrv
  generalize arc_from_start_end_values F sx sy ex ey rv = v at hok ⊢
  rw [hok]
  refine ⟨rfl, ?_⟩
  have harc : Map.find? (Map.assign s.arcs_ (s.next_geo_id_ + 1 + 1 + 1)
      ({ center := { x := s.params_.length, y := s.params_.length + 1 }, rad := pr,
         startAngle := s.params_.length + 2, endAngle := s.params_.length + 3,
         start := { x := s.params_.length + 4, y := s.params_.length + 5 },
         «end» := { x := s.params_.length + 6, y := s.params_.length + 7 } } : Arc))
      (s.next_geo_id_ + 3) = some
        { center := { x := s.params_.length, y := s.params_.length + 1 }, rad := pr,
          startAngle := s.params_.length + 2, endAngle := s.params_.length + 3,
          start := { x := s.params_.length + 4, y := s.params_.length + 5 },
          «end» := { x := s.params_.length + 6, y := s.params_.length + 7 } } := by
    rw [show s.next_geo_id_ + 3 = s.next_geo_id_ + 1 + 1 + 1 by omega]
    exact Map.find?_assign_self _ _ _
  simp [get_arc_center, Map.at, add_point_apply, add_param_apply, harc,
    List.getElem?_append_right]
  rw [List.getElem_append_right (Nat.le_refl _), List.getElem_append_right (by omega)]
  simp

/-- In exact real arithmetic the derived center is the chord midpoint moved by
the sagitta along the left-hand perpendicular of the chord. -/
theorem arc_values_center_exact {F : FloatOps ℝ} (hF : ExactReal F) (sx sy ex ey rv : ℝ) :
    (arc_from_start_end_values F sx sy ex ey rv).1 =
      ((sx + ex) / 2
          + Real.sqrt (max |rv| (Real.sqrt ((ex - sx) ^ 2 + (ey - sy) ^ 2) / 2) ^ 2
              - (Real.sqrt ((ex - sx) ^ 2 + (ey - sy) ^ 2) / 2) ^ 2)
            * (-(ey - sy) / Real.sqrt ((ex - sx) ^ 2 + (ey - sy) ^ 2)),
       (sy + ey) / 2
          + Real.sqrt (max |rv| (Real.sqrt ((ex - sx) ^ 2 + (ey - sy) ^ 2) / 2) ^ 2
              - (Real.sqrt ((ex - sx) ^ 2 + (ey - sy) ^ 2) / 2) ^ 2)
            * ((ex - sx) / Real.sqrt ((ex - sx) ^ 2 + (ey - sy) ^ 2))) := by
  have h2 : ∀ x : ℝ, 2 * (x / 2) = x := fun x => by ring
  simp only [arc_from_start_end_values, hF.add, hF.sub, hF.mul, hF.div, hF.neg, hF.sqrt,
    hF.abs, hF.two, h2, ← sq]
  by_cases hlt : |rv| < Real.sqrt ((ex - sx) ^ 2 + (ey - sy) ^ 2) / 2
  · rw [if_pos ((hF.lt _ _).2 hlt), max_eq_right hlt.le]
  · have hn : ¬ F.lt |rv| (Real.sqrt ((ex - sx) ^ 2 + (ey - sy) ^ 2) / 2) = true :=
      fun h => hlt ((hF.lt _ _).1 h)
    rw [if_neg hn, max_eq_left (not_lt.1 hlt)]

/-- The geometry of the derived center, for distinct end points. -/
theorem arc_center_geometry (sx sy ex ey rv : ℝ) (hne : (sx, sy) ≠ (ex, ey)) :
    0 < Real.sqrt ((ex - sx) ^ 2 + (ey - sy) ^ 2)
    ∧ 0 ≤ max |rv| (Real.sqrt ((ex - sx) ^ 2 + (ey - sy) ^ 2) / 2)
    ∧ Real.sqrt ((ex - sx) ^ 2 + (ey - sy) ^ 2) ^ 2 = (ex - sx) ^ 2 + (ey - sy) ^ 2
    ∧ Real.sqrt (max |rv| (Real.sqrt ((ex - sx) ^ 2 + (ey - sy) ^ 2) / 2) ^ 2
        - (Real.sqrt ((ex - sx) ^ 2 + (ey - sy) ^ 2) / 2) ^ 2) ^ 2
      = max |rv| (Real.sqrt ((ex - sx) ^ 2 + (ey - sy) ^ 2) / 2) ^ 2
        - (Real.sqrt ((ex - sx) ^ 2 + (ey - sy) ^ 2) / 2) ^ 2 := by
  have hpos : 0 < (ex - sx) ^ 2 + (ey - sy) ^ 2 := by
    by_contra hcon
    have h0 : (ex - sx) ^ 2 + (ey - sy) ^ 2 = 0 :=
      le_antisymm (not_lt.1 hcon) (by positivity)
    have hx : ex - sx = 0 := by nlinarith [sq_nonneg (ex - sx), sq_nonneg (ey - sy)]
    have hy : ey - sy = 0 := by nlinarith [sq_nonneg (ex - sx), sq_nonneg (ey - sy)]
    exact hne (by rw [Prod.mk.injEq]; constructor <;> linarith)
  have hL := Real.sqrt_pos.2 hpos
  have hr : Real.sqrt ((ex - sx) ^ 2 + (ey - sy) ^ 2) / 2
      ≤ max |rv| (Real.sqrt ((ex - sx) ^ 2 + (ey - sy) ^ 2) / 2) := le_max_right _ _
  have hr0 : 0 ≤ max |rv| (Real.sqrt ((ex - sx) ^ 2 + (ey - sy) ^ 2) / 2) :=
    le_trans (by positivity) hr
  refine ⟨hL, hr0, Real.sq_sqrt hpos.le, Real.sq_sqrt ?_⟩
  have hh : 0 ≤ Real.sqrt ((ex - sx) ^ 2 + (ey - sy) ^ 2) / 2 := by positivity
  nlinarith

theorem center_dist_start (u v L d r : ℝ) (hL : 0 < L) (hL2 : L ^ 2 = u ^ 2 + v ^ 2)
    (hd : d ^ 2 = r ^ 2 - (L / 2) ^ 2) :
    (u / 2 + d * (-v / L)) ^ 2 + (v / 2 + d * (u / L)) ^ 2 = r ^ 2 := by
  have hL0 : L ≠ 0 := hL.ne.symm
  have h : (u / 2 + d * (-v / L)) ^ 2 + (v / 2 + d * (u / L)) ^ 2
      = (u ^ 2 + v ^ 2) / 4 + d ^ 2 * ((u ^ 2 + v ^ 2) / L ^ 2) := by
    field_simp
    ring
  rw [h, ← hL2, div_self (pow_ne_zero 2 hL0), hd]
  ring

theorem center_dist_end (u v L d r : ℝ) (hL : 0 < L) (hL2 : L ^ 2 = u ^ 2 + v ^ 2)
    (hd : d ^ 2 = r ^ 2 - (L / 2) ^ 2) :
    (-u / 2 + d * (-v / L)) ^ 2 + (-v / 2 + d * (u / L)) ^ 2 = r ^ 2 := by
  have hL0 : L ≠ 0 := hL.ne.symm
  have h : (-u / 2 + d * (-v / L)) ^ 2 + (-v / 2 + d * (u / L)) ^ 2
      = (u ^ 2 + v ^ 2) / 4 + d ^ 2 * ((u ^ 2 + v ^ 2) / L ^ 2) := by
    field_simp
    ring
  rw [h, ← hL2, div_self (pow_ne_zero 2 hL0), hd]
  ring

theorem center_cross (u v L d : ℝ) (hL : 0 < L) (hL2 : L ^ 2 = u ^ 2 + v ^ 2) :
    u * (v / 2 + d * (u / L)) - v * (u / 2 + d * (-v / L)) = d * L := by
  have hL0 : L ≠ 0 := hL.ne.symm
  have h : u * (v / 2 + d * (u / L)) - v * (u / 2 + d * (-v / L))
      = d * ((u ^ 2 + v ^ 2) / L) := by
    field_simp
    ring
  rw [h, ← hL2]
  field_simp
  ring

/-- C14: arc derivation in exact real arithmetic. For registered points
`S = (sx, sy)` and `E = (ex, ey)` with `S ≠ E` and an issued radius parameter of
value `R`, `add_arc_from_start_end` returns and the center `C` of the new arc
satisfies `|C - S| = |C - E| = max(|R|, |E - S| / 2)`; the distance is `R` when
`R ≥ |E - S| / 2`, and when `|R|` is at most half the chord the distance is half
the chord and `C` is the chord midpoint. -/
theorem C14_arc_derivation (F : FloatOps ℝ) (hF : ExactReal F) (E : Engine ℝ) (s : State ℝ)
    (hs : Reachable F E s) (a b r : Int) (sx sy ex ey rv : ℝ)
    (ha : (get_point a s).2 = .ok (sx, sy)) (hb : (get_point b s).2 = .ok (ex, ey))
    (hr : (get_param r s).2 = .ok rv) (hne : (sx, sy) ≠ (ex, ey)) :
    ∃ id cx cy, (add_arc_from_start_end F a b r s).2 = .ok id
      ∧ (get_arc_center id (add_arc_from_start_end F a b r s).1).2 = .ok (cx, cy)
      ∧ Real.sqrt ((cx - sx) ^ 2 + (cy - sy) ^ 2)
          = max |rv| (Real.sqrt ((ex - sx) ^ 2 + (ey - sy) ^ 2) / 2)
      ∧ Real.sqrt ((cx - ex) ^ 2 + (cy - ey) ^ 2)
          = max |rv| (Real.sqrt ((ex - sx) ^ 2 + (ey - sy) ^ 2) / 2)
      ∧ (Real.sqrt ((ex - sx) ^ 2 + (ey - sy) ^ 2) / 2 ≤ rv →
          Real.sqrt ((cx - sx) ^ 2 + (cy - sy) ^ 2) = rv
          ∧ Real.sqrt ((cx - ex) ^ 2 + (cy - ey) ^ 2) = rv)
      ∧ (|rv| ≤ Real.sqrt ((ex - sx) ^ 2 + (ey - sy) ^ 2) / 2 →
          Real.sqrt ((cx - sx) ^ 2 + (cy - sy) ^ 2)
            = Real.sqrt ((ex - sx) ^ 2 + (ey - sy) ^ 2) / 2
          ∧ Real.sqrt ((cx - ex) ^ 2 + (cy - ey) ^ 2)
            = Real.sqrt ((ex - sx) ^ 2 + (ey - sy) ^ 2) / 2
          ∧ cx = (sx + ex) / 2 ∧ cy = (sy + ey) / 2) := by
  obtain ⟨hrun, hread⟩ := arc_center_read F hs.wf ha hb hr
  rw [arc_values_center_exact hF] at hread
  obtain ⟨hL, hr0, hL2, hd⟩ := arc_center_geometry sx sy ex ey rv hne
  generalize hLdef : Real.sqrt ((ex - sx) ^ 2 + (ey - sy) ^ 2) = L at *
  generalize hrdef : max |rv| (L / 2) = r0 at *
  generalize hddef : Real.sqrt (r0 ^ 2 - (L / 2) ^ 2) = d at *
  have h1 : Real.sqrt (((sx + ex) / 2 + d * (-(ey - sy) / L) - sx) ^ 2
      + ((sy + ey) / 2 + d * ((ex - sx) / L) - sy) ^ 2) = r0 := by
    rw [show (sx + ex) / 2 + d * (-(ey - sy) / L) - sx
        = (ex - sx) / 2 + d * (-(ey - sy) / L) by ring,
      show (sy + ey) / 2 + d * ((ex - sx) / L) - sy
        = (ey - sy) / 2 + d * ((ex - sx) / L) by ring,
      center_dist_start _ _ L d r0 hL hL2 hd]
    exact Real.sqrt_sq hr0
  have h2 : Real.sqrt (((sx + ex) / 2 + d * (-(ey - sy) / L) - ex) ^ 2
      + ((sy + ey) / 2 + d * ((ex - sx) / L) - ey) ^ 2) = r0 := by
    rw [show (sx + ex) / 2 + d * (-(ey - sy) / L) - ex
        = -(ex - sx) / 2 + d * (-(ey - sy) / L) by ring,
      show (sy + ey) / 2 + d * ((ex - sx) / L) - ey
        = -(ey - sy) / 2 + d * ((ex - sx) / L) by ring,
      center_dist_end _ _ L d r0 hL hL2 hd]
    exact Real.sqrt_sq hr0
  refine ⟨_, _, _, hrun, hread, h1, h2, ?_, ?_⟩
  · intro hge
    have hrv : r0 = rv := by
      rw [← hrdef, abs_of_nonneg (le_trans (by positivity) hge)]
      exact max_eq_left hge
    rw [h1, h2, hrv]
    exact ⟨rfl, rfl⟩
  · intro hle
    have hrv : r0 = L / 2 := by
      rw [← hrdef]
      exact max_eq_right hle
    have hd0 : d = 0 := by
      rw [← hddef, hrv, sub_self, Real.sqrt_zero]
    rw [h1, h2, hrv, hd0]
    refine ⟨rfl, rfl, by ring, by ring⟩

/-- C15: deterministic side choice in exact real arithmetic. For registered
points `S ≠ E` and an issued radius parameter, the center computed by
`add_arc_from_start_end` is `M + d * n` with `M` the chord midpoint,
`d = sqrt(r^2 - h^2) ≥ 0`, `h = |E - S| / 2`, `r = max(|R|, h)` and
`n = (-(E - S).y, (E - S).x) / |E - S|` a unit vector; the cross product
`(E - S) x (C - S)` is `d * |E - S|`, so it is never negative. -/
theorem C15_side_choice (F : FloatOps ℝ) (hF : ExactReal F) (E : Engine ℝ) (s : State ℝ)
    (hs : Reachable F E s) (a b r : Int) (sx sy ex ey rv : ℝ)
    (ha : (get_point a s).2 = .ok (sx, sy)) (hb : (get_point b s).2 = .ok (ex, ey))
    (hr : (get_param r s).2 = .ok rv) (hne : (sx, sy) ≠ (ex, ey)) :
    ∃ id cx cy L h r0 d nx ny, (add_arc_from_start_end F a b r s).2 = .ok id
      ∧ (get_arc_center id (add_arc_from_start_end F a b r s).1).2 = .ok (cx, cy)
      ∧ L = Real.sqrt ((ex - sx) ^ 2 + (ey - sy) ^ 2) ∧ 0 < L
      ∧ h = L / 2 ∧ r0 = max |rv| h
      ∧ d = Real.sqrt (r0 ^ 2 - h ^ 2) ∧ 0 ≤ d ∧ d ^ 2 = r0 ^ 2 - h ^ 2
      ∧ nx = -(ey - sy) / L ∧ ny = (ex - sx) / L ∧ nx ^ 2 + ny ^ 2 = 1
      ∧ cx = (sx + ex) / 2 + d * nx ∧ cy = (sy + ey) / 2 + d * ny
      ∧ (ex - sx) * (cy - sy) - (ey - sy) * (cx - sx) = d * L
      ∧ 0 ≤ (ex - sx) * (cy - sy) - (ey - sy) * (cx - sx) := by
  obtain ⟨hrun, hread⟩ := arc_center_read F hs.wf ha hb hr
  rw [arc_values_center_exact hF] at hread
  obtain ⟨hL, hr0, hL2, hd⟩ := arc_center_geometry sx sy ex ey rv hne
  generalize hLdef : Real.sqrt ((ex - sx) ^ 2 + (ey - sy) ^ 2) = L at *
  generalize hrdef : max |rv| (L / 2) = r0 at *
  have hd0 : 0 ≤ Real.sqrt (r0 ^ 2 - (L / 2) ^ 2) := Real.sqrt_nonneg _
  generalize hddef : Real.sqrt (r0 ^ 2 - (L / 2) ^ 2) = d at *
  have hcross : (ex - sx) * ((sy + ey) / 2 + d * ((ex - sx) / L) - sy)
      - (ey - sy) * ((sx + ex) / 2 + d * (-(ey - sy) / L) - sx) = d * L := by
    rw [show (sx + ex) / 2 + d * (-(ey - sy) / L) - sx
        = (ex - sx) / 2 + d * (-(ey - sy) / L) by ring,
      show (sy + ey) / 2 + d * ((ex - sx) / L) - sy
        = (ey - sy) / 2 + d * ((ex - sx) / L) by ring]
    exact center_cross _ _ L d hL hL2
  have hunit : (-(ey - sy) / L) ^ 2 + ((ex - sx) / L) ^ 2 = 1 := by
    have hL0 : L ≠ 0 := hL.ne.symm
    have h : (-(ey - sy) / L) ^ 2 + ((ex - sx) / L) ^ 2
        = ((ex - sx) ^ 2 + (ey - sy) ^ 2) / L ^ 2 := by
      field_simp
      ring
    rw [h, ← hL2, div_self (pow_ne_zero 2 hL0)]
  refine ⟨_, _, _, L, L / 2, r0, d, _, _, hrun, hread, rfl, hL, rfl, hrdef.symm, hddef.symm, hd0, hd,
    rfl, rfl, hunit, rfl, rfl, hcross, ?_⟩
  rw [hcross]
  positivity

/-- Reading back two points and a parameter right after their creation. -/
theorem arc_sample_reads {R : Type} (F : FloatOps R) (E : Engine R) (x1 y1 x2 y2 rv : R) :
    (get_point 0 (execAll F E (State.init R)
        [.prim (.add_point x1 y1), .prim (.add_point x2 y2), .add_param rv none])).2
      = .ok (x1, y1)
    ∧ (get_point 1 (execAll F E (State.init R)
        [.prim (.add_point x1 y1), .prim (.add_point x2 y2), .add_param rv none])).2
      = .ok (x2, y2)
    ∧ (get_param 4 (execAll F E (State.init R)
        [.prim (.add_point x1 y1), .prim (.add_point x2 y2), .add_param rv none])).2
      = .ok rv := by
  simp [execAll, Op.exec, PrimCall.run, add_point_apply, add_param_apply, get_point, get_param,
    Map.at, State.init, Map.assign, Map.find?]

/-- C14 evaluated on the two examples of the specification, with the real
operations themselves: for `S = (0, 0)`, `E = (10, 0)` the center is at distance
10 from both end points when `R = 10`, and when `R = 2` it is the chord midpoint
`(5, 0)`, at distance 5. -/
theorem C14_arc_derivation_witness :
    ∃ (F : FloatOps ℝ) (E : Engine ℝ), ExactReal F
      ∧ (∃ id cx cy,
          (add_arc_from_start_end F 0 1 4 (execAll F E (State.init ℝ)
            [.prim (.add_point 0 0), .prim (.add_point 10 0), .add_param 10 none])).2 = .ok id
          ∧ (get_arc_center id (add_arc_from_start_end F 0 1 4 (execAll F E (State.init ℝ)
            [.prim (.add_point 0 0), .prim (.add_point 10 0), .add_param 10 none])).1).2
              = .ok (cx, cy)
          ∧ Real.sqrt ((cx - 0) ^ 2 + (cy - 0) ^ 2) = 10
          ∧ Real.sqrt ((cx - 10) ^ 2 + (cy - 0) ^ 2) = 10)
      ∧ (∃ id cx cy,
          (add_arc_from_start_end F 0 1 4 (execAll F E (State.init ℝ)
            [.prim (.add_point 0 0), .prim (.add_point 10 0), .add_param 2 none])).2 = .ok id
          ∧ (get_arc_center id (add_arc_from_start_end F 0 1 4 (execAll F E (State.init ℝ)
            [.prim (.add_point 0 0), .prim (.add_point 10 0), .add_param 2 none])).1).2
              = .ok (cx, cy)
          ∧ Real.sqrt ((cx - 0) ^ 2 + (cy - 0) ^ 2) = 5
          ∧ Real.sqrt ((cx - 10) ^ 2 + (cy - 0) ^ 2) = 5
          ∧ cx = 5 ∧ cy = 0) := by
  have hL : Real.sqrt (((10 : ℝ) - 0) ^ 2 + ((0 : ℝ) - 0) ^ 2) = 10 := by
    rw [show ((10 : ℝ) - 0) ^ 2 + ((0 : ℝ) - 0) ^ 2 = 10 ^ 2 by norm_num]
    exact Real.sqrt_sq (by norm_num)
  have hne : ((0 : ℝ), (0 : ℝ)) ≠ (10, 0) := by
    intro h
    have h1 := congrArg Prod.fst h
    norm_num at h1
  obtain ⟨F, hF⟩ : ∃ F : FloatOps ℝ, ExactReal F :=
    ⟨⟨fun a b => a + b, fun a b => a - b, fun a b => a * b, fun a b => a / b,
        fun a => -a, fun a b => decide (a < b), Real.sqrt, fun a => |a|, Real.cos, Real.sin,
        fun y x => Complex.arg (Complex.mk x y), 2⟩,
      ⟨fun _ _ => rfl, fun _ _ => rfl, fun _ _ => rfl, fun _ _ => rfl, fun _ => rfl,
        fun _ _ => decide_eq_true_iff, fun _ => rfl, fun _ => rfl, fun _ => rfl, fun _ => rfl,
        fun _ _ => rfl, rfl⟩⟩
  obtain ⟨E⟩ : Nonempty (Engine ℝ) :=
    ⟨⟨fun _ _ _ => (.Failed, []), fun _ _ => [], fun _ _ => 0, fun _ _ => [], fun _ _ => [],
      fun _ _ => [], fun _ _ _ => 0⟩⟩
  refine ⟨F, E, hF, ?_, ?_⟩
  · obtain ⟨id, cx, cy, h1, h2, _, _, h5, _⟩ := C14_arc_derivation F hF E
      (execAll F E (State.init ℝ)
        [.prim (.add_point 0 0), .prim (.add_point 10 0), .add_param 10 none])
      (Reachable.execAll _ Reachable.init) 0 1 4 0 0 10 0 10
      (arc_sample_reads F E 0 0 10 0 10).1 (arc_sample_reads F E 0 0 10 0 10).2.1
      (arc_sample_reads F E 0 0 10 0 10).2.2 hne
    have h := h5 (by rw [hL]; norm_num)
    exact ⟨id, cx, cy, h1, h2, h.1, h.2⟩
  · obtain ⟨id, cx, cy, h1, h2, _, _, _, h6⟩ := C14_arc_derivation F hF E
      (execAll F E (State.init ℝ)
        [.prim (.add_point 0 0), .prim (.add_point 10 0), .add_param 2 none])
      (Reachable.execAll _ Reachable.init) 0 1 4 0 0 10 0 2
      (arc_sample_reads F E 0 0 10 0 2).1 (arc_sample_reads F E 0 0 10 0 2).2.1
      (arc_sample_reads F E 0 0 10 0 2).2.2 hne
    have h := h6 (by rw [hL]; norm_num [abs_of_pos])
    rw [hL] at h
    refine ⟨id, cx, cy, h1, h2, ?_, ?_, ?_, ?_⟩
    · rw [h.1]; norm_num
    · rw [h.2.1]; norm_num
    · rw [h.2.2.1]; norm_num
    · rw [h.2.2.2]; norm_num

/-- C15 evaluated with the real operations themselves: for `S = (0, 0)`,
`E = (10, 0)` and `R = 10` the center is not to the right of the chord. -/
theorem C15_side_choice_witness :
    ∃ (F : FloatOps ℝ) (E : Engine ℝ), ExactReal F
      ∧ ∃ id cx cy,
          (add_arc_from_start_end F 0 1 4 (execAll F E (State.init ℝ)
            [.prim (.add_point 0 0), .prim (.add_point 10 0), .add_param 10 none])).2 = .ok id
          ∧ (get_arc_center id (add_arc_from_start_end F 0 1 4 (execAll F E (State.init ℝ)
            [.prim (.add_point 0 0), .prim (.add_point 10 0), .add_param 10 none])).1).2
              = .ok (cx, cy)
          ∧ 0 ≤ (10 - 0) * (cy - 0) - (0 - 0) * (cx - 0) := by
  have hne : ((0 : ℝ), (0 : ℝ)) ≠ (10, 0) := by
    intro h
    have h1 := congrArg Prod.fst h
    norm_num at h1
  obtain ⟨F, hF⟩ : ∃ F : FloatOps ℝ, ExactReal F :=
    ⟨⟨fun a b => a + b, fun a b => a - b, fun a b => a * b, fun a b => a / b,
        fun a => -a, fun a b => decide (a < b), Real.sqrt, fun a => |a|, Real.cos, Real.sin,
        fun y x => Complex.arg (Complex.mk x y), 2⟩,
      ⟨fun _ _ => rfl, fun _ _ => rfl, fun _ _ => rfl, fun _ _ => rfl, fun _ => rfl,
        fun _ _ => decide_eq_true_iff, fun _ => rfl, fun _ => rfl, fun _ => rfl, fun _ => rfl,
        fun _ _ => rfl, rfl⟩⟩
  obtain ⟨E⟩ : Nonempty (Engine ℝ) :=
    ⟨⟨fun _ _ _ => (.Failed, []), fun _ _ => [], fun _ _ => 0, fun _ _ => [], fun _ _ => [],
      fun _ _ => [], fun _ _ _ => 0⟩⟩
  refine ⟨F, E, hF, ?_⟩
  obtain ⟨id, cx, cy, _, _, _, _, _, _, h1, h2, _, _, _, _, _, _, _, _, _, _, _, _, _, h3⟩ :=
    C15_side_choice F hF E
      (execAll F E (State.init ℝ)
        [.prim (.add_point 0 0), .prim (.add_point 10 0), .add_param 10 none])
      (Reachable.execAll _ Reachable.init) 0 1 4 0 0 10 0 10
      (arc_sample_reads F E 0 0 10 0 10).1 (arc_sample_reads F E 0 0 10 0 10).2.1
      (arc_sample_reads F E 0 0 10 0 10).2.2 hne
  exact ⟨id, cx, cy, h1, h2, h3⟩

/-! ## The parameter store invariant -/

/-- What well-formedness says of the parameter store: the counter is the length
of the storage, the index map has exactly the keys `0..n-1`, key `h` maps to
slot `h`, and `get_param` succeeds exactly on these keys. -/
theorem store_of_wf {R : Type} {s : State R} (hs : WF s) :
    s.next_param_id_ = s.params_.length
    ∧ (∀ h : Int, Map.contains s.param_index_ h = true ↔ (0 ≤ h ∧ h < s.params_.length))
    ∧ (∀ h : Int, 0 ≤ h → h < s.params_.length →
        Map.find? s.param_index_ h = some h.toNat)
    ∧ (∀ h : Int, (∃ v, (get_param h s).2 = .ok v) ↔ (0 ≤ h ∧ h < s.params_.length)) := by
  refine ⟨hs.next_param, ?_, ?_, ?_⟩
  · intro h
    rw [Map.contains, hs.index, Map.find?_idMap]
    split_ifs with hh
    · simp [hh]
    · simp [hh]
  · intro h h0 h1
    rw [hs.index, Map.find?_idMap, if_pos ⟨h0, h1⟩]
  · intro h
    constructor
    · rintro ⟨v, hv⟩
      by_contra hn
      have hni : ¬ Issued s h := by
        unfold Issued
        rw [hs.next_param]
        exact hn
      rw [get_param_not_issued hs hni] at hv
      cases hv
    · intro hh
      have hi : Issued s h := by
        unfold Issued
        rw [hs.next_param]
        exact hh
      obtain ⟨v, _, hv⟩ := get_param_issued hs hi
      exact ⟨v, by rw [hv]⟩

/-- C21: the store invariant. In every reachable state the parameter counter is
the length `n` of the parameter storage, the issued handles (the keys of the
index map) are exactly `0..n-1`, handle `i` maps to slot `i`, and `get_param(h)`
succeeds if and only if `0 ≤ h < n`. Every call keeps this, and the allocating
calls append to the storage: `add_param` one value, `add_point` two,
`add_circle` one, a successful `add_arc_from_center` seven and a successful
`add_arc_from_start_end` eight, so that afterwards exactly the handles below
`n + k` resolve. -/
theorem C21_store_invariant {R : Type} (F : FloatOps R) (E : Engine R) (s : State R)
    (hs : Reachable F E s) :
    (s.next_param_id_ = s.params_.length
      ∧ (∀ h : Int, Map.contains s.param_index_ h = true ↔ (0 ≤ h ∧ h < s.params_.length))
      ∧ (∀ h : Int, 0 ≤ h → h < s.params_.length →
          Map.find? s.param_index_ h = some h.toNat)
      ∧ (∀ h : Int, (∃ v, (get_param h s).2 = .ok v) ↔ (0 ≤ h ∧ h < s.params_.length)))
    ∧ (∀ op : Op R, ∀ h : Int, (∃ v, (get_param h (op.exec F E s)).2 = .ok v)
        ↔ (0 ≤ h ∧ h < (op.exec F E s).params_.length))
    ∧ (∀ v f, (add_param v f s).2 = .ok (s.params_.length : Int)
        ∧ (add_param v f s).1.params_ = s.params_ ++ [v])
    ∧ (∀ x y, (add_point x y s).1.params_ = s.params_ ++ [x, y]
        ∧ ∀ h : Int, (∃ v, (get_param h (add_point x y s).1).2 = .ok v)
          ↔ (0 ≤ h ∧ h < s.params_.length + 2))
    ∧ (∀ c r, (add_circle c r s).1.params_ = s.params_ ++ [r]
        ∧ ∀ h : Int, (∃ v, (get_param h (add_circle c r s).1).2 = .ok v)
          ↔ (0 ≤ h ∧ h < s.params_.length + 1))
    ∧ (∀ c r sa ea id, (add_arc_from_center F c r sa ea s).2 = .ok id →
        (∃ extra, (add_arc_from_center F c r sa ea s).1.params_ = s.params_ ++ extra
          ∧ extra.length = 7)
        ∧ ∀ h : Int, (∃ v, (get_param h (add_arc_from_center F c r sa ea s).1).2 = .ok v)
          ↔ (0 ≤ h ∧ h < s.params_.length + 7))
    ∧ (∀ a b r id, (add_arc_from_start_end F a b r s).2 = .ok id →
        (∃ extra, (add_arc_from_start_end F a b r s).1.params_ = s.params_ ++ extra
          ∧ extra.length = 8)
        ∧ ∀ h : Int, (∃ v, (get_param h (add_arc_from_start_end F a b r s).1).2 = .ok v)
          ↔ (0 ≤ h ∧ h < s.params_.length + 8)) := by
  have hw := hs.wf
  refine ⟨store_of_wf hw, fun op => (store_of_wf (wf_exec F E op hw)).2.2.2, ?_, ?_, ?_, ?_, ?_⟩
  · intro v f
    rw [add_param_apply]
    exact ⟨by rw [hw.next_param], rfl⟩
  · intro x y
    have hp : (add_point x y s).1.params_ = s.params_ ++ [x, y] := by
      simp [add_point_apply]
    refine ⟨hp, fun h => ?_⟩
    have hst := (store_of_wf (wf_prim F (.add_point x y) hw)).2.2.2 h
    simp only [PrimCall.run, hp, List.length_append, List.length_cons, List.length_nil,
      Nat.cast_add] at hst
    rw [hst]
    norm_num
  · intro c r
    have hp : (add_circle c r s).1.params_ = s.params_ ++ [r] := by
      rw [add_circle_apply]
      split <;> simp [add_param_apply]
    refine ⟨hp, fun h => ?_⟩
    have hst := (store_of_wf (wf_prim F (.add_circle c r) hw)).2.2.2 h
    simp only [PrimCall.run, hp, List.length_append, List.length_cons, List.length_nil,
      Nat.cast_add] at hst
    rw [hst]
    norm_num
  · intro c r sa ea id hrun
    have hp : ∃ extra, (add_arc_from_center F c r sa ea s).1.params_ = s.params_ ++ extra
        ∧ extra.length = 7 := by
      cases hc : Map.find? s.points_ c with
      | none =>
        rw [add_arc_from_center_fail F c r sa ea s hc] at hrun
        cases hrun
      | some p =>
        obtain ⟨cx, cy, hx, hy⟩ := hw.point_deref hc
        rw [add_arc_from_center_ok F c r sa ea s p cx cy hc (hw.point_lt hc) hx hy]
        exact ⟨[r, sa, ea, F.add cx (F.mul r (F.cos sa)), F.add cy (F.mul r (F.sin sa)),
          F.add cx (F.mul r (F.cos ea)), F.add cy (F.mul r (F.sin ea))],
          by simp [add_point_apply, add_param_apply], rfl⟩
    refine ⟨hp, fun h => ?_⟩
    obtain ⟨extra, he, hl⟩ := hp
    have hst := (store_of_wf (wf_prim F (.add_arc_from_center c r sa ea) hw)).2.2.2 h
    simp only [PrimCall.run, he, List.length_append, hl, Nat.cast_add] at hst
    rw [hst]
    norm_num
  · intro a b r id hrun
    obtain ⟨pa, pb, pr, sx, sy, ex, ey, rv, _, _, _, _, _, _, _, _, _, hpar, _⟩ :=
      arc_from_start_end_result F a b r id hw hrun
    refine ⟨⟨_, hpar, rfl⟩, fun h => ?_⟩
    have hst := (store_of_wf (wf_prim F (.add_arc_from_start_end a b r) hw)).2.2.2 h
    simp only [PrimCall.run, hpar, List.length_append, List.length_cons, List.length_nil,
      Nat.cast_add] at hst
    rw [hst]
    norm_num

/-- C21 evaluated: after a point and an arc around it the storage holds nine
values and exactly the handles `0..8` resolve. -/
theorem C21_store_invariant_witness :
    (execAll sampleOps sampleEngine (State.init Int)
      [.prim (.add_point 3 4), .prim (.add_arc_from_center 0 5 0 1)]).params_.length = 9
    ∧ ∀ h : Int, (∃ v, (get_param h (execAll sampleOps sampleEngine (State.init Int)
        [.prim (.add_point 3 4), .prim (.add_arc_from_center 0 5 0 1)])).2 = .ok v)
      ↔ (0 ≤ h ∧ h < (execAll sampleOps sampleEngine (State.init Int)
        [.prim (.add_point 3 4), .prim (.add_arc_from_center 0 5 0 1)]).params_.length) :=
  ⟨by simp [execAll, Op.exec, PrimCall.run, add_point_apply, add_param_apply, State.init,
      add_arc_from_center, Map.at, Map.assign, Map.find?, param_ptr],
    (C21_store_invariant sampleOps sampleEngine
      (execAll sampleOps sampleEngine (State.init Int)
        [.prim (.add_point 3 4), .prim (.add_arc_from_center 0 5 0 1)])
      (Reachable.execAll _ Reachable.init)).1.2.2.2⟩

/-- C25: `add_arc_from_start_end` is atomic on lookup failure. In every
reachable state, if `start_id` or `end_id` is not a registered point or
`radius_id` is not an issued parameter, the call throws NotFound and the whole
registry (parameter store, primitive maps, the three counters, the engine) is
exactly as before; if all three resolve, the call returns; so a failing call
always leaves the state as it was and NotFound is the only error. -/
theorem C25_arc_lookup_atomic {R : Type} (F : FloatOps R) (E : Engine R) (s : State R)
    (hs : Reachable F E s) (a b r : Int) :
    ((Map.contains s.points_ a = false ∨ Map.contains s.points_ b = false
        ∨ Map.contains s.param_index_ r = false) →
      add_arc_from_start_end F a b r s = (s, .error .notFound))
    ∧ ((Map.contains s.points_ a = true ∧ Map.contains s.points_ b = true
        ∧ Map.contains s.param_index_ r = true) →
      ∃ id, (add_arc_from_start_end F a b r s).2 = .ok id)
    ∧ (∀ e, (add_arc_from_start_end F a b r s).2 = .error e →
        e = .notFound ∧ (add_arc_from_start_end F a b r s).1 = s) := by
  have hw := hs.wf
  have hfail : (Map.contains s.points_ a = false ∨ Map.contains s.points_ b = false
        ∨ Map.contains s.param_index_ r = false) →
      add_arc_from_start_end F a b r s = (s, .error .notFound) := by
    intro h
    apply add_arc_from_start_end_fail F a b r s hw.points_valid
    simpa [Map.contains] using h
  have hok : (Map.contains s.points_ a = true ∧ Map.contains s.points_ b = true
        ∧ Map.contains s.param_index_ r = true) →
      ∃ id, (add_arc_from_start_end F a b r s).2 = .ok id := by
    rintro ⟨ha, hb, hr⟩
    rcases PrimCall.outcome F (.add_arc_from_start_end a b r) hw with ⟨_, id, hrun, _⟩ | ⟨h, _⟩
    · exact ⟨id, hrun⟩
    · simp [PrimCall.refsResolve, PrimCall.pointRefs, PrimCall.paramRefs, ha, hb, hr] at h
  refine ⟨hfail, hok, ?_⟩
  intro e he
  by_cases hall : Map.contains s.points_ a = true ∧ Map.contains s.points_ b = true
      ∧ Map.contains s.param_index_ r = true
  · obtain ⟨id, hid⟩ := hok hall
    rw [hid] at he
    cases he
  · have h := hfail (by
      simp only [not_and_or, Bool.not_eq_true] at hall
      exact hall)
    rw [h] at he ⊢
    cases he
    exact ⟨rfl, rfl⟩

/-- C25 evaluated: with one point and no parameter 9, the call throws and the
state is as before. -/
theorem C25_arc_lookup_atomic_witness :
    add_arc_from_start_end sampleOps 0 0 9
        (execAll sampleOps sampleEngine (State.init Int) [.prim (.add_point 1 2)])
      = (execAll sampleOps sampleEngine (State.init Int) [.prim (.add_point 1 2)],
          .error .notFound) :=
  (C25_arc_lookup_atomic sampleOps sampleEngine
    (execAll sampleOps sampleEngine (State.init Int) [.prim (.add_point 1 2)])
    (Reachable.execAll _ Reachable.init) 0 0 9).1
    (Or.inr (Or.inr (by simp [execAll, Op.exec, PrimCall.run, add_point_apply, State.init,
      Map.contains, Map.assign, Map.find?])))

/-! ## The partial operations of the arc derivation -/

/-- The derivation of `add_arc_from_start_end` written with its named
intermediate values: the square root is taken of `arc_sagitta_arg` and the
perpendicular is divided by `arc_perp_divisor`. -/
theorem arc_from_start_end_values_parts {R : Type} (F : FloatOps R) (sx sy ex ey radius : R) :
    arc_from_start_end_values F sx sy ex ey radius =
      (let h := F.sqrt (arc_sagitta_arg F sx sy ex ey radius)
       let cx := F.add (F.div (F.add sx ex) F.two)
         (F.mul h (F.div (F.neg (F.sub ey sy)) (arc_perp_divisor F sx sy ex ey)))
       let cy := F.add (F.div (F.add sy ey) F.two)
         (F.mul h (F.div (F.sub ex sx) (arc_perp_divisor F sx sy ex ey)))
       ((cx, cy), (F.atan2 (F.sub sy cy) (F.sub sx cx), F.atan2 (F.sub ey cy) (F.sub ex cx)))) :=
  rfl

theorem getElem?_append_add {α : Type} (l l2 : List α) (k : Nat) :
    (l ++ l2)[l.length + k]? = l2[k]? := by
  rw [List.getElem?_append_right (by omega)]
  congr 1
  omega

/-- What the six arc accessors return right after a successful
`add_arc_from_start_end`: the derived center and angles, the value of the
radius parameter as it is, and copies of the coordinates of the two end
points. -/
theorem arc_accessors_read {R : Type} (F : FloatOps R) {s : State R} (hs : WF s) {a b r : Int}
    {sx sy ex ey rv : R} (ha : (get_point a s).2 = .ok (sx, sy))
    (hb : (get_point b s).2 = .ok (ex, ey)) (hr : (get_param r s).2 = .ok rv) :
    (get_arc_radius (s.next_geo_id_ + 3) (add_arc_from_start_end F a b r s).1).2 = .ok rv
    ∧ (get_arc_start_angle (s.next_geo_id_ + 3) (add_arc_from_start_end F a b r s).1).2
        = .ok (arc_from_start_end_values F sx sy ex ey rv).2.1
    ∧ (get_arc_end_angle (s.next_geo_id_ + 3) (add_arc_from_start_end F a b r s).1).2
        = .ok (arc_from_start_end_values F sx sy ex ey rv).2.2
    ∧ (get_arc_start_point (s.next_geo_id_ + 3) (add_arc_from_start_end F a b r s).1).2
        = .ok (sx, sy)
    ∧ (get_arc_end_point (s.next_geo_id_ + 3) (add_arc_from_start_end F a b r s).1).2
        = .ok (ex, ey) := by
  obtain ⟨hrun, _⟩ := arc_center_read F hs ha hb hr
  obtain ⟨pa, pb, pr, sx1, sy1, ex1, ey1, rv1, hfa, hfb, hfr, hsx, hsy, hex, hey, hrv, _, hpar,
    harc, _⟩ := arc_from_start_end_result F a b r _ hs hrun
  simp [get_point, Map.at, hfa, hsx, hsy] at ha
  simp [get_point, Map.at, hfb, hex, hey] at hb
  simp [get_param, Map.at, hfr, hrv] at hr
  obtain ⟨rfl, rfl⟩ := ha
  obtain ⟨rfl, rfl⟩ := hb
  subst hr
  generalize arc_from_start_end_values F sx1 sy1 ex1 ey1 rv1 = v at hpar ⊢
  have e2 := getElem?_append_add s.params_ [v.1.1, v.1.2, v.2.1, v.2.2, sx1, sy1, ex1, ey1] 2
  have e3 := getElem?_append_add s.params_ [v.1.1, v.1.2, v.2.1, v.2.2, sx1, sy1, ex1, ey1] 3
  have e4 := getElem?_append_add s.params_ [v.1.1, v.1.2, v.2.1, v.2.2, sx1, sy1, ex1, ey1] 4
  have e5 := getElem?_append_add s.params_ [v.1.1, v.1.2, v.2.1, v.2.2, sx1, sy1, ex1, ey1] 5
  have e6 := getElem?_append_add s.params_ [v.1.1, v.1.2, v.2.1, v.2.2, sx1, sy1, ex1, ey1] 6
  have e7 := getElem?_append_add s.params_ [v.1.1, v.1.2, v.2.1, v.2.2, sx1, sy1, ex1, ey1] 7
  have er := getElem?_append_some hrv [v.1.1, v.1.2, v.2.1, v.2.2, sx1, sy1, ex1, ey1]
  rw [← hpar] at e2 e3 e4 e5 e6 e7 er
  simp only [List.getElem?_cons_succ, List.getElem?_cons_zero] at e2 e3 e4 e5 e6 e7
  refine ⟨?_, ?_, ?_, ?_, ?_⟩
  · simp [get_arc_radius, Map.at, harc, er]
  · simp [get_arc_start_angle, Map.at, harc, e2]
  · simp [get_arc_end_angle, Map.at, harc, e3]
  · simp [get_arc_start_point, Map.at, harc, e4, e5]
  · simp [get_arc_end_point, Map.at, harc, e6, e7]

/-! ## The constructed arc against its own radius -/

theorem polar_of_arg (u w : ℝ) :
    Real.sqrt (u ^ 2 + w ^ 2) * Real.cos (Complex.arg (Complex.mk u w)) = u
    ∧ Real.sqrt (u ^ 2 + w ^ 2) * Real.sin (Complex.arg (Complex.mk u w)) = w := by
  have habs : Complex.abs (Complex.mk u w) = Real.sqrt (u ^ 2 + w ^ 2) := by
    rw [Complex.abs_apply, Complex.normSq_mk, sq, sq]
  constructor
  · rw [← habs, Complex.abs_mul_cos_arg]
  · rw [← habs, Complex.abs_mul_sin_arg]

theorem arc_values_angles_exact {F : FloatOps ℝ} (hF : ExactReal F) (sx sy ex ey rv : ℝ) :
    (arc_from_start_end_values F sx sy ex ey rv).2 =
      (Complex.arg (Complex.mk (sx - (arc_from_start_end_values F sx sy ex ey rv).1.1)
          (sy - (arc_from_start_end_values F sx sy ex ey rv).1.2)),
       Complex.arg (Complex.mk (ex - (arc_from_start_end_values F sx sy ex ey rv).1.1)
          (ey - (arc_from_start_end_values F sx sy ex ey rv).1.2))) := by
  have h : (arc_from_start_end_values F sx sy ex ey rv).2 =
      (F.atan2 (F.sub sy (arc_from_start_end_values F sx sy ex ey rv).1.2)
          (F.sub sx (arc_from_start_end_values F sx sy ex ey rv).1.1),
       F.atan2 (F.sub ey (arc_from_start_end_values F sx sy ex ey rv).1.2)
          (F.sub ex (arc_from_start_end_values F sx sy ex ey rv).1.1)) := rfl
  rw [h]
  simp only [hF.atan2, hF.sub]

/-- In exact real arithmetic and for distinct end points, the derived center
is at the clamped radius from both end points. -/
theorem arc_center_dist_exact {F : FloatOps ℝ} (hF : ExactReal F) (sx sy ex ey rv : ℝ)
    (hne : (sx, sy) ≠ (ex, ey)) :
    Real.sqrt ((sx - (arc_from_start_end_values F sx sy ex ey rv).1.1) ^ 2
        + (sy - (arc_from_start_end_values F sx sy ex ey rv).1.2) ^ 2)
      = max |rv| (Real.sqrt ((ex - sx) ^ 2 + (ey - sy) ^ 2) / 2)
    ∧ Real.sqrt ((ex - (arc_from_start_end_values F sx sy ex ey rv).1.1) ^ 2
        + (ey - (arc_from_start_end_values F sx sy ex ey rv).1.2) ^ 2)
      = max |rv| (Real.sqrt ((ex - sx) ^ 2 + (ey - sy) ^ 2) / 2) := by
  rw [arc_values_center_exact hF]
  obtain ⟨hL, hr0, hL2, hd⟩ := arc_center_geometry sx sy ex ey rv hne
  generalize Real.sqrt ((ex - sx) ^ 2 + (ey - sy) ^ 2) = L at *
  generalize max |rv| (L / 2) = r0 at *
  generalize Real.sqrt (r0 ^ 2 - (L / 2) ^ 2) = d at *
  constructor
  · rw [show (sx - ((sx + ex) / 2 + d * (-(ey - sy) / L))) ^ 2
          + (sy - ((sy + ey) / 2 + d * ((ex - sx) / L))) ^ 2
        = ((ex - sx) / 2 + d * (-(ey - sy) / L)) ^ 2
          + ((ey - sy) / 2 + d * ((ex - sx) / L)) ^ 2 by ring,
      center_dist_start _ _ L d r0 hL hL2 hd]
    exact Real.sqrt_sq hr0
  · rw [show (ex - ((sx + ex) / 2 + d * (-(ey - sy) / L))) ^ 2
          + (ey - ((sy + ey) / 2 + d * ((ex - sx) / L))) ^ 2
        = (-(ex - sx) / 2 + d * (-(ey - sy) / L)) ^ 2
          + (-(ey - sy) / 2 + d * ((ex - sx) / L)) ^ 2 by ring,
      center_dist_end _ _ L d r0 hL hL2 hd]
    exact Real.sqrt_sq hr0

theorem clamp_eq_iff (rv H : ℝ) (hH : 0 ≤ H) : max |rv| H = rv ↔ H ≤ rv := by
  constructor
  · intro h
    rw [← h]
    exact le_max_right _ _
  · intro h
    rw [abs_of_nonneg (le_trans hH h)]
    exact max_eq_left h

/-- C24, amended: the constructed arc is consistent with the clamped radius. In
exact real arithmetic, for registered points `S ≠ E` and an issued radius
parameter of value `R`, right after `a = add_arc_from_start_end(S, E, radius_id)`
the accessors return the derived center and angles, `get_arc_radius(a) = R`
(the parameter as it is), `get_arc_start_point(a) = S` and
`get_arc_end_point(a) = E`; the distance from the center to either end point is
`r = max(|R|, |E - S| / 2)`, and each end point is the center plus
`r * (cos, sin)` of its angle. This `r` is `get_arc_radius(a)` exactly when
`R ≥ |E - S| / 2`. -/
theorem C24_arc_consistent_clamped (F : FloatOps ℝ) (hF : ExactReal F) (E : Engine ℝ)
    (s : State ℝ) (hs : Reachable F E s) (a b r : Int) (sx sy ex ey rv : ℝ)
    (ha : (get_point a s).2 = .ok (sx, sy)) (hb : (get_point b s).2 = .ok (ex, ey))
    (hr : (get_param r s).2 = .ok rv) (hne : (sx, sy) ≠ (ex, ey)) :
    ∃ id cx cy sa ea,
      (add_arc_from_start_end F a b r s).2 = .ok id
      ∧ (get_arc_center id (add_arc_from_start_end F a b r s).1).2 = .ok (cx, cy)
      ∧ (get_arc_radius id (add_arc_from_start_end F a b r s).1).2 = .ok rv
      ∧ (get_arc_start_angle id (add_arc_from_start_end F a b r s).1).2 = .ok sa
      ∧ (get_arc_end_angle id (add_arc_from_start_end F a b r s).1).2 = .ok ea
      ∧ (get_arc_start_point id (add_arc_from_start_end F a b r s).1).2 = .ok (sx, sy)
      ∧ (get_arc_end_point id (add_arc_from_start_end F a b r s).1).2 = .ok (ex, ey)
      ∧ Real.sqrt ((sx - cx) ^ 2 + (sy - cy) ^ 2)
          = max |rv| (Real.sqrt ((ex - sx) ^ 2 + (ey - sy) ^ 2) / 2)
      ∧ Real.sqrt ((ex - cx) ^ 2 + (ey - cy) ^ 2)
          = max |rv| (Real.sqrt ((ex - sx) ^ 2 + (ey - sy) ^ 2) / 2)
      ∧ sx = cx + max |rv| (Real.sqrt ((ex - sx) ^ 2 + (ey - sy) ^ 2) / 2) * Real.cos sa
      ∧ sy = cy + max |rv| (Real.sqrt ((ex - sx) ^ 2 + (ey - sy) ^ 2) / 2) * Real.sin sa
      ∧ ex = cx + max |rv| (Real.sqrt ((ex - sx) ^ 2 + (ey - sy) ^ 2) / 2) * Real.cos ea
      ∧ ey = cy + max |rv| (Real.sqrt ((ex - sx) ^ 2 + (ey - sy) ^ 2) / 2) * Real.sin ea
      ∧ (Real.sqrt ((sx - cx) ^ 2 + (sy - cy) ^ 2) = rv
          ↔ Real.sqrt ((ex - sx) ^ 2 + (ey - sy) ^ 2) / 2 ≤ rv)
      ∧ (Real.sqrt ((ex - cx) ^ 2 + (ey - cy) ^ 2) = rv
          ↔ Real.sqrt ((ex - sx) ^ 2 + (ey - sy) ^ 2) / 2 ≤ rv) := by
  obtain ⟨hrun, hcen⟩ := arc_center_read F hs.wf ha hb hr
  obtain ⟨hrad, hsa, hea, hsp, hep⟩ := arc_accessors_read F hs.wf ha hb hr
  obtain ⟨hd1, hd2⟩ := arc_center_dist_exact hF sx sy ex ey rv hne
  rw [arc_values_angles_exact hF] at hsa hea
  have hH : 0 ≤ Real.sqrt ((ex - sx) ^ 2 + (ey - sy) ^ 2) / 2 := by positivity
  have hiff := clamp_eq_iff rv _ hH
  generalize (arc_from_start_end_values F sx sy ex ey rv).1 = c at *
  obtain ⟨p1, p2⟩ := polar_of_arg (sx - c.1) (sy - c.2)
  obtain ⟨q1, q2⟩ := polar_of_arg (ex - c.1) (ey - c.2)
  rw [hd1] at p1 p2
  rw [hd2] at q1 q2
  refine ⟨_, c.1, c.2, _, _, hrun, hcen, hrad, hsa, hea, hsp, hep, hd1, hd2, ?_, ?_, ?_, ?_,
    ?_, ?_⟩
  · simp only
    linarith
  · simp only
    linarith
  · simp only
    linarith
  · simp only
    linarith
  · rw [hd1]
    exact hiff
  · rw [hd2]
    exact hiff

theorem arc_sample_next_geo {R : Type} (F : FloatOps R) (E : Engine R) (x1 y1 x2 y2 rv : R) :
    (execAll F E (State.init R)
      [.prim (.add_point x1 y1), .prim (.add_point x2 y2), .add_param rv none]).next_geo_id_
      = 2 := by
  simp [execAll, Op.exec, PrimCall.run, add_point_apply, add_param_apply, State.init]

/-- C24 as stated fails, on the specification's own example of a radius below
half the chord: with the real operations themselves, `S = (0, 0)`,
`E = (10, 0)` and `R = 2`, the call returns arc 5 with center `(5, 0)`, start
point `(0, 0)` and `get_arc_radius` 2, while the center is at distance 5 from
the start point. -/
theorem C24_counterexample :
    ∃ (F : FloatOps ℝ) (E : Engine ℝ), ExactReal F
      ∧ (add_arc_from_start_end F 0 1 4 (execAll F E (State.init ℝ)
          [.prim (.add_point 0 0), .prim (.add_point 10 0), .add_param 2 none])).2 = .ok 5
      ∧ (get_arc_center 5 (add_arc_from_start_end F 0 1 4 (execAll F E (State.init ℝ)
          [.prim (.add_point 0 0), .prim (.add_point 10 0), .add_param 2 none])).1).2
            = .ok (5, 0)
      ∧ (get_arc_start_point 5 (add_arc_from_start_end F 0 1 4 (execAll F E (State.init ℝ)
          [.prim (.add_point 0 0), .prim (.add_point 10 0), .add_param 2 none])).1).2
            = .ok (0, 0)
      ∧ (get_arc_radius 5 (add_arc_from_start_end F 0 1 4 (execAll F E (State.init ℝ)
          [.prim (.add_point 0 0), .prim (.add_point 10 0), .add_param 2 none])).1).2
            = .ok 2
      ∧ Real.sqrt (((5 : ℝ) - 0) ^ 2 + ((0 : ℝ) - 0) ^ 2) = 5
      ∧ Real.sqrt (((5 : ℝ) - 0) ^ 2 + ((0 : ℝ) - 0) ^ 2) ≠ 2 := by
  obtain ⟨F, hF⟩ : ∃ F : FloatOps ℝ, ExactReal F :=
    ⟨⟨fun a b => a + b, fun a b => a - b, fun a b => a * b, fun a b => a / b,
        fun a => -a, fun a b => decide (a < b), Real.sqrt, fun a => |a|, Real.cos, Real.sin,
        fun y x => Complex.arg (Complex.mk x y), 2⟩,
      ⟨fun _ _ => rfl, fun _ _ => rfl, fun _ _ => rfl, fun _ _ => rfl, fun _ => rfl,
        fun _ _ => decide_eq_true_iff, fun _ => rfl, fun _ => rfl, fun _ => rfl, fun _ => rfl,
        fun _ _ => rfl, rfl⟩⟩
  obtain ⟨E⟩ : Nonempty (Engine ℝ) :=
    ⟨⟨fun _ _ _ => (.Failed, []), fun _ _ => [], fun _ _ => 0, fun _ _ => [], fun _ _ => [],
      fun _ _ => [], fun _ _ _ => 0⟩⟩
  have hL : Real.sqrt (((10 : ℝ) - 0) ^ 2 + ((0 : ℝ) - 0) ^ 2) = 10 := by
    rw [show ((10 : ℝ) - 0) ^ 2 + ((0 : ℝ) - 0) ^ 2 = 10 ^ 2 by norm_num]
    exact Real.sqrt_sq (by norm_num)
  have h5 : Real.sqrt (((5 : ℝ) - 0) ^ 2 + ((0 : ℝ) - 0) ^ 2) = 5 := by
    rw [show ((5 : ℝ) - 0) ^ 2 + ((0 : ℝ) - 0) ^ 2 = 5 ^ 2 by norm_num]
    exact Real.sqrt_sq (by norm_num)
  have hw : WF (execAll F E (State.init ℝ)
      [.prim (.add_point 0 0), .prim (.add_point 10 0), .add_param 2 none]) :=
    (Reachable.execAll _ Reachable.init).wf
  obtain ⟨r1, r2, r3⟩ := arc_sample_reads F E 0 0 10 0 2
  obtain ⟨hrun, hcen⟩ := arc_center_read F hw r1 r2 r3
  obtain ⟨hrad, _, _, hsp, _⟩ := arc_accessors_read F hw r1 r2 r3
  have hid : (execAll F E (State.init ℝ)
      [.prim (.add_point 0 0), .prim (.add_point 10 0), .add_param 2 none]).next_geo_id_ + 3
      = 5 := by
    rw [arc_sample_next_geo]
    norm_num
  rw [hid] at hrun hcen hrad hsp
  have hc : (arc_from_start_end_values F 0 0 10 0 2).1 = ((5 : ℝ), (0 : ℝ)) := by
    rw [arc_values_center_exact hF, hL]
    have hm : max |(2 : ℝ)| (10 / 2) = 5 := by
      rw [abs_of_pos (by norm_num : (0 : ℝ) < 2)]
      norm_num
    rw [hm, show ((5 : ℝ) ^ 2 - (10 / 2) ^ 2) = 0 by norm_num, Real.sqrt_zero]
    norm_num
  rw [hc] at hcen
  refine ⟨F, E, hF, hrun, hcen, hsp, hrad, h5, ?_⟩
  rw [h5]
  norm_num

/-- C24 amended, evaluated with the real operations themselves at
`S = (0, 0)`, `E = (10, 0)`, `R = 10`: the radius reads 10 and the center is at
distance 10 from both end points. -/
theorem C24_arc_consistent_clamped_witness :
    ∃ (F : FloatOps ℝ) (E : Engine ℝ), ExactReal F
      ∧ ∃ id cx cy,
        (add_arc_from_start_end F 0 1 4 (execAll F E (State.init ℝ)
          [.prim (.add_point 0 0), .prim (.add_point 10 0), .add_param 10 none])).2 = .ok id
        ∧ (get_arc_center id (add_arc_from_start_end F 0 1 4 (execAll F E (State.init ℝ)
          [.prim (.add_point 0 0), .prim (.add_point 10 0), .add_param 10 none])).1).2
            = .ok (cx, cy)
        ∧ (get_arc_radius id (add_arc_from_start_end F 0 1 4 (execAll F E (State.init ℝ)
          [.prim (.add_point 0 0), .prim (.add_point 10 0), .add_param 10 none])).1).2
            = .ok 10
        ∧ Real.sqrt ((0 - cx) ^ 2 + (0 - cy) ^ 2) = 10
        ∧ Real.sqrt ((10 - cx) ^ 2 + (0 - cy) ^ 2) = 10 := by
  obtain ⟨F, hF⟩ : ∃ F : FloatOps ℝ, ExactReal F :=
    ⟨⟨fun a b => a + b, fun a b => a - b, fun a b => a * b, fun a b => a / b,
        fun a => -a, fun a b => decide (a < b), Real.sqrt, fun a => |a|, Real.cos, Real.sin,
        fun y x => Complex.arg (Complex.mk x y), 2⟩,
      ⟨fun _ _ => rfl, fun _ _ => rfl, fun _ _ => rfl, fun _ _ => rfl, fun _ => rfl,
        fun _ _ => decide_eq_true_iff, fun _ => rfl, fun _ => rfl, fun _ => rfl, fun _ => rfl,
        fun _ _ => rfl, rfl⟩⟩
  obtain ⟨E⟩ : Nonempty (Engine ℝ) :=
    ⟨⟨fun _ _ _ => (.Failed, []), fun _ _ => [], fun _ _ => 0, fun _ _ => [], fun _ _ => [],
      fun _ _ => [], fun _ _ _ => 0⟩⟩
  have hL : Real.sqrt (((10 : ℝ) - 0) ^ 2 + ((0 : ℝ) - 0) ^ 2) = 10 := by
    rw [show ((10 : ℝ) - 0) ^ 2 + ((0 : ℝ) - 0) ^ 2 = 10 ^ 2 by norm_num]
    exact Real.sqrt_sq (by norm_num)
  have hne : ((0 : ℝ), (0 : ℝ)) ≠ (10, 0) := by
    intro h
    have h1 := congrArg Prod.fst h
    norm_num at h1
  obtain ⟨id, cx, cy, sa, ea, h1, h2, h3, _, _, _, _, _, _, _, _, _, _, h14, h15⟩ :=
    C24_arc_consistent_clamped F hF E
      (execAll F E (State.init ℝ)
        [.prim (.add_point 0 0), .prim (.add_point 10 0), .add_param 10 none])
      (Reachable.execAll _ Reachable.init) 0 1 4 0 0 10 0 10
      (arc_sample_reads F E 0 0 10 0 10).1 (arc_sample_reads F E 0 0 10 0 10).2.1
      (arc_sample_reads F E 0 0 10 0 10).2.2 hne
  have hle : Real.sqrt (((10 : ℝ) - 0) ^ 2 + ((0 : ℝ) - 0) ^ 2) / 2 ≤ 10 := by
    rw [hL]
    norm_num
  exact ⟨F, E, hF, id, cx, cy, h1, h2, h3, h14.2 hle, h15.2 hle⟩

/-! ## Fixed flags and issued handles -/

theorem allocAll_flags {R : Type} (vs : List R) (s : State R) :
    (allocAll s vs).next_param_id_ = s.next_param_id_ + vs.length
    ∧ ∀ h, Map.contains (allocAll s vs).param_fixed_ h = true →
        Map.contains s.param_fixed_ h = true
          ∨ (s.next_param_id_ ≤ h ∧ h < s.next_param_id_ + vs.length) := by
  induction vs generalizing s with
  | nil => exact ⟨by simp [allocAll], fun h hh => Or.inl hh⟩
  | cons v rest ih =>
    obtain ⟨h1, h2⟩ := ih (add_param v false s).1
    have he : allocAll s (v :: rest) = allocAll (add_param v false s).1 rest := rfl
    rw [he]
    refine ⟨?_, ?_⟩
    · rw [h1]
      simp [add_param_apply]
      omega
    · intro h hh
      rcases h2 h hh with h3 | h3
      · simp only [add_param_apply, Map.contains_assign, Bool.or_eq_true,
          decide_eq_true_eq] at h3
        rcases h3 with h3 | h3
        · right
          simp only [List.length_cons, Nat.cast_add, Nat.cast_one]
          omega
        · exact Or.inl h3
      · right
        simp only [add_param_apply] at h3
        simp only [List.length_cons, Nat.cast_add, Nat.cast_one]
        omega

/-- A constructor touches the fixed flags and the parameter counter only
through the `add_param` calls it makes. -/
theorem prim_store {R : Type} (F : FloatOps R) (c : PrimCall R) {s : State R} (hs : WF s) :
    ∃ vs, (c.run F s).1.param_fixed_ = (allocAll s vs).param_fixed_
      ∧ (c.run F s).1.next_param_id_ = (allocAll s vs).next_param_id_ := by
  cases c with
  | add_point x y =>
    exact ⟨[x, y], by simp [PrimCall.run, add_point_apply, allocAll, add_param_apply],
      by simp [PrimCall.run, add_point_apply, allocAll, add_param_apply]⟩
  | add_line_coords x1 y1 x2 y2 =>
    exact ⟨[x1, y1, x2, y2],
      by simp [PrimCall.run, add_line_coords_apply, add_point_apply, allocAll, add_param_apply],
      by simp [PrimCall.run, add_line_coords_apply, add_point_apply, allocAll,
        add_param_apply]⟩
  | add_line a b =>
    simp only [PrimCall.run, add_line_apply]; split <;> exact ⟨[], rfl, rfl⟩
  | add_circle c r =>
    simp only [PrimCall.run, add_circle_apply]; split <;> exact ⟨[r], rfl, rfl⟩
  | add_ellipse c f rm =>
    simp only [PrimCall.run, add_ellipse_apply]; split <;> exact ⟨[rm], rfl, rfl⟩
  | add_hyperbola c f rm =>
    simp only [PrimCall.run, add_hyperbola_apply]; split <;> exact ⟨[rm], rfl, rfl⟩
  | add_parabola v f =>
    simp only [PrimCall.run, add_parabola_apply]; split <;> exact ⟨[], rfl, rfl⟩
  | add_arc_of_ellipse c f rm sa ea a b =>
    simp only [PrimCall.run, add_arc_of_ellipse_apply]
    split <;> exact ⟨[rm, sa, ea], rfl, rfl⟩
  | add_arc_of_hyperbola c f rm sa ea a b =>
    simp only [PrimCall.run, add_arc_of_hyperbola_apply]
    split <;> exact ⟨[rm, sa, ea], rfl, rfl⟩
  | add_arc_of_parabola v f sa ea a b =>
    simp only [PrimCall.run, add_arc_of_parabola_apply]
    split <;> exact ⟨[sa, ea], rfl, rfl⟩
  | add_arc_from_center c r sa ea =>
    cases hc : Map.find? s.points_ c with
    | none =>
      simp only [PrimCall.run, add_arc_from_center_fail F c r sa ea s hc]
      exact ⟨[r, sa, ea], rfl, rfl⟩
    | some p =>
      obtain ⟨cx, cy, hx, hy⟩ := hs.point_deref hc
      simp only [PrimCall.run,
        add_arc_from_center_ok F c r sa ea s p cx cy hc (hs.point_lt hc) hx hy]
      exact ⟨[r, sa, ea, F.add cx (F.mul r (F.cos sa)), F.add cy (F.mul r (F.sin sa)),
          F.add cx (F.mul r (F.cos ea)), F.add cy (F.mul r (F.sin ea))],
        by simp [add_point_apply, allocAll, add_param_apply],
        by simp [add_point_apply, allocAll, add_param_apply]⟩
  | add_arc_from_start_end a b r =>
    by_cases hres : PrimCall.refsResolve s (.add_arc_from_start_end a b r) = true
    · simp only [PrimCall.refsResolve, PrimCall.pointRefs, PrimCall.paramRefs, List.all_cons,
        List.all_nil, Bool.and_true, Bool.and_eq_true, Map.contains,
        Option.isSome_iff_exists] at hres
      obtain ⟨⟨⟨pa, ha⟩, pb, hb⟩, pr, hr⟩ := hres
      obtain ⟨sx, sy, hsx, hsy⟩ := hs.point_deref ha
      obtain ⟨ex, ey, hex, hey⟩ := hs.point_deref hb
      obtain ⟨_, hrn, _, hpr⟩ := hs.param_lookup hr
      have hrv : s.params_[pr]? = some (s.params_[pr]) := List.getElem?_eq_getElem hpr
      have hrun := add_arc_from_start_end_ok F a b r s pa pb pr sx sy ex ey _ ha hb hr
        (hs.point_lt ha) (hs.point_lt hb) hrn hsx hsy hex hey hrv
      generalize arc_from_start_end_values F sx sy ex ey s.params_[pr] = v at hrun
      simp only [PrimCall.run, hrun]
      exact ⟨[v.1.1, v.1.2, v.2.1, v.2.2, sx, sy, ex, ey],
        by simp [add_point_apply, allocAll, add_param_apply],
        by simp [add_point_apply, allocAll, add_param_apply]⟩
    · rcases PrimCall.outcome F (.add_arc_from_start_end a b r) hs with ⟨h, _⟩ | ⟨_, h⟩
      · exact absurd h hres
      · rw [h]
        exact ⟨[], rfl, rfl⟩

/-- Calls other than allocation, `clear` and `set_param_fixed` leave the fixed
flags and the parameter counter as they are. -/
theorem exec_fixed_frame {R : Type} (F : FloatOps R) (E : Engine R) (op : Op R) (s : State R)
    (h1 : op.isAlloc = false) (h2 : op.isClear = false)
    (h3 : ∀ id b, op ≠ .set_param_fixed id b) :
    (op.exec F E s).param_fixed_ = s.param_fixed_
      ∧ (op.exec F E s).next_param_id_ = s.next_param_id_ := by
  cases op with
  | add_param v f => simp [Op.isAlloc] at h1
  | prim c => simp [Op.isAlloc] at h1
  | clear => simp [Op.isClear] at h2
  | set_param_fixed id b => exact absurd rfl (h3 id b)
  | constraint c =>
    simp only [Op.exec, CCall.run_eq, register_apply]
    split <;> exact ⟨rfl, rfl⟩
  | set_param id v =>
    simp only [Op.exec, set_param, M.bind_apply, getS_apply, liftE_apply, Map.at]
    cases Map.find? s.param_index_ id with
    | none => exact ⟨rfl, rfl⟩
    | some idx =>
      by_cases hi : idx < s.params_.length
      · simp [hi]
      · simp [hi]
  | declare_unknowns => exact ⟨rfl, rfl⟩
  | init_solution alg => cases alg <;> exact ⟨rfl, rfl⟩
  | apply_solution => exact ⟨rfl, rfl⟩
  | dof => exact ⟨rfl, rfl⟩
  | diagnose alg => cases alg <;> exact ⟨rfl, rfl⟩
  | clear_by_tag t =>
    simp only [Op.exec, clear_by_tag, M.bind_apply, getS_apply, liftE_apply]
    cases System.clearByTag s.system_ t <;> exact ⟨rfl, rfl⟩
  | constraint_error t =>
    simp only [Op.exec, constraint_error, M.bind_apply, getS_apply, liftE_apply]
    cases System.calculateConstraintErrorByTag E s.system_ s.params_ t <;> exact ⟨rfl, rfl⟩
  | solve alg =>
    have key : ∀ a, (solve E a s).1.param_fixed_ = s.param_fixed_
        ∧ (solve E a s).1.next_param_id_ = s.next_param_id_ := by
      intro a
      rw [solve_apply]
      simp only
      split_ifs <;> exact ⟨rfl, rfl⟩
    cases alg with
    | none => exact key _
    | some a => exact key a

theorem flagsIssued_exec {R : Type} (F : FloatOps R) (E : Engine R) (op : Op R) {s : State R}
    (hs : WF s) (hf : FlagsIssued s) (hop : op.flagOnIssued s = true) :
    FlagsIssued (op.exec F E s) := by
  have hgrow : ∀ (s' : State R) (k : Nat),
      s'.next_param_id_ = s.next_param_id_ + k →
      (∀ h, Map.contains s'.param_fixed_ h = true →
        Map.contains s.param_fixed_ h = true
          ∨ (s.next_param_id_ ≤ h ∧ h < s.next_param_id_ + k)) → FlagsIssued s' := by
    intro s' k hn hk h hh
    unfold Issued
    rw [hn]
    rcases hk h hh with h1 | h1
    · have := hf h h1
      unfold Issued at this
      omega
    · have : 0 ≤ s.next_param_id_ := by rw [hs.next_param]; omega
      omega
  cases op with
  | add_param v f =>
    have key : ∀ b, FlagsIssued (add_param v b s).1 := by
      intro b
      apply hgrow _ 1 (by simp [add_param_apply])
      intro h hh
      simp only [add_param_apply, Map.contains_assign, Bool.or_eq_true,
        decide_eq_true_eq] at hh
      rcases hh with hh | hh
      · right
        omega
      · exact Or.inl hh
    cases f with
    | none => exact key _
    | some b => exact key b
  | prim c =>
    obtain ⟨vs, h1, h2⟩ := prim_store F c hs
    obtain ⟨h3, h4⟩ := allocAll_flags vs s
    apply hgrow _ vs.length
    · simp only [Op.exec]
      rw [h2, h3]
    · intro h hh
      simp only [Op.exec] at hh
      rw [h1] at hh
      exact h4 h hh
  | clear =>
    intro h hh
    simp [Op.exec, clear, Map.contains, Map.find?] at hh
  | set_param_fixed id b =>
    simp only [Op.flagOnIssued, decide_eq_true_eq] at hop
    intro h hh
    simp only [Op.exec, set_param_fixed, modifyS_apply, Map.contains_assign, Bool.or_eq_true,
      decide_eq_true_eq] at hh
    rcases hh with hh | hh
    · subst hh
      exact hop
    · exact hf h hh
  | constraint c =>
    obtain ⟨e1, e2⟩ := exec_fixed_frame F E (.constraint c) s rfl rfl (fun _ _ h => by cases h)
    intro h hh
    rw [e1] at hh
    unfold Issued
    rw [e2]
    exact hf h hh
  | set_param id v =>
    obtain ⟨e1, e2⟩ := exec_fixed_frame F E (.set_param id v) s rfl rfl (fun _ _ h => by cases h)
    intro h hh
    rw [e1] at hh
    unfold Issued
    rw [e2]
    exact hf h hh
  | declare_unknowns =>
    obtain ⟨e1, e2⟩ := exec_fixed_frame F E .declare_unknowns s rfl rfl (fun _ _ h => by cases h)
    intro h hh
    rw [e1] at hh
    unfold Issued
    rw [e2]
    exact hf h hh
  | init_solution alg =>
    obtain ⟨e1, e2⟩ := exec_fixed_frame F E (.init_solution alg) s rfl rfl
      (fun _ _ h => by cases h)
    intro h hh
    rw [e1] at hh
    unfold Issued
    rw [e2]
    exact hf h hh
  | solve alg =>
    obtain ⟨e1, e2⟩ := exec_fixed_frame F E (.solve alg) s rfl rfl (fun _ _ h => by cases h)
    intro h hh
    rw [e1] at hh
    unfold Issued
    rw [e2]
    exact hf h hh
  | apply_solution =>
    obtain ⟨e1, e2⟩ := exec_fixed_frame F E .apply_solution s rfl rfl (fun _ _ h => by cases h)
    intro h hh
    rw [e1] at hh
    unfold Issued
    rw [e2]
    exact hf h hh
  | dof =>
    obtain ⟨e1, e2⟩ := exec_fixed_frame F E .dof s rfl rfl (fun _ _ h => by cases h)
    intro h hh
    rw [e1] at hh
    unfold Issued
    rw [e2]
    exact hf h hh
  | diagnose alg =>
    obtain ⟨e1, e2⟩ := exec_fixed_frame F E (.diagnose alg) s rfl rfl (fun _ _ h => by cases h)
    intro h hh
    rw [e1] at hh
    unfold Issued
    rw [e2]
    exact hf h hh
  | clear_by_tag t =>
    obtain ⟨e1, e2⟩ := exec_fixed_frame F E (.clear_by_tag t) s rfl rfl (fun _ _ h => by cases h)
    intro h hh
    rw [e1] at hh
    unfold Issued
    rw [e2]
    exact hf h hh
  | constraint_error t =>
    obtain ⟨e1, e2⟩ := exec_fixed_frame F E (.constraint_error t) s rfl rfl
      (fun _ _ h => by cases h)
    intro h hh
    rw [e1] at hh
    unfold Issued
    rw [e2]
    exact hf h hh

theorem flagsIssued_execAll {R : Type} (F : FloatOps R) (E : Engine R) (ops : List (Op R)) :
    ∀ {s : State R}, WF s → FlagsIssued s → flagsOnIssued F E s ops = true →
      FlagsIssued (execAll F E s ops) := by
  induction ops with
  | nil => intro s _ hf _; exact hf
  | cons op rest ih =>
    intro s hs hf hops
    simp only [flagsOnIssued, Bool.and_eq_true] at hops
    exact ih (wf_exec F E op hs) (flagsIssued_exec F E op hs hf hops.1) hops.2

/-- C22 as stated fails: on a fresh solver `set_param_fixed(7, true)` records
the flag although handle 7 was never issued; afterwards `is_param_fixed(7)` is
true, `get_param(7)` throws NotFound, and the flag map has changed. -/
theorem C22_counterexample :
    is_param_fixed (execAll sampleOps sampleEngine (State.init Int)
        [.set_param_fixed 7 true]) 7 = true
    ∧ (get_param 7 (execAll sampleOps sampleEngine (State.init Int)
        [.set_param_fixed 7 true])).2 = .error .notFound
    ∧ (State.init Int).param_fixed_ = []
    ∧ (execAll sampleOps sampleEngine (State.init Int)
        [.set_param_fixed 7 true]).param_fixed_ = [(7, true)] := by
  refine ⟨rfl, rfl, rfl, rfl⟩

theorem unknownSlots_set_fixed {R : Type} {s : State R} {h : Int}
    (hh : ¬ Issued s h) (b : Bool) :
    unknownSlots (set_param_fixed h b s).1 = unknownSlots s := by
  unfold unknownSlots
  simp only [set_param_fixed, modifyS_apply]
  congr 1
  apply List.filter_congr
  intro k hk
  have hk' := List.mem_range.mp hk
  have hne : h ≠ Int.ofNat k := by
    intro he
    apply hh
    unfold Issued
    subst he
    constructor
    · exact Int.ofNat_nonneg k
    · show (k : Int) < s.next_param_id_
      omega
  simp only [is_param_fixed]
  rw [Map.find?_assign_ne _ _ _ _ hne]

/-- C22, amended: the fixed flags are kept in a map of their own, written
without a lookup. As long as `set_param_fixed` has only been called with handles
issued at the time of the call, `is_param_fixed(h) = true` implies that
`get_param(h)` succeeds. In every reachable state, `set_param_fixed(h, b)` with
a handle that is not issued succeeds and records the flag: afterwards
`is_param_fixed(h) = b` while `get_param(h)` still throws NotFound; nothing but
the flag map changes, the flags of the other handles stay as they were, and
the list of unknowns declared to the engine is the same as before. -/
theorem C22_fixed_flags {R : Type} (F : FloatOps R) (E : Engine R) (ops : List (Op R))
    (hops : flagsOnIssued F E (State.init R) ops = true) (s : State R)
    (hs : Reachable F E s) :
    (∀ h, is_param_fixed (execAll F E (State.init R) ops) h = true →
        ∃ v, (get_param h (execAll F E (State.init R) ops)).2 = .ok v)
    ∧ (∀ h b, ¬ Issued s h →
        set_param_fixed h b s
            = ({ s with param_fixed_ := Map.assign s.param_fixed_ h b }, .ok ())
        ∧ is_param_fixed (set_param_fixed h b s).1 h = b
        ∧ (get_param h (set_param_fixed h b s).1).2 = .error .notFound
        ∧ (∀ k, k ≠ h → is_param_fixed (set_param_fixed h b s).1 k = is_param_fixed s k)
        ∧ (declare_unknowns (set_param_fixed h b s).1).1.system_.unknowns
            = (declare_unknowns s).1.system_.unknowns) := by
  constructor
  · intro h hfix
    have hw : WF (execAll F E (State.init R) ops) := wf_execAll F E ops (wf_init R)
    have hf : FlagsIssued (execAll F E (State.init R) ops) :=
      flagsIssued_execAll F E ops (wf_init R)
        (fun k hk => by simp [State.init, Map.contains, Map.find?] at hk) hops
    have hi : Issued (execAll F E (State.init R) ops) h := by
      apply hf
      unfold is_param_fixed at hfix
      unfold Map.contains
      cases hc : Map.find? (execAll F E (State.init R) ops).param_fixed_ h with
      | none => rw [hc] at hfix; cases hfix
      | some b => rfl
    obtain ⟨v, _, hv⟩ := get_param_issued hw hi
    exact ⟨v, by rw [hv]⟩
  · intro h b hh
    have hw := hs.wf
    have hw' : WF (set_param_fixed h b s).1 := wf_exec F E (.set_param_fixed h b) hw
    have hni : ¬ Issued (set_param_fixed h b s).1 h := hh
    refine ⟨rfl, ?_, ?_, ?_, ?_⟩
    · simp [is_param_fixed, set_param_fixed, modifyS_apply, Map.find?_assign_self]
    · rw [get_param_not_issued hw' hni]
    · intro k hk
      simp only [is_param_fixed, set_param_fixed, modifyS_apply]
      rw [Map.find?_assign_ne _ _ _ _ (Ne.symm hk)]
    · rw [declare_unknowns_spec hw', declare_unknowns_spec hw, unknownSlots_set_fixed hh]
      rfl

/-- C22 amended, evaluated: a flag set on the issued handle 0 belongs to a
parameter that resolves; a flag set on the unissued handle 7 reads back true. -/
theorem C22_fixed_flags_witness :
    (∃ v, (get_param 0 (execAll sampleOps sampleEngine (State.init Int)
        [.add_param 5 none, .set_param_fixed 0 true])).2 = .ok v)
    ∧ is_param_fixed (set_param_fixed 7 true (State.init Int)).1 7 = true :=
  ⟨(C22_fixed_flags sampleOps sampleEngine [.add_param 5 none, .set_param_fixed 0 true]
      (by decide) (State.init Int) Reachable.init).1 0 (by decide),
   ((C22_fixed_flags sampleOps sampleEngine [.add_param 5 none, .set_param_fixed 0 true]
      (by decide) (State.init Int) Reachable.init).2 7 true (by decide)).2.1⟩

end PlaneGCS
